import Mathlib

/-!
# beatsaber-hook: pattern search, hook registry, method invocation and wrappers

A shallow embedding of `shared/utils/capstone-utils.hpp`, `shared/utils/hook-tracker.hpp`,
the install path of `shared/utils/hooking.hpp`, of `ParameterMatch`,
`FindMethodInfo` and `RunMethod` of `shared/utils/il2cpp-utils-methods.hpp` (with
`Result` of `shared/utils/result.hpp`), and of `Counter`, `SafePtr::try_cast`,
`ListWrapper::insert_at`, `ListWrapper::find` and `Array<T>::Copy` of the
`typedefs-*.hpp` wrappers, with their properties stated and proved over it.

Conventions of the embedding.
* Addresses and pointers are natural numbers (byte addresses), `0` for `nullptr`.
* `uint32_t` and `uint64_t`/`size_t` arithmetic is taken modulo `2^32` and `2^64`.
* `int` variables (`retCount`, `_size`, the indices of `Copy`) are integers;
  signed overflow is undefined behaviour in C++ and is not given a meaning here.
* The capstone decoder, the rewrite primitive `A64HookFunction` and the managed
  runtime are external: they are parameters (`Capstone`, a function, `Runtime`,
  `CastEnv`).
* A throwing function gives its exception as a value (`Except`, or an outcome
  that carries the state at the throw).
* Logging is left out, except that warnings of `ParameterMatch` and `RunMethod`
  are collected by their format strings.
-/

/-! ## Definitions -/

namespace cs

/-- The part of capstone's `cs_insn` that the search reads: the instruction id,
its address, its size in bytes, and `imm`, standing for the operand detail that
the conversion callbacks (`blConv`, `bConv`, ...) extract. -/
structure cs_insn where
  id : Nat
  address : Nat
  size : Nat
  imm : Nat
  deriving DecidableEq

/-- The capstone handle returned by `getHandle()`: the id of the return
instruction (`ARM64_INS_RET` of capstone's `arm64.h`) and the decoder proper,
called with the code pointer, the number of bytes left and the address to
report; `none` is a failed decode. -/
structure Capstone where
  ARM64_INS_RET : Nat
  disasm : Nat → Nat → Nat → Option cs_insn

/-- `cs_disasm_iter(handle, &code, &size, &address, insn)`: on success the code
pointer and the address advance by the instruction size and the size (a
`size_t`) shrinks by it; on failure nothing is changed. Returns the decoded
instruction (if any) and the new code pointer, size and address. -/
def cs_disasm_iter (h : Capstone) (code size address : Nat) :
    Option cs_insn × Nat × Nat × Nat :=
  match h.disasm code size address with
  | some insn =>
    (some insn, code + insn.size, (size + 2 ^ 64 - insn.size % 2 ^ 64) % 2 ^ 64,
      address + insn.size)
  | none => (none, code, size, address)

/-- `struct AddrSearchPair`: a scan window, cursor and remaining size in bytes. -/
structure AddrSearchPair where
  addr : Nat
  remSearchSize : Nat
  deriving DecidableEq

/-- How the inner `while` loop of `findNth` is left: by a `return` of the
function, or because the window is used up. Both carry the window and the two
counters as they stand at that point. -/
inductive LoopExit (R : Type) where
  | returned (res : Option R) (w : AddrSearchPair) (nToRetOn : Nat) (retCount : Int)
  | exhausted (w : AddrSearchPair) (nToRetOn : Nat) (retCount : Int)
  deriving DecidableEq

/-- The `while (addrs[searchIdx].remSearchSize > 0)` loop of the multi-window
`findNth` (capstone-utils.hpp lines 46-88) on one window. `fuel` bounds the
number of iterations; `none` means the bound was hit. -/
def whileLoop {R : Type} (h : Capstone) (mtch : cs_insn → Option R) (skip : cs_insn → Bool) :
    Nat → AddrSearchPair → Nat → Int → Option (LoopExit R)
  | 0, _, _, _ => none
  | fuel + 1, w, nToRetOn, retCount =>
    if 0 < w.remSearchSize then
      let ptr := w.addr
      match cs_disasm_iter h w.addr w.remSearchSize ptr with
      | (some insn, addr, remSearchSize, _) =>
        let w1 : AddrSearchPair := ⟨addr, remSearchSize⟩
        if insn.id = h.ARM64_INS_RET then
          if retCount = 0 then
            some (.returned none w1 nToRetOn retCount)
          else
            whileLoop h mtch skip fuel w1 nToRetOn (retCount - 1)
        else
          match mtch insn with
          | some testRes =>
            if nToRetOn = 1 then
              some (.returned (some testRes) w1 nToRetOn retCount)
            else
              whileLoop h mtch skip fuel w1 ((nToRetOn + 2 ^ 32 - 1) % 2 ^ 32) retCount
          | none =>
            if skip insn then
              if nToRetOn = 1 then
                some (.returned none w1 nToRetOn retCount)
              else
                whileLoop h mtch skip fuel w1 ((nToRetOn + 2 ^ 32 - 1) % 2 ^ 32) retCount
            else
              whileLoop h mtch skip fuel w1 nToRetOn retCount
      | (none, addr, remSearchSize, _) =>
        whileLoop h mtch skip fuel ⟨addr + 4, (remSearchSize + 2 ^ 64 - 4) % 2 ^ 64⟩
          nToRetOn retCount
    else
      some (.exhausted w nToRetOn retCount)

/-- What `findNth` leaves behind: the returned optional, the window array
(passed by reference and advanced in place) and the two counters at the
`return`. -/
structure Final (R : Type) where
  result : Option R
  addrs : List AddrSearchPair
  nToRetOn : Nat
  retCount : Int
  deriving DecidableEq

/-- `cs::findNth(addrs, nToRetOn, retCount, match, skip)`, the multi-window
form (capstone-utils.hpp lines 42-95): the `for` loop over the windows around
`whileLoop`. Every window gets `fuel` iterations. -/
def findNth {R : Type} (h : Capstone) (fuel : Nat) :
    List AddrSearchPair → Nat → Int → (cs_insn → Option R) → (cs_insn → Bool) →
    Option (Final R)
  | [], nToRetOn, retCount, _, _ => some ⟨none, [], nToRetOn, retCount⟩
  | w :: rest, nToRetOn, retCount, mtch, skip =>
    match whileLoop h mtch skip fuel w nToRetOn retCount with
    | none => none
    | some (.returned res w1 n1 r1) => some ⟨res, w1 :: rest, n1, r1⟩
    | some (.exhausted w1 n1 r1) =>
      match findNth h fuel rest n1 r1 mtch skip with
      | none => none
      | some f => some ⟨f.result, w1 :: f.addrs, f.nToRetOn, f.retCount⟩

/-- The decode results the scan obtains from `words` consecutive 4-byte words
starting at `addr`: at each word the decoder is called as the loop calls it
(code pointer and reported address at the word, size the bytes left). -/
def wordStream (h : Capstone) : Nat → Nat → List (Option cs_insn)
  | _, 0 => []
  | addr, k + 1 => h.disasm addr (4 * (k + 1)) addr :: wordStream h (addr + 4) k

/-- The instruction stream of one window. -/
def windowStream (h : Capstone) (w : AddrSearchPair) : List (Option cs_insn) :=
  wordStream h w.addr (w.remSearchSize / 4)

/-- The instruction stream of a window list: the windows' streams in order. -/
def streams (h : Capstone) (ws : List AddrSearchPair) : List (Option cs_insn) :=
  (ws.map (windowStream h)).flatten

/-- The instructions that count toward the N-th match: successfully decoded,
not a return, and satisfying `match` or `skip`; in scan order. -/
def candidates {R : Type} (RET : Nat) (mtch : cs_insn → Option R) (skip : cs_insn → Bool)
    (s : List (Option cs_insn)) : List cs_insn :=
  (s.filterMap id).filter (fun i => decide (i.id ≠ RET) && ((mtch i).isSome || skip i))

/-- The return instructions of a stream. -/
def returns (RET : Nat) (s : List (Option cs_insn)) : List cs_insn :=
  (s.filterMap id).filter (fun i => decide (i.id = RET))

/-- Total of the remaining sizes of a window list, in bytes. -/
def remaining (ws : List AddrSearchPair) : Nat :=
  (ws.map (fun w => w.remSearchSize)).sum

/-- Window sizes in the domain of the search: a multiple of the instruction
width that fits the `uint64_t` field. -/
def ValidWindows (ws : List AddrSearchPair) : Prop :=
  ∀ w ∈ ws, w.remSearchSize % 4 = 0 ∧ w.remSearchSize < 2 ^ 64

instance (ws : List AddrSearchPair) : Decidable (ValidWindows ws) := by
  unfold ValidWindows
  infer_instance

/-- The decoder is an AArch64 one: every decoded instruction is 4 bytes wide. -/
def FixedWidth (h : Capstone) : Prop :=
  ∀ code size address insn, h.disasm code size address = some insn → insn.size = 4

/-- Result of replaying the loop on a stream: whether the function returned,
with what, after how many words, and the counters at that point. -/
structure ScanRes (R : Type) where
  returned : Bool
  result : Option R
  consumed : Nat
  nToRetOn : Nat
  retCount : Int

/-- One more word consumed. -/
def ScanRes.bump {R : Type} (x : ScanRes R) : ScanRes R :=
  { x with consumed := x.consumed + 1 }

/-- The body of the `findNth` loop applied to a list of decode results instead
of to memory. Used only to reason about `findNth`, which is shown equal to it
on valid windows. -/
def scan {R : Type} (RET : Nat) (mtch : cs_insn → Option R) (skip : cs_insn → Bool) :
    List (Option cs_insn) → Nat → Int → ScanRes R
  | [], n, r => ⟨false, none, 0, n, r⟩
  | none :: s, n, r => (scan RET mtch skip s n r).bump
  | some insn :: s, n, r =>
    if insn.id = RET then
      if r = 0 then ⟨true, none, 1, n, r⟩
      else (scan RET mtch skip s n (r - 1)).bump
    else
      match mtch insn with
      | some testRes =>
        if n = 1 then ⟨true, some testRes, 1, n, r⟩
        else (scan RET mtch skip s ((n + 2 ^ 32 - 1) % 2 ^ 32) r).bump
      | none =>
        if skip insn then
          if n = 1 then ⟨true, none, 1, n, r⟩
          else (scan RET mtch skip s ((n + 2 ^ 32 - 1) % 2 ^ 32) r).bump
        else (scan RET mtch skip s n r).bump

/-- The loop exit that corresponds to a replay result on a window of `k` words
at `a`. -/
def toExit {R : Type} (a k : Nat) (x : ScanRes R) : LoopExit R :=
  if x.returned then
    .returned x.result ⟨a + 4 * x.consumed, 4 * (k - x.consumed)⟩ x.nToRetOn x.retCount
  else
    .exhausted ⟨a + 4 * k, 0⟩ x.nToRetOn x.retCount

/-- The same result, with `k` more words accounted for. -/
def ScanRes.shift {R : Type} (k : Nat) (x : ScanRes R) : ScanRes R :=
  { x with consumed := x.consumed + k }

/-- `insnMatch<args...>(insn)`: the instruction id is one of `args`; with no
`args` it is `false`. -/
def insnMatch (args : List Nat) (insn : cs_insn) : Bool :=
  args.any (fun a => insn.id == a)

/-- A decoder over a program listing, used in the worked examples: `prog` gives
the instruction id and operand of each listed word address. A word that is not
listed fails to decode, and so does any word when fewer than four bytes are
left. -/
def listingDisasm (prog : List (Nat × Nat × Nat)) (code size address : Nat) :
    Option cs_insn :=
  if size < 4 then none
  else
    match prog.lookup code with
    | some (id, imm) => some ⟨id, address, 4, imm⟩
    | none => none

/-- Instruction ids of the worked examples. -/
def exRET : Nat := 1

/-- Id of the branch-with-link instruction in the worked examples. -/
def exBL : Nat := 2

/-- Id of the branch-with-link-to-register instruction in the worked examples. -/
def exBLR : Nat := 3

/-- The handle of the worked examples over a listing. -/
def exHandle (prog : List (Nat × Nat × Nat)) : Capstone :=
  ⟨exRET, listingDisasm prog⟩

/-- The conversion callback of the worked examples, in the shape of `blConv`: a
branch-with-link yields its target, anything else nothing. -/
def exBlConv (insn : cs_insn) : Option Nat :=
  if insn.id = exBL then some insn.imm else none

/-- Three branches followed by a return, at `0x1000`. -/
def exThreeBranches : List (Nat × Nat × Nat) :=
  [(0x1000, exBL, 0x2000), (0x1004, exBL, 0x2004), (0x1008, exBL, 0x2008), (0x100c, exRET, 0)]

/-- A branch, two returns and a branch, at `0x1000`. -/
def exTwoReturns : List (Nat × Nat × Nat) :=
  [(0x1000, exBL, 0x2000), (0x1004, exRET, 0), (0x1008, exRET, 0), (0x100c, exBL, 0x2004)]

/-- An undecodable word, a branch and a return, at `0x1000`. -/
def exGapBranch : List (Nat × Nat × Nat) :=
  [(0x1004, exBL, 0x2000), (0x1008, exRET, 0)]

/-- A conversion callback that accepts every instruction and yields its
address (a register-reference match accepts returns too). -/
def exAddrConv (insn : cs_insn) : Option Nat :=
  some insn.address

/-- A return followed by a branch, at `0x1000`. -/
def exReturnFirst : List (Nat × Nat × Nat) :=
  [(0x1000, exRET, 0), (0x1004, exBL, 0x2000)]

/-- Two register branches followed by a branch, at `0x1000`. -/
def exSkipThenBranch : List (Nat × Nat × Nat) :=
  [(0x1000, exBLR, 0), (0x1004, exBLR, 0), (0x1008, exBL, 0x2000)]

/-- A return and a branch at `0x1000`, and a branch and a return at `0x3000`. -/
def exSplit : List (Nat × Nat × Nat) :=
  [(0x1000, exRET, 0), (0x1004, exBL, 0x2000), (0x3000, exBL, 0x2004), (0x3004, exRET, 0)]

/-- The instructions of `exSplit` laid out in one piece at `0x5000`, decoded
with the addresses they have in `exSplit`. -/
def exJoined : Capstone :=
  ⟨exRET, fun code size _ =>
    listingDisasm exSplit (if code < 0x5008 then code - 0x4000 else code - 0x2008)
      size (if code < 0x5008 then code - 0x4000 else code - 0x2008)⟩

end cs

/-- `std::array<uint32_t, 6>`: six 32-bit words. -/
abbrev Words6 : Type := { l : List Nat // l.length = 6 }

/-- Process memory as the install path reads it: the 32-bit word stored at a
byte address. -/
abbrev Memory : Type := Nat → Nat

/-- `std::copy_n(reinterpret_cast<uint32_t*>(dst), 6, ...)`: the six words at
`dst`. -/
def readWords (mem : Memory) (dst : Nat) : Words6 :=
  ⟨(List.range 6).map (fun i => mem (dst + 4 * i)), by simp⟩

/-- `struct HookInfo` (hook-tracker.hpp lines 9-22). -/
structure HookInfo where
  name : String
  destination : Nat
  trampoline : Nat
  orig : Nat
  original_data : Words6
  deriving DecidableEq

/-- `HookInfo::HookInfo(name_, dst, src)`: `name`, `destination` and
`trampoline` from the arguments and `original_data` copied from the six words at
`dst`. The constructor leaves `orig` uninitialised; it stands as `0` here until
the caller assigns it. -/
def HookInfo.ctor (mem : Memory) (name_ : String) (dst src : Nat) : HookInfo :=
  ⟨name_, dst, src, 0, readWords mem dst⟩

/-- `HookTracker`: its state is the static member
`std::unordered_map<const void*, std::list<HookInfo>> hooks`, the list kept for
each destination (empty for a destination that is not a key). -/
structure HookTracker where
  hooks : Nat → List HookInfo

namespace HookTracker

/-- The registry with no hook. -/
def empty : HookTracker :=
  ⟨fun _ => []⟩

/-- Modelled from the spec: `HookTracker::AddHook(HookInfo)` is declared in
hook-tracker.hpp; its definition is not among the headers. Spec 4.2: "inserts
`record` at the front of the list for `record.destination`". -/
def AddHook (t : HookTracker) (info : HookInfo) : HookTracker :=
  ⟨fun a => if a = info.destination then info :: t.hooks a else t.hooks a⟩

/-- Modelled from the spec: `HookTracker::GetHooks(location)` is declared in
hook-tracker.hpp; its definition is not among the headers. Spec 4.2: the
"ordered sequence of HookRecord (empty if none)" kept for the address. -/
def GetHooks (t : HookTracker) (location : Nat) : List HookInfo :=
  t.hooks location

/-- Modelled from the spec: `HookTracker::GetOrigInternal` is declared in
hook-tracker.hpp; its definition is not among the headers. Spec 4.2: "if hooked,
returns the first-installed hook's recorded `original_true_address`; if never
hooked, returns `address` unchanged". Since `AddHook` inserts at the front, the
first-installed hook is the last of the list. -/
def GetOrigInternal (t : HookTracker) (location : Nat) : Nat :=
  match (t.hooks location).getLast? with
  | some info => info.orig
  | none => location

/-- `HookTracker::GetOrig<T>(location)` (hook-tracker.hpp lines 65-68). -/
def GetOrig (t : HookTracker) (location : Nat) : Nat :=
  t.GetOrigInternal location

end HookTracker

namespace cs

/-- `cs::find_through_hooks(hook, initialSearchSize, func)` (capstone-utils.hpp
lines 28-40). `data` gives the address at which a record's `original_data`
array is stored (`original_data.data()`); `initialSearchSize` and the computed
`size` are `uint32_t`. -/
def find_through_hooks {α : Type} (t : HookTracker) (data : HookInfo → Nat) (hook : Nat)
    (initialSearchSize : Nat) (func : List AddrSearchPair → α) : α :=
  let hooks := t.GetHooks hook
  match hooks with
  | front :: _ =>
    let addr := data front
    let size := (front.original_data.val.length * 4) % 2 ^ 32
    func [⟨addr, size⟩, ⟨hook, initialSearchSize⟩]
  | [] => func [⟨hook, initialSearchSize⟩]

end cs

namespace Hooking

/-- What a hook type `T` gives the install path: `T::name()`, `T::hook()` (the
replacement) and `T::trampoline()` (the address of its trampoline slot). -/
structure Hook where
  name : String
  hook : Nat
  trampoline : Nat

/-- What the install path acts on: memory, the hook registry, and the pointers
held by the trampoline slots (by slot address). -/
structure World where
  mem : Memory
  tracker : HookTracker
  slots : Nat → Nat

/-- `__InstallHook<T, L, track>(logger, addr)` (hooking.hpp lines 600-618), the
`__aarch64__` branch. `A64HookFunction` is the external rewrite primitive:
from the memory, the target and the replacement it gives the rewritten memory
and the trampoline address it stores through its third argument. -/
def __InstallHook (A64HookFunction : Memory → Nat → Nat → Memory × Nat) (T : Hook)
    (track : Bool) (s : World) (addr : Nat) : World :=
  if track then
    let info := HookInfo.ctor s.mem T.name addr T.hook
    let rewritten := A64HookFunction s.mem addr T.hook
    let slots := fun a => if a = T.trampoline then rewritten.2 else s.slots a
    let info := { info with orig := slots T.trampoline }
    ⟨rewritten.1, s.tracker.AddHook info, slots⟩
  else
    let rewritten := A64HookFunction s.mem addr T.hook
    let slots := fun a => if a = T.trampoline then rewritten.2 else s.slots a
    ⟨rewritten.1, s.tracker, slots⟩

/-- `__InstallHook<T, L, track>(logger, addr)` (hooking.hpp lines 600-618, the
`__aarch64__` branch) with `HookTracker::AddHook`, which is declared in
hook-tracker.hpp and defined outside the headers, as the parameter
`AddHook`. -/
def __InstallHookOn (AddHook : HookTracker → HookInfo → HookTracker)
    (A64HookFunction : Memory → Nat → Nat → Memory × Nat) (T : Hook)
    (track : Bool) (s : World) (addr : Nat) : World :=
  if track then
    let info := HookInfo.ctor s.mem T.name addr T.hook
    let rewritten := A64HookFunction s.mem addr T.hook
    let slots := fun a => if a = T.trampoline then rewritten.2 else s.slots a
    let info := { info with orig := slots T.trampoline }
    ⟨rewritten.1, AddHook s.tracker info, slots⟩
  else
    let rewritten := A64HookFunction s.mem addr T.hook
    let slots := fun a => if a = T.trampoline then rewritten.2 else s.slots a
    ⟨rewritten.1, s.tracker, slots⟩

/-- Memory of the worked examples: the six words `0xA0 .. 0xA5` at `0x1000`,
zero elsewhere. -/
def exMem : Memory :=
  fun a => if 0x1000 ≤ a ∧ a < 0x1018 then 0xA0 + (a - 0x1000) / 4 else 0

/-- A rewrite primitive for the worked examples, in the shape of an AArch64
inline hook: the first four words at the target become a jump stub to
`replace` (`ldr x17, #8; br x17; .quad replace`), and the trampoline is placed
at a fixed offset from the replacement. -/
def exA64HookFunction (mem : Memory) (symbol replace : Nat) : Memory × Nat :=
  (fun a =>
    if a = symbol then 0x58000051
    else if a = symbol + 4 then 0xd61f0220
    else if a = symbol + 8 then replace % 2 ^ 32
    else if a = symbol + 12 then replace / 2 ^ 32
    else mem a,
   replace + 0x100000)

/-- First hook of the worked examples. -/
def exFoo : Hook := ⟨"Foo", 0x2000, 0x9000⟩

/-- Second hook of the worked examples. -/
def exBar : Hook := ⟨"Bar", 0x3000, 0x9008⟩

/-- The world of the worked examples before any install. -/
def exWorld : World := ⟨exMem, HookTracker.empty, fun _ => 0⟩

end Hooking

namespace HookTracker

/-- Record of hook A of the registry scenario: name `Foo`, destination
`0x1000`, trampoline `0x2000`. -/
def exA : HookInfo := ⟨"Foo", 0x1000, 0x2000, 0x5000, readWords Hooking.exMem 0x1000⟩

/-- Record of hook B of the registry scenario: name `Bar`, destination
`0x1000`, trampoline `0x3000`. -/
def exB : HookInfo := ⟨"Bar", 0x1000, 0x3000, 0x6000, readWords Hooking.exMem 0x1000⟩

end HookTracker

namespace cs

/-- The conversion callback of the worked examples that takes register
branches for branches too. -/
def exBlOrBlrConv (insn : cs_insn) : Option Nat :=
  if insn.id = exBL ∨ insn.id = exBLR then some insn.imm else none

end cs

/-- `Il2CppGenericContainer`, the two fields `ParameterMatch` reads (both
`int32_t`). -/
structure Il2CppGenericContainer where
  type_argc : Int
  genericParameterStart : Int
  deriving DecidableEq

/-- `MethodInfo`, the method descriptor of the runtime, with the fields the
hook install and the invocation code read. Pointers are addresses (`0` is
`nullptr`). `parameters` is the array of parameter type pointers,
`parameters_count` entries long. `genericContainerHandle` is the container a
generic, not inflated method carries; `genericMethodContainer` is
`genericMethod->methodDefinition->genericContainerHandle` of an inflated
one. -/
structure MethodInfo where
  methodPointer : Nat
  klass : Nat
  return_type : Nat
  parameters : List Nat
  flags : Nat
  is_generic : Bool
  is_inflated : Bool
  genericContainerHandle : Il2CppGenericContainer
  genericMethodContainer : Il2CppGenericContainer
  deriving DecidableEq

/-- `method->parameters_count`: the length of the `parameters` array. -/
def MethodInfo.parameters_count (method : MethodInfo) : Nat :=
  method.parameters.length

namespace Hooking

/-- How an install entry point is left: `SAFE_ABORT()` ended the process, or
the function returned. Both carry the world as it stands at that point. -/
inductive Outcome where
  | aborted (s : World)
  | returned (s : World)

/-- `InstallHook<T, L>(logger)` for a hook resolved through metadata
(hooking.hpp lines 627-640). `getInfo` is what `T::getInfo()` returns, `none`
for a null descriptor. -/
def InstallHook (A64HookFunction : Memory → Nat → Nat → Memory × Nat) (T : Hook)
    (getInfo : Option MethodInfo) (s : World) : Outcome :=
  match getInfo with
  | none => .aborted s
  | some info =>
    let addr := info.methodPointer
    .returned (__InstallHook A64HookFunction T true s addr)

/-- `InstallOrigHook<T, L>(logger)` (hooking.hpp lines 641-662). The map that
`HookTracker::GetHooks()` points to is the registry's `hooks`; `find(addr)`
with a non-empty list is a non-empty list at `addr`. -/
def InstallOrigHook (A64HookFunction : Memory → Nat → Nat → Memory × Nat) (T : Hook)
    (getInfo : Option MethodInfo) (s : World) : Outcome :=
  match getInfo with
  | none => .aborted s
  | some info =>
    let addr := info.methodPointer
    let origAddr := s.tracker.GetOrig addr
    let tracker : HookTracker :=
      if origAddr ≠ addr then
        match s.tracker.hooks addr with
        | front :: rest =>
          ⟨fun a =>
            if a = addr then { front with orig := s.slots T.trampoline } :: rest
            else s.tracker.hooks a⟩
        | [] => s.tracker
      else s.tracker
    .returned (__InstallHook A64HookFunction T false ⟨s.mem, tracker, s.slots⟩ origAddr)

/-- `InstallHookDirect<T, L>(logger, dst)` (hooking.hpp lines 663-674). -/
def InstallHookDirect (A64HookFunction : Memory → Nat → Nat → Memory × Nat) (T : Hook)
    (s : World) (dst : Nat) : Outcome :=
  if dst = 0 then .aborted s
  else .returned (__InstallHook A64HookFunction T true s dst)

/-- The world an outcome carries. -/
def Outcome.world : Outcome → World
  | .aborted s => s
  | .returned s => s

/-- Whether the outcome is an abort. -/
def Outcome.isAborted : Outcome → Bool
  | .aborted _ => true
  | .returned _ => false

/-- A method descriptor of the worked examples whose `methodPointer` is
`0x1000`. -/
def exMethod : MethodInfo :=
  ⟨0x1000, 0x7000, 0x7100, [], 0, false, false, ⟨0, 0⟩, ⟨0, 0⟩⟩

/-- A rewrite primitive for the worked examples that counts its calls in the
memory cell `0xC000`, and otherwise rewrites as `exA64HookFunction` does. -/
def exCountingHookFunction (mem : Memory) (symbol replace : Nat) : Memory × Nat :=
  ((fun a => if a = 0xC000 then mem 0xC000 + 1 else (exA64HookFunction mem symbol replace).1 a),
   (exA64HookFunction mem symbol replace).2)

/-- The world of the worked examples after `Foo` was installed at `0x1000`:
the method at `0x1000` is hooked and its recorded original is `0x102000`. -/
def exHooked : World :=
  __InstallHook exA64HookFunction exFoo true exWorld 0x1000

end Hooking

namespace il2cpp_utils

/-- `Il2CppType`, the fields `ParameterMatch` reads: the element type, the
by-ref bit and `data.genericParameterHandle`. -/
structure Il2CppType where
  type : Nat
  byref : Bool
  genericParameterHandle : Nat
  deriving DecidableEq

/-- `IL2CPP_TYPE_MVAR`, the element type of a method-generic placeholder
(`il2cpp-blob.h` of libil2cpp). -/
def IL2CPP_TYPE_MVAR : Nat := 0x1e

/-- `METHOD_ATTRIBUTE_STATIC` (`il2cpp-tabledefs.h` of libil2cpp). -/
def METHOD_ATTRIBUTE_STATIC : Nat := 0x0010

/-- The managed runtime and the helpers defined outside the headers, as the
code calls them. `typeAt` reads the `Il2CppType` a type pointer points to;
`this_arg` and `byval_arg` give `&klass->this_arg` and `&klass->byval_arg`;
`runtime_invoke` gives the returned object and what it stored in the exception
out-parameter (`0` for none); `ExtractType` is applied to a returned object. -/
structure Runtime where
  typeAt : Nat → Il2CppType
  this_arg : Nat → Nat
  byval_arg : Nat → Nat
  MetadataCache_GetGenericParameterIndexFromParameter : Nat → Int
  IsConvertibleFrom : Nat → Nat → Bool → Bool
  runtime_invoke : MethodInfo → Nat → List Nat → Nat × Nat
  ExtractType : Nat → Nat
  ExceptionToString : Nat → String

/-- `GetGenericContainer(method)` (il2cpp-utils-methods.hpp lines 275-294, the
`UNITY_2021` branches); `none` is the `SAFE_ABORT_MSG` for a method that is not
generic. -/
def GetGenericContainer (method : MethodInfo) : Option Il2CppGenericContainer :=
  if !method.is_generic then none
  else if method.is_inflated then some method.genericMethodContainer
  else some method.genericContainerHandle

/-- The local `genContainer` of `ParameterMatch`: set only for a generic
method. -/
def genContainer (method : MethodInfo) : Option Il2CppGenericContainer :=
  if method.is_generic then GetGenericContainer method else none

/-- The local `genCount` of `ParameterMatch`: `0`, or `type_argc` of the
container for a generic method. -/
def genCount (method : MethodInfo) : Int :=
  match genContainer method with
  | some c => c.type_argc
  | none => 0

/-- The cast `(size_t)genCount`. -/
def sizeT (x : Int) : Nat :=
  (x % 2 ^ 64).toNat

/-- The local `genIdx` of `ParameterMatch` for parameter `i` (line 330): the
generic-parameter index of the placeholder, relative to the container's
`genericParameterStart`. -/
def genIdx (rt : Runtime) (method : MethodInfo) (i : Nat) : Int :=
  rt.MetadataCache_GetGenericParameterIndexFromParameter
      (rt.typeAt (method.parameters.getD i 0)).genericParameterHandle
    - ((genContainer method).map (fun c => c.genericParameterStart)).getD 0

/-- The type parameter `i` is compared as (il2cpp-utils-methods.hpp lines
324-346): the parameter's own type, or for a method-generic placeholder the
type of the generic argument at its index, `this_arg` when the parameter is
by-ref and `byval_arg` otherwise. The error is the warning logged when the
placeholder is passed over (`continue`). -/
def resolveParam (rt : Runtime) (method : MethodInfo) (genTypes : List Nat) (i : Nat) :
    Except String Nat :=
  let paramType := method.parameters.getD i 0
  if (rt.typeAt paramType).type = IL2CPP_TYPE_MVAR then
    if genCount method = 0 then
      .error "No generic args to extract paramIdx %i"
    else
      let genIdx := genIdx rt method i
      if genIdx < 0 then
        .error "Extracted invalid genIdx %i from parameter %i"
      else if genIdx ≥ genCount method then
        .error "ParameterMatch was not supplied enough genTypes to determine type of parameter %i (had %i, needed %i)!"
      else
        let klass := genTypes.getD genIdx.toNat 0
        .ok (if (rt.typeAt paramType).byref then rt.this_arg klass else rt.byval_arg klass)
  else
    .ok paramType

/-- The `for` loop of `ParameterMatch` (lines 322-356) with `k` iterations left
at index `i`: gives the local `matches`, `isIdentical` and the warnings logged. -/
def matchLoop (rt : Runtime) (method : MethodInfo) (genTypes argTypes : List Nat) :
    Nat → Nat → Bool → List String → Bool × Bool × List String
  | 0, _, isIdentical, log => (true, isIdentical, log)
  | k + 1, i, isIdentical, log =>
    match resolveParam rt method genTypes i with
    | .error w => matchLoop rt method genTypes argTypes k (i + 1) isIdentical (log ++ [w])
    | .ok paramType =>
      let isIdentical := isIdentical && decide (paramType = argTypes.getD i 0)
      if !rt.IsConvertibleFrom paramType (argTypes.getD i 0) true then
        (false, isIdentical, log)
      else
        matchLoop rt method genTypes argTypes k (i + 1) isIdentical log

/-- What a call of `ParameterMatch` gives: the returned `bool` (the local `matches`), the content of
the `isIdenticalOut` slot afterwards (`none` when no slot was passed) and the
warnings logged. -/
structure MatchOutcome where
  matched : Bool
  isIdenticalOut : Option Bool
  warnings : List String
  deriving DecidableEq

/-- `ParameterMatch<genSz, argSz>(method, genTypes, argTypes, isIdenticalOut)`
(il2cpp-utils-methods.hpp lines 298-363). `isIdenticalOut` is the content of
the slot passed, `none` for `std::nullopt`. -/
def ParameterMatch (rt : Runtime) (method : MethodInfo) (genTypes argTypes : List Nat)
    (isIdenticalOut : Option Bool) : MatchOutcome :=
  if method.parameters_count ≠ argTypes.length then
    ⟨false, isIdenticalOut,
      ["Potential method match had wrong number of parameters %i (expected %lu)"]⟩
  else if sizeT (genCount method) ≠ genTypes.length then
    ⟨false, isIdenticalOut,
      ["Potential method match had wrong number of generics %i (expected %lu)",
        "is generic %i is inflated %i"]⟩
  else
    let r := matchLoop rt method genTypes argTypes method.parameters_count 0 true []
    ⟨r.1, isIdenticalOut.map (fun _ => r.2.1), r.2.2⟩

/-- `struct FindMethodInfo` (il2cpp-utils-methods.hpp lines 70-100): class
pointer, name, and the two spans as the sequences of pointers they view. -/
structure FindMethodInfo where
  klass : Nat
  name : String
  genTypes : List Nat
  argTypes : List Nat
  deriving DecidableEq

/-- `std::equal(first1, last1, first2, last2)` on pointer sequences. -/
def std_equal : List Nat → List Nat → Bool
  | [], [] => true
  | a :: l1, b :: l2 => if a = b then std_equal l1 l2 else false
  | _, _ => false

/-- `FindMethodInfo::operator==` (lines 86-98). -/
def FindMethodInfo.eq (self o : FindMethodInfo) : Bool :=
  if self.klass ≠ o.klass then false
  else if self.name ≠ o.name then false
  else
    let argTypesContentEquality :=
      decide (self.argTypes.length = o.argTypes.length) && std_equal self.argTypes o.argTypes
    if !argTypesContentEquality then false
    else
      let genTypesContentEquality :=
        decide (self.genTypes.length = o.genTypes.length) && std_equal self.genTypes o.genTypes
      if !genTypesContentEquality then false
      else true

/-- `FindMethodInfo::operator!=`, defaulted (line 99): the negation of
`operator==`. -/
def FindMethodInfo.ne (self o : FindMethodInfo) : Bool :=
  !(self.eq o)

/-- Runtime of the worked examples. The type at `900` is a method-generic
placeholder with generic-parameter index `0`, the type at `901` one whose
index cannot be found; every other address is a plain class type. A class at
`k` has `byval_arg` at `k + 1` and `this_arg` at `k + 2`. A type is convertible
from itself, and the type at `100` from every type. A managed call returns the
object `0x6000`, and reports the exception `0xE000` when the instance is
`0xBAD`. -/
def exRuntime : Runtime where
  typeAt := fun t =>
    if t = 900 then ⟨IL2CPP_TYPE_MVAR, false, 7⟩
    else if t = 901 then ⟨IL2CPP_TYPE_MVAR, false, 8⟩
    else ⟨0x12, false, 0⟩
  this_arg := fun k => k + 2
  byval_arg := fun k => k + 1
  MetadataCache_GetGenericParameterIndexFromParameter := fun g => if g = 7 then 0 else -1
  IsConvertibleFrom := fun dst src _ => decide (dst = src) || decide (dst = 100)
  runtime_invoke := fun _ inst _ => if inst = 0xBAD then (0, 0xE000) else (0x6000, 0)
  ExtractType := fun _ => 300
  ExceptionToString := fun _ => "managed exception"

/-- A method of the worked examples with the given parameter types, generic
with one type argument when `generic` is set; an instance method returning the
type at `300`. -/
def exMethodOf (parameters : List Nat) (generic : Bool) : MethodInfo :=
  ⟨0x1000, 0x7000, 300, parameters, 0, generic, false, ⟨1, 0⟩, ⟨1, 0⟩⟩

/-- `RunMethodException`: the `what()` message, the managed exception `ex`
(`0` for `nullptr`) and the method `info` (`none` for `nullptr`). The captured
backtrace is left out. -/
structure RunMethodException where
  what : String
  ex : Nat
  info : Option MethodInfo
  deriving DecidableEq

/-- `RunMethodException(std::string_view msg, const MethodInfo* inf)`
(il2cpp-utils-exceptions.hpp lines 95-98): no managed exception. -/
def RunMethodException.ofMessage (msg : String) (inf : Option MethodInfo) :
    RunMethodException :=
  ⟨msg, 0, inf⟩

/-- `RunMethodException(Il2CppException* exp, const MethodInfo* inf)`
(il2cpp-utils-exceptions.hpp lines 99-102): the message is
`ExceptionToString(exp)`. -/
def RunMethodException.ofException (rt : Runtime) (exp : Nat) (inf : Option MethodInfo) :
    RunMethodException :=
  ⟨rt.ExceptionToString exp, exp, inf⟩

/-- `Result<T, E>` (result.hpp): built from a success value (`success` is
`true`, the union holds `result`) or from an error (`success` is `false`, the
union holds `exception`). -/
inductive Result (T E : Type) where
  | ofResult (result : T)
  | ofException (exception : E)
  deriving DecidableEq

/-- The private member `success`. -/
def Result.success {T E : Type} : Result T E → Bool
  | .ofResult _ => true
  | .ofException _ => false

/-- `Result::has_result()`. -/
def Result.has_result {T E : Type} (r : Result T E) : Bool :=
  r.success

/-- `Result::has_exception()`. -/
def Result.has_exception {T E : Type} (r : Result T E) : Bool :=
  !r.success

/-- `TypeOrMonostate<TOut>` as `RunMethod` fills it: `std::monostate` for
`void`, otherwise the `TOut` made from the returned object. -/
inductive ReturnValue where
  | monostate
  | value (v : Nat)
  deriving DecidableEq

/-- `MethodResult<TOut>`. -/
abbrev MethodResult : Type := Result ReturnValue RunMethodException

/-- What the template argument `TOut` contributes to `RunMethod`: whether it is
`void`, the type `ExtractIndependentType<TOut>()` gives (`0` for `nullptr`),
and how the returned object becomes a `TOut` (unboxing, wrapping or a cast). -/
structure OutType where
  isVoid : Bool
  independentType : Nat
  convert : Nat → Nat

/-- One argument of the pack `params`: what `ExtractType` and
`ExtractTypeValue` give for it. -/
structure Arg where
  type : Nat
  value : Nat
  deriving DecidableEq

/-- What a call of `RunMethod` gives: the returned `MethodResult`, the warnings
logged, and the calls of `runtime_invoke` made (method, instance, argument
array). -/
structure RunOutcome where
  result : MethodResult
  warnings : List String
  invoked : List (MethodInfo × Nat × List Nat)

/-- The `if constexpr (checkTypes)` block at the head of `RunMethod`
(il2cpp-utils-methods.hpp lines 699-719): the error it returns with, if any,
and the warnings logged. -/
def checkTypesBlock (rt : Runtime) (TOut : OutType) (method : MethodInfo) (params : List Arg) :
    Option RunMethodException × List String :=
  let log :=
    if method.parameters_count ≠ params.length then
      ["MethodInfo parameter count %i does not match actual parameter count %lu"]
    else []
  let pm :=
    if 0 < params.length then
      some (ParameterMatch rt method [] (params.map Arg.type) none)
    else none
  let log := log ++ (pm.map (fun o => o.warnings)).getD []
  if (pm.map (fun o => o.matched)) = some false then
    (some (.ofMessage "Parameters do not match!" (some method)), log)
  else if !TOut.isVoid && decide (TOut.independentType ≠ 0)
      && !rt.IsConvertibleFrom TOut.independentType method.return_type false then
    (some (.ofMessage "Return type of method is not convertible to: %s!" (some method)),
      log ++ ["User requested TOut %s does not match the method's return object of type %s!"])
  else
    (none, log)

/-- `RunMethod<TOut, checkTypes>(wrappedInstance, method, params...)`
(il2cpp-utils-methods.hpp lines 688-788). `inst` is
`ExtractValue(wrappedInstance)`, `method` is `none` for a null descriptor. -/
def RunMethod (rt : Runtime) (TOut : OutType) (checkTypes : Bool) (inst : Nat)
    (method : Option MethodInfo) (params : List Arg) : RunOutcome :=
  match method with
  | none => ⟨.ofException (.ofMessage "MethodInfo cannot be null!" none), [], []⟩
  | some m =>
    let chk := if checkTypes then checkTypesBlock rt TOut m params else (none, [])
    match chk.1 with
    | some e => ⟨.ofException e, chk.2, []⟩
    | none =>
      let isStatic := m.flags &&& METHOD_ATTRIBUTE_STATIC
      if isStatic = 0 ∧ inst = 0 then
        ⟨.ofException (.ofMessage "Method is instance but instance is null!" (some m)),
          chk.2, []⟩
      else
        let invokeParams := params.map Arg.value
        let r := rt.runtime_invoke m inst invokeParams
        let invoked := [(m, inst, invokeParams)]
        if r.2 ≠ 0 then
          ⟨.ofException (.ofException rt r.2 (some m)), chk.2, invoked⟩
        else if TOut.isVoid then
          ⟨.ofResult .monostate, chk.2, invoked⟩
        else
          let log :=
            if checkTypes && decide (r.1 ≠ 0) && decide (TOut.independentType ≠ 0)
                && !rt.IsConvertibleFrom TOut.independentType (rt.ExtractType r.1) false then
              chk.2 ++
                ["User requested TOut %s does not match the method's return object of type %s!"]
            else chk.2
          ⟨.ofResult (.value (TOut.convert r.1)), log, invoked⟩

/-- `TOut = void`. -/
def voidOut : OutType :=
  ⟨true, 0, fun v => v⟩

/-- `TOut = Il2CppObject*`, with the independent type at `100`. -/
def objectOut : OutType :=
  ⟨false, 100, fun v => v⟩

/-- The `void` type of the example runtime. -/
def exVoidType : Nat := 1

/-- A static method of the worked examples with the given parameter types,
returning the type at `300`. -/
def exStaticMethodOf (parameters : List Nat) : MethodInfo :=
  ⟨0x1000, 0x7000, 300, parameters, 0x0016, false, false, ⟨0, 0⟩, ⟨0, 0⟩⟩

/-- The format strings of the warnings the type checks of `RunMethod` and
`ParameterMatch` log. -/
def typeCheckWarnings : List String :=
  ["MethodInfo parameter count %i does not match actual parameter count %lu",
    "User requested TOut %s does not match the method's return object of type %s!",
    "Potential method match had wrong number of parameters %i (expected %lu)",
    "Potential method match had wrong number of generics %i (expected %lu)",
    "is generic %i is inflated %i",
    "No generic args to extract paramIdx %i",
    "Extracted invalid genIdx %i from parameter %i",
    "ParameterMatch was not supplied enough genTypes to determine type of parameter %i (had %i, needed %i)!"]

end il2cpp_utils

namespace cs

/-- The `while (sz > 0)` loop of the single-window `findNth` that takes `match`
and `skip` as arguments (capstone-utils.hpp lines 107-149), on the locals
`ptr`, `instructions`, `sz`, `nCalls` and `rCount`. `fuel` bounds the number of
iterations; the outer `none` means the bound was hit, `some none` is the
`std::nullopt` returned. -/
def findNthArgsLoop {R : Type} (h : Capstone) (mtch : cs_insn → Option R)
    (skip : cs_insn → Bool) : Nat → Nat → Nat → Nat → Nat → Int → Option (Option R)
  | 0, _, _, _, _, _ => none
  | fuel + 1, ptr, instructions, sz, nCalls, rCount =>
    if 0 < sz then
      match cs_disasm_iter h instructions sz ptr with
      | (some insn, instructions, sz, ptr) =>
        if insn.id = h.ARM64_INS_RET then
          if rCount = 0 then some none
          else findNthArgsLoop h mtch skip fuel ptr instructions sz nCalls (rCount - 1)
        else
          match mtch insn with
          | some testRes =>
            if nCalls = 1 then some (some testRes)
            else
              findNthArgsLoop h mtch skip fuel ptr instructions sz
                ((nCalls + 2 ^ 32 - 1) % 2 ^ 32) rCount
          | none =>
            if skip insn then
              if nCalls = 1 then some none
              else
                findNthArgsLoop h mtch skip fuel ptr instructions sz
                  ((nCalls + 2 ^ 32 - 1) % 2 ^ 32) rCount
            else findNthArgsLoop h mtch skip fuel ptr instructions sz nCalls rCount
      | (none, instructions, sz, ptr) =>
        findNthArgsLoop h mtch skip fuel (ptr + 4) (instructions + 4)
          ((sz + 2 ^ 64 - 4) % 2 ^ 64) nCalls rCount
    else some none

/-- `cs::findNth<nToRetOn, retCount, szBytes>(addr, match, skip)`, the
single-window form with the predicates as arguments (capstone-utils.hpp lines
97-154). -/
def findNthArgs {R : Type} (h : Capstone) (fuel nToRetOn : Nat) (retCount : Int)
    (szBytes addr : Nat) (mtch : cs_insn → Option R) (skip : cs_insn → Bool) :
    Option (Option R) :=
  findNthArgsLoop h mtch skip fuel addr addr szBytes nToRetOn retCount

/-- The `while (sz > 0)` loop of the single-window `findNth` that takes `match`
and `skip` as template parameters (capstone-utils.hpp lines 166-209). -/
def findNthParamsLoop {R : Type} (h : Capstone) (mtch : cs_insn → Option R)
    (skip : cs_insn → Bool) : Nat → Nat → Nat → Nat → Nat → Int → Option (Option R)
  | 0, _, _, _, _, _ => none
  | fuel + 1, ptr, instructions, sz, nCalls, rCount =>
    if 0 < sz then
      match cs_disasm_iter h instructions sz ptr with
      | (some insn, instructions, sz, ptr) =>
        if insn.id = h.ARM64_INS_RET then
          if rCount = 0 then some none
          else findNthParamsLoop h mtch skip fuel ptr instructions sz nCalls (rCount - 1)
        else
          match mtch insn with
          | some testRes =>
            if nCalls = 1 then some (some testRes)
            else
              findNthParamsLoop h mtch skip fuel ptr instructions sz
                ((nCalls + 2 ^ 32 - 1) % 2 ^ 32) rCount
          | none =>
            if skip insn then
              if nCalls = 1 then some none
              else
                findNthParamsLoop h mtch skip fuel ptr instructions sz
                  ((nCalls + 2 ^ 32 - 1) % 2 ^ 32) rCount
            else findNthParamsLoop h mtch skip fuel ptr instructions sz nCalls rCount
      | (none, instructions, sz, ptr) =>
        findNthParamsLoop h mtch skip fuel (ptr + 4) (instructions + 4)
          ((sz + 2 ^ 64 - 4) % 2 ^ 64) nCalls rCount
    else some none

/-- `cs::findNth<nToRetOn, match, skip, retCount, szBytes>(addr)`, the
single-window form with the predicates as template parameters
(capstone-utils.hpp lines 156-213). -/
def findNthParams {R : Type} (h : Capstone) (fuel nToRetOn : Nat)
    (mtch : cs_insn → Option R) (skip : cs_insn → Bool) (retCount : Int)
    (szBytes addr : Nat) : Option (Option R) :=
  findNthParamsLoop h mtch skip fuel addr addr szBytes nToRetOn retCount

/-- What the function returns when the window loop is left in the given way:
the result of a `return` inside the loop, `std::nullopt` after the last
window. -/
def LoopExit.value {R : Type} : LoopExit R → Option R
  | .returned res _ _ _ => res
  | .exhausted _ _ _ => none

/-- A 64-bit unsigned value from an integer: the conversion to `uint64_t`. -/
def u64 (x : Int) : Nat :=
  (x % 2 ^ 64).toNat

/-- The `int32_t` a 32-bit memory word holds. -/
def int32 (w : Nat) : Int :=
  if w % 2 ^ 32 < 2 ^ 31 then (w % 2 ^ 32 : Nat) else (w % 2 ^ 32 : Nat) - 2 ^ 32

/-- `cs::findNthPcRel<nToRetOn, retCount, szBytes>(addr)` (capstone-utils.hpp
lines 247-254). `pcRelConv` is declared in the header and defined outside it;
it gives the address to go on from, the destination register and the
destination. `szBytes` is handed to the `uint32_t` parameter of
`find_through_hooks`. The outer `none` is the iteration bound of `findNth`. -/
def findNthPcRel (h : Capstone) (fuel : Nat) (t : HookTracker) (data : HookInfo → Nat)
    (pcRelConv : cs_insn → Option (Nat × Nat × Nat)) (nToRetOn : Nat) (retCount : Int)
    (szBytes addr : Nat) : Option (Option (Nat × Nat × Nat)) :=
  find_through_hooks t data addr (szBytes % 2 ^ 32) (fun addrs =>
    (findNth h fuel addrs nToRetOn retCount pcRelConv (insnMatch [])).map Final.result)

/-- `cs::findNthReg<nToRetOn, retCount, szBytes>(addr, reg)` (capstone-utils.hpp
lines 258-266). `regMatchConv` is declared in the header and defined outside
it; for an instruction that uses `reg` it gives the instruction address, the
register and the immediate offset (an `int64_t`). -/
def findNthReg (h : Capstone) (fuel : Nat) (t : HookTracker) (data : HookInfo → Nat)
    (regMatchConv : cs_insn → Nat → Option (Nat × Nat × Int)) (nToRetOn : Nat)
    (retCount : Int) (szBytes addr reg : Nat) : Option (Option (Nat × Nat × Int)) :=
  let lmd := fun insn => regMatchConv insn reg
  find_through_hooks t data addr (szBytes % 2 ^ 32) (fun addrs =>
    (findNth h fuel addrs nToRetOn retCount lmd (insnMatch [])).map Final.result)

/-- `cs::getpcaddr<nToRetOn, nImmOff, szBytes>(addr)` (capstone-utils.hpp lines
268-280). -/
def getpcaddr (h : Capstone) (fuel : Nat) (t : HookTracker) (data : HookInfo → Nat)
    (pcRelConv : cs_insn → Option (Nat × Nat × Nat))
    (regMatchConv : cs_insn → Nat → Option (Nat × Nat × Int))
    (nToRetOn nImmOff szBytes addr : Nat) : Option (Option (Nat × Nat × Nat)) :=
  match findNthPcRel h fuel t data pcRelConv nToRetOn (-1) szBytes addr with
  | none => none
  | some none => some none
  | some (some pcrel) =>
    match findNthReg h fuel t data regMatchConv nImmOff (-1) szBytes pcrel.1 pcrel.2.1 with
    | none => none
    | some none => some none
    | some (some reginst) =>
      some (some (reginst.1, reginst.2.1, u64 ((pcrel.2.2 : Int) + reginst.2.2)))

/-- `cs::evalswitch<nToRetOn, nImmOff, match, szBytes>(addr)` (capstone-utils.hpp
lines 282-295). `mem` gives the 32-bit word at a byte address; `switchCase` is
the template parameter `match`, an `int`. -/
def evalswitch (h : Capstone) (fuel : Nat) (t : HookTracker) (data : HookInfo → Nat)
    (pcRelConv : cs_insn → Option (Nat × Nat × Nat))
    (regMatchConv : cs_insn → Nat → Option (Nat × Nat × Int)) (mem : Memory)
    (nToRetOn nImmOff : Nat) (switchCase : Int) (szBytes addr : Nat) : Option (Option Nat) :=
  match getpcaddr h fuel t data pcRelConv regMatchConv nToRetOn nImmOff szBytes addr with
  | none => none
  | some none => some none
  | some (some res) =>
    let switchTable := res.2.2
    let val := int32 (mem (u64 ((switchTable : Int) + 4 * (switchCase - 1))))
    some (some (u64 ((switchTable : Int) + val)))

/-- Id of the PC-relative address instruction in the worked examples. -/
def exADRP : Nat := 4

/-- Id of the add-immediate instruction in the worked examples. -/
def exADD : Nat := 5

/-- A `pcRelConv` for the worked examples: a PC-relative address instruction
gives the address after it, the register `8` and its destination. -/
def exPcRelConv (insn : cs_insn) : Option (Nat × Nat × Nat) :=
  if insn.id = exADRP then some (insn.address + 4, 8, insn.imm) else none

/-- A `regMatchConv` for the worked examples: the add-immediate instructions
are the ones using register `8`; they give their address, the register and
their immediate. -/
def exRegMatchConv (insn : cs_insn) (reg : Nat) : Option (Nat × Nat × Int) :=
  if insn.id = exADD ∧ reg = 8 then some (insn.address, reg, (insn.imm : Int)) else none

/-- A PC-relative address to `0x20000`, an add of `0x10` to its register and a
return, at `0x1000`. -/
def exSwitch : List (Nat × Nat × Nat) :=
  [(0x1000, exADRP, 0x20000), (0x1004, exADD, 0x10), (0x1008, exRET, 0)]

/-- Memory holding the switch table of the worked examples at `0x20010`: the
entries `0x40` and `-0x10`. -/
def exTableMem : Memory :=
  fun a => if a = 0x20010 then 0x40 else if a = 0x20014 then 0xFFFFFFF0 else 0

end cs

namespace il2cpp_utils

/-- `il2cpp_utils::exceptions::ResultException` (result.hpp lines 12-14): the
message it is thrown with. -/
structure ResultException where
  msg : String
  deriving DecidableEq

/-- `Result::get_result()` (result.hpp lines 60-70, both overloads): throws
`ResultException` when `success` is `false`, otherwise gives the member
`result`. A thrown exception is the error of `Except`. -/
def Result.get_result {T E : Type} (r : Result T E) : Except ResultException T :=
  match r with
  | .ofException _ => .error ⟨"Result does not contain a success result!"⟩
  | .ofResult result => .ok result

/-- `Result::move_result()` (result.hpp lines 73-77): as `get_result`, the
value moved out. -/
def Result.move_result {T E : Type} (r : Result T E) : Except ResultException T :=
  match r with
  | .ofException _ => .error ⟨"Result does not contain a success result!"⟩
  | .ofResult result => .ok result

/-- `Result::get_exception()` (result.hpp lines 79-88, both overloads): throws
`ResultException` when `success` is `true`, otherwise gives the member
`exception`. -/
def Result.get_exception {T E : Type} (r : Result T E) : Except ResultException E :=
  match r with
  | .ofResult _ => .error ⟨"Result does not contain an exception result!"⟩
  | .ofException exception => .ok exception

/-- `Result::move_exception()` (result.hpp lines 91-95): as `get_exception`,
the value moved out. -/
def Result.move_exception {T E : Type} (r : Result T E) : Except ResultException E :=
  match r with
  | .ofResult _ => .error ⟨"Result does not contain an exception result!"⟩
  | .ofException exception => .ok exception

/-- `Result::into_optional_result()` (result.hpp lines 134-140):
`move_result()` when `success`, otherwise `std::nullopt`. The function is
`noexcept`; `move_result` does not throw under `success`, and that branch of
the match is not reached. -/
def Result.into_optional_result {T E : Type} (r : Result T E) : Option T :=
  if r.success then
    match r.move_result with
    | .ok v => some v
    | .error _ => none
  else none

/-- `Result::into_optional_exception()` (result.hpp lines 165-171):
`move_exception()` when `success` is `false`, otherwise `std::nullopt`. -/
def Result.into_optional_exception {T E : Type} (r : Result T E) : Option E :=
  if !r.success then
    match r.move_exception with
    | .ok e => some e
    | .error _ => none
  else none

end il2cpp_utils

/-- `struct Counter` (typedefs-wrappers.hpp lines 38-78): its state is the
static member `std::unordered_map<void*, size_t> addrRefCount`, the count
stored for each key (`none` for an address that is not a key). The mutex is
left out. -/
structure Counter where
  addrRefCount : Nat → Option Nat

namespace Counter

/-- The map with no key, as it is at program start. -/
def empty : Counter :=
  ⟨fun _ => none⟩

/-- `Counter::add(addr)` (lines 42-50): `++itr->second` on a `size_t` for a
key, `emplace(addr, 1)` otherwise. -/
def add (c : Counter) (addr : Nat) : Counter :=
  match c.addrRefCount addr with
  | some n => ⟨fun a => if a = addr then some ((n + 1) % 2 ^ 64) else c.addrRefCount a⟩
  | none => ⟨fun a => if a = addr then some 1 else c.addrRefCount a⟩

/-- `Counter::remove(addr)` (lines 53-61): `--itr->second` for a key whose
count is above `1`, `erase(itr)` for any other key, nothing for an address
that is not a key. -/
def remove (c : Counter) (addr : Nat) : Counter :=
  match c.addrRefCount addr with
  | some n =>
    if n > 1 then ⟨fun a => if a = addr then some (n - 1) else c.addrRefCount a⟩
    else ⟨fun a => if a = addr then none else c.addrRefCount a⟩
  | none => c

/-- `Counter::get(addr)` (lines 65-73). -/
def get (c : Counter) (addr : Nat) : Nat :=
  match c.addrRefCount addr with
  | some n => n
  | none => 0

/-- A call of `add` or of `remove`, with its address. -/
inductive Op where
  | add (addr : Nat)
  | remove (addr : Nat)
  deriving DecidableEq

/-- The counter after a sequence of calls, made in list order. -/
def run (c : Counter) : List Op → Counter
  | [] => c
  | .add a :: ops => run (c.add a) ops
  | .remove a :: ops => run (c.remove a) ops

/-- The counter of the worked example: `0x5000` added twice and `0x6000`
once. -/
def exCounter : Counter :=
  empty.run [.add 0x5000, .add 0x6000, .add 0x5000]

end Counter

/-- `SafePtr<T>::SafePointerWrapper` (typedefs-wrappers.hpp lines 431-460): the
wrapper on the GC heap, holding the instance pointer (`0` for `nullptr`). -/
structure SafePointerWrapper where
  instancePointer : Nat
  deriving DecidableEq

/-- `SafePtr<T, AllowUnity>` (typedefs-wrappers.hpp lines 239-462): its member
`CountPointer<SafePointerWrapper> internalHandle`, `none` for a handle that
holds `nullptr` (a default-constructed `SafePtr`), otherwise the wrapper it
points to. -/
structure SafePtr where
  internalHandle : Option SafePointerWrapper
  deriving DecidableEq

/-- `CountPointer<T>` (typedefs-wrappers.hpp lines 82-220): the held pointer
(`0` for `nullptr`). -/
structure CountPointer where
  ptr : Nat
  deriving DecidableEq

/-- What the casts read from outside the headers: `classof(U*)` for the target
type (`0` when the class does not resolve), the `klass` field an object holds
in its first word (`*reinterpret_cast<Il2CppClass**>(p)`), and
`il2cpp_functions::class_is_assignable_from(klass, oklass)`. -/
structure CastEnv where
  classofU : Nat
  klassAt : Nat → Nat
  class_is_assignable_from : Nat → Nat → Bool

/-- `SafePtr<T>::SafePtr(T* wrappableInstance)` (line 248), when the
allocation of `SafePointerWrapper::New` succeeds: a fresh wrapper holding the
instance. -/
def SafePtr.ctor (wrappableInstance : Nat) : SafePtr :=
  ⟨some ⟨wrappableInstance⟩⟩

/-- `SafePtr<T>::isHandleValid()` (lines 389-391). -/
def SafePtr.isHandleValid (self : SafePtr) : Bool :=
  self.internalHandle.isSome

/-- `SafePtr<T>::try_cast<U>()` (typedefs-wrappers.hpp lines 369-384). The
first test is `!internalHandle || !internalHandle->instancePointer || k1`. -/
def SafePtr.try_cast (env : CastEnv) (self : SafePtr) : Option SafePtr :=
  let k1 := env.classofU
  match self.internalHandle with
  | none => none
  | some internalHandle =>
    if internalHandle.instancePointer = 0 ∨ k1 ≠ 0 then none
    else
      let k2 := env.klassAt internalHandle.instancePointer
      if k2 = 0 then none
      else if env.class_is_assignable_from k1 k2 then
        some (SafePtr.ctor internalHandle.instancePointer)
      else none

/-- `CountPointer<T>::try_cast<U>()` (typedefs-wrappers.hpp lines 195-210). The
first test is `!ptr || !k1`. -/
def CountPointer.try_cast (env : CastEnv) (self : CountPointer) : Option CountPointer :=
  let k1 := env.classofU
  if self.ptr = 0 ∨ k1 = 0 then none
  else
    let k2 := env.klassAt self.ptr
    if k2 = 0 then none
    else if env.class_is_assignable_from k1 k2 then some ⟨self.ptr⟩
    else none

/-- The cast of the worked example: the target class resolves to `0x7000`, the
object at `0x5000` is of class `0x7100`, and `0x7000` is assignable from
`0x7100` and from itself. -/
def exCastEnv : CastEnv where
  classofU := 0x7000
  klassAt := fun p => if p = 0x5000 then 0x7100 else 0
  class_is_assignable_from := fun k1 k2 =>
    decide (k1 = k2) || (decide (k1 = 0x7000) && decide (k2 = 0x7100))

/-- `Il2CppArrayBounds` (typedefs-array.hpp lines 69-73). -/
structure Il2CppArrayBounds where
  length : Nat
  lower_bound : Int
  deriving DecidableEq

/-- `Array<T>` of typedefs-array.hpp (lines 142-312, on `Il2CppArray`, lines
85-96), named `ManagedArray` here to keep it apart from Lean's `Array`: the
`bounds` pointer (`none` for `nullptr`), `max_length`, and the elements
`_values` that follow the header, by index. Elements are value types, taken as
numbers. -/
structure ManagedArray where
  bounds : Option Il2CppArrayBounds
  max_length : Nat
  _values : Nat → Nat

namespace ManagedArray

/-- `Array<T>::get_Length()` (lines 164-169). -/
def get_Length (a : ManagedArray) : Nat :=
  match a.bounds with
  | some b => b.length
  | none => a.max_length

/-- `Array<T>::NewLength(size)` (lines 188-196) when the allocation succeeds:
`il2cpp_functions::array_new` is the runtime's allocator, which gives a
single-dimension array (no `bounds`) of `size` zero-initialised elements. -/
def NewLength (size : Nat) : ManagedArray :=
  ⟨none, size, fun _ => 0⟩

/-- The first `n` elements. -/
def firstN (a : ManagedArray) (n : Nat) : List Nat :=
  (List.range n).map a._values

end ManagedArray

/-- `std::copy(first, last, d_first)` from one element store into another one:
the elements at `first .. last - 1` of `src` are assigned, in this order, to
`dst` from `d_first` on. -/
def std_copy (src : Nat → Nat) (first : Nat) : Nat → (Nat → Nat) → Nat → Nat → Nat
  | 0, dst, _ => dst
  | count + 1, dst, d_first =>
    std_copy src (first + 1) count (Function.update dst d_first (src first)) (d_first + 1)

/-- `std::copy(first, first + count, result)` with source and destination in
the same element store `v`: the assignments `*(result + i) = *(first + i)` for
`i = 0, 1, ..., count - 1`, in this order, each reading the store as the ones
before it left it. -/
def std_copy_within : (Nat → Nat) → Nat → Nat → Nat → Nat → Nat
  | v, _, 0, _ => v
  | v, first, count + 1, result =>
    std_copy_within (Function.update v result (v first)) (first + 1) count (result + 1)

/-- `std::find_if(first, first + count, pred)` on an element store: the index
of the first element satisfying `pred`, or `first + count`. -/
def std_find_if (v : Nat → Nat) (pred : Nat → Bool) : Nat → Nat → Nat
  | first, 0 => first
  | first, count + 1 =>
    if pred (v first) then first else std_find_if v pred (first + 1) count

/-- `List<T>` of typedefs-list.hpp (lines 26-31), named `ManagedList` here to
keep it apart from Lean's `List`: the backing array `_items` and the `int`
fields `_size` and `_version`. -/
structure ManagedList where
  _items : ManagedArray
  _size : Int
  _version : Int

/-- `ListException` (typedefs-list.hpp lines 20-23): the message. -/
structure ListException where
  msg : String
  deriving DecidableEq

namespace ListWrapper

/-- `ListWrapper::size()` (lines 101-103): `_size` converted to
`il2cpp_array_size_t`, an unsigned 64-bit integer. -/
def size (l : ManagedList) : Nat :=
  il2cpp_utils.sizeT l._size

/-- The elements of the list: the first `size()` elements of the backing
array, `begin()` to `end()`. -/
def elems (l : ManagedList) : List Nat :=
  l._items.firstN (size l)

/-- `ListWrapper::SetCapacity(value)` (lines 611-626). -/
def SetCapacity (l : ManagedList) (value : Nat) : Except ListException ManagedList :=
  if value < size l then .error ⟨"Capacity size too small"⟩
  else if value ≠ l._items.get_Length then
    if value > 0 then
      let array := ManagedArray.NewLength value
      let array : ManagedArray :=
        if size l > 0 then
          { array with _values := std_copy l._items._values 0 (size l) array._values 0 }
        else array
      .ok { l with _items := array }
    else .ok { l with _items := ManagedArray.NewLength 0 }
  else .ok l

/-- `ListWrapper::EnsureCapacity(min)` (lines 635-646). -/
def EnsureCapacity (l : ManagedList) (min : Nat) : Except ListException ManagedList :=
  if l._items.get_Length < min then
    let num := if l._items.get_Length = 0 then 4 else (l._items.get_Length * 2) % 2 ^ 64
    let num := if num > 2146435071 then 2146435071 else num
    let num := if num < min then min else num
    SetCapacity l num
  else .ok l

/-- `ListWrapper::insert_at(index, item)` (lines 394-409). The `std::copy` of
line 402 is from `begin() + index` to `begin() + index + 1`, into
`end() - index`. -/
def insert_at (l : ManagedList) (index item : Nat) : Except ListException ManagedList :=
  if index > size l then .error ⟨"Capacity size too small"⟩
  else
    let grown :=
      if size l = l._items.get_Length then EnsureCapacity l ((size l + 1) % 2 ^ 64)
      else .ok l
    match grown with
    | .error e => .error e
    | .ok l =>
      let l : ManagedList :=
        if index < size l then
          { l with _items := { l._items with
              _values := std_copy_within l._items._values index (index + 1 - index)
                (size l - index) } }
        else l
      .ok { l with
        _items := { l._items with _values := Function.update l._items._values index item }
        _size := l._size + 1
        _version := l._version + 1 }

/-- `ListWrapper::find(func) const` (lines 326-335). The reference returned is
given by the index of the element. -/
def find_const (l : ManagedList) (func : Nat → Bool) : Option Nat :=
  let start := 0
  let last := size l
  let it := std_find_if l._items._values func start (last - start)
  if it = last then none else some it

/-- `ListWrapper::find(func)`, the overload that is not `const` (lines
315-324). Its `return find(func);` is a call on the same object, not `const`,
and so of this same overload. `fuel` bounds the depth of calls; the outer
`none` means the bound was hit. -/
def find : Nat → ManagedList → (Nat → Bool) → Option (Option Nat)
  | 0, _, _ => none
  | fuel + 1, l, func =>
    let start := 0
    let last := size l
    let it := std_find_if l._items._values func start (last - start)
    if it = last then some none else find fuel l func

/-- The list `[10, 20, 30]` on a backing array of four elements. -/
def exList : ManagedList :=
  ⟨⟨none, 4, fun i => if i = 0 then 10 else if i = 1 then 20 else if i = 2 then 30 else 0⟩,
    3, 7⟩

end ListWrapper

namespace ManagedArray

end ManagedArray

/-! ## Theorems -/

namespace cs

theorem scan_bump_returned {R : Type} (x : ScanRes R) : x.bump.returned = x.returned := rfl

theorem scan_bump_result {R : Type} (x : ScanRes R) : x.bump.result = x.result := rfl

theorem scan_bump_consumed {R : Type} (x : ScanRes R) : x.bump.consumed = x.consumed + 1 := rfl

theorem scan_bump_nToRetOn {R : Type} (x : ScanRes R) : x.bump.nToRetOn = x.nToRetOn := rfl

theorem scan_bump_retCount {R : Type} (x : ScanRes R) : x.bump.retCount = x.retCount := rfl

/-- A replay that does not return has read the whole stream and holds no
result. -/
theorem scan_not_returned {R : Type} (RET : Nat) (mtch : cs_insn → Option R)
    (skip : cs_insn → Bool) (s : List (Option cs_insn)) :
    ∀ n r, (scan RET mtch skip s n r).returned = false →
      (scan RET mtch skip s n r).consumed = s.length ∧
      (scan RET mtch skip s n r).result = none := by
  induction s with
  | nil => intro n r; simp [scan]
  | cons x s ih =>
    intro n r
    cases x with
    | none =>
      simp only [scan, scan_bump_returned, scan_bump_consumed, scan_bump_result,
        List.length_cons]
      intro hr
      obtain ⟨h1, h2⟩ := ih n r hr
      exact ⟨by omega, h2⟩
    | some insn =>
      simp only [scan, List.length_cons]
      split
      · split
        · simp
        · simp only [scan_bump_returned, scan_bump_consumed, scan_bump_result]
          intro hr; obtain ⟨h1, h2⟩ := ih n (r - 1) hr; exact ⟨by omega, h2⟩
      · split
        · split
          · simp
          · simp only [scan_bump_returned, scan_bump_consumed, scan_bump_result]
            intro hr; obtain ⟨h1, h2⟩ := ih _ r hr; exact ⟨by omega, h2⟩
        · split
          · split
            · simp
            · simp only [scan_bump_returned, scan_bump_consumed, scan_bump_result]
              intro hr; obtain ⟨h1, h2⟩ := ih _ r hr; exact ⟨by omega, h2⟩
          · simp only [scan_bump_returned, scan_bump_consumed, scan_bump_result]
            intro hr; obtain ⟨h1, h2⟩ := ih n r hr; exact ⟨by omega, h2⟩

/-- A replay never reads more words than the stream has, and a returning one
has read at least the word it returned on. -/
theorem scan_consumed_le {R : Type} (RET : Nat) (mtch : cs_insn → Option R)
    (skip : cs_insn → Bool) (s : List (Option cs_insn)) :
    ∀ n r, (scan RET mtch skip s n r).consumed ≤ s.length := by
  induction s with
  | nil => intro n r; simp [scan]
  | cons x s ih =>
    intro n r
    cases x with
    | none =>
      simp only [scan, scan_bump_consumed, List.length_cons]
      have := ih n r
      omega
    | some insn =>
      simp only [scan, List.length_cons]
      split
      · split
        · simp
        · simp only [scan_bump_consumed]; have := ih n (r - 1); omega
      · split
        · split
          · simp
          · simp only [scan_bump_consumed]; have := ih ((n + 2 ^ 32 - 1) % 2 ^ 32) r; omega
        · split
          · split
            · simp
            · simp only [scan_bump_consumed]
              have := ih ((n + 2 ^ 32 - 1) % 2 ^ 32) r; omega
          · simp only [scan_bump_consumed]; have := ih n r; omega

theorem toExit_bump {R : Type} (a k : Nat) (x : ScanRes R) :
    toExit a (k + 1) x.bump = toExit (a + 4) k x := by
  unfold toExit ScanRes.bump
  by_cases hx : x.returned = true
  · simp only [hx, if_true]
    have e1 : a + 4 * (x.consumed + 1) = a + 4 + 4 * x.consumed := by omega
    have e2 : 4 * (k + 1 - (x.consumed + 1)) = 4 * (k - x.consumed) := by omega
    rw [e1, e2]
  · have e1 : a + 4 * (k + 1) = a + 4 + 4 * k := by omega
    simp [hx, e1]

theorem u64_sub_four (k : Nat) (hk : 4 * (k + 1) < 2 ^ 64) :
    (4 * (k + 1) + 2 ^ 64 - 4) % 2 ^ 64 = 4 * k := by
  omega

/-- On a window of `k` whole words, with a fixed-width decoder and more than
`k` iterations allowed, the `while` loop does what the replay on the window's
stream does. -/
theorem whileLoop_eq_scan {R : Type} (h : Capstone) (hfw : FixedWidth h)
    (mtch : cs_insn → Option R) (skip : cs_insn → Bool) :
    ∀ (k a fuel n : Nat) (r : Int), k < fuel → 4 * k < 2 ^ 64 →
      whileLoop h mtch skip fuel ⟨a, 4 * k⟩ n r =
        some (toExit a k (scan h.ARM64_INS_RET mtch skip (wordStream h a k) n r)) := by
  intro k
  induction k with
  | zero =>
    intro a fuel n r hf _
    cases fuel with
    | zero => omega
    | succ fuel => simp [whileLoop, wordStream, scan, toExit]
  | succ k ih =>
    intro a fuel n r hf hk
    cases fuel with
    | zero => omega
    | succ fuel =>
      have hf1 : k < fuel := by omega
      have hk1 : 4 * k < 2 ^ 64 := by omega
      have hpos : 0 < 4 * (k + 1) := by omega
      have hsub := u64_sub_four k hk
      simp only [whileLoop, hpos, if_true, cs_disasm_iter, wordStream, scan]
      cases hd : h.disasm a (4 * (k + 1)) a with
      | none =>
        simp only [scan, hsub]
        rw [ih (a + 4) fuel n r hf1 hk1, toExit_bump]
      | some insn =>
        have hsz : insn.size = 4 := hfw _ _ _ _ hd
        have h4 : (4 : Nat) % 2 ^ 64 = 4 := by norm_num
        simp only [scan, hsz, h4, hsub]
        by_cases hret : insn.id = h.ARM64_INS_RET
        · simp only [hret, if_true]
          by_cases hr : r = 0
          · simp [hr, toExit]
          · simp only [hr, if_false]
            rw [ih (a + 4) fuel n (r - 1) hf1 hk1, toExit_bump]
        · simp only [hret, if_false]
          cases hm : mtch insn with
          | some t =>
            simp only []
            by_cases hn : n = 1
            · simp [hn, toExit]
            · simp only [hn, if_false]
              rw [ih (a + 4) fuel _ r hf1 hk1, toExit_bump]
          | none =>
            simp only []
            by_cases hs : skip insn = true
            · simp only [hs, if_true]
              by_cases hn : n = 1
              · simp [hn, toExit]
              · simp only [hn, if_false]
                rw [ih (a + 4) fuel _ r hf1 hk1, toExit_bump]
            · have hs1 : skip insn = false := by simpa using hs
              simp only [hs1, Bool.false_eq_true, if_false]
              rw [ih (a + 4) fuel n r hf1 hk1, toExit_bump]

theorem shift_bump {R : Type} (k : Nat) (x : ScanRes R) :
    (x.shift k).bump = x.shift (k + 1) := by
  simp [ScanRes.shift, ScanRes.bump, Nat.add_assoc]

theorem bump_ite {R : Type} (c : Bool) (x y : ScanRes R) (k : Nat) :
    (if c = true then x else y.shift k).bump = if c = true then x.bump else y.shift (k + 1) := by
  cases c <;> simp [shift_bump]

/-- Replaying on `s1 ++ s2` is replaying on `s1` and, if that does not return,
going on with `s2` from the counters `s1` left. -/
theorem scan_append {R : Type} (RET : Nat) (mtch : cs_insn → Option R)
    (skip : cs_insn → Bool) (s1 s2 : List (Option cs_insn)) :
    ∀ n r, scan RET mtch skip (s1 ++ s2) n r =
      if (scan RET mtch skip s1 n r).returned = true then scan RET mtch skip s1 n r
      else (scan RET mtch skip s2 (scan RET mtch skip s1 n r).nToRetOn
        (scan RET mtch skip s1 n r).retCount).shift s1.length := by
  induction s1 with
  | nil => intro n r; simp [scan, ScanRes.shift]
  | cons x s1 ih =>
    intro n r
    rw [List.cons_append]
    cases x with
    | none =>
      simp only [scan, List.length_cons, scan_bump_returned, scan_bump_nToRetOn,
        scan_bump_retCount]
      rw [ih n r, bump_ite]
    | some insn =>
      simp only [scan, List.length_cons]
      by_cases hret : insn.id = RET
      · simp only [hret, if_true]
        by_cases hr : r = 0
        · simp [hr]
        · simp only [hr, if_false, scan_bump_returned, scan_bump_nToRetOn,
            scan_bump_retCount]
          rw [ih n (r - 1), bump_ite]
      · simp only [hret, if_false]
        cases hm : mtch insn with
        | some t =>
          simp only []
          by_cases hn : n = 1
          · simp [hn]
          · simp only [hn, if_false, scan_bump_returned, scan_bump_nToRetOn,
              scan_bump_retCount]
            rw [ih _ r, bump_ite]
        | none =>
          simp only []
          by_cases hs : skip insn = true
          · simp only [hs, if_true]
            by_cases hn : n = 1
            · simp [hn]
            · simp only [hn, if_false, scan_bump_returned, scan_bump_nToRetOn,
                scan_bump_retCount]
              rw [ih _ r, bump_ite]
          · have hs1 : skip insn = false := by simpa using hs
            simp only [hs1, Bool.false_eq_true, if_false, scan_bump_returned,
              scan_bump_nToRetOn, scan_bump_retCount]
            rw [ih n r, bump_ite]

theorem wordStream_length (h : Capstone) : ∀ k a, (wordStream h a k).length = k := by
  intro k
  induction k with
  | zero => intro a; simp [wordStream]
  | succ k ih => intro a; simp [wordStream, ih]

/-- On valid windows, with a fixed-width decoder and enough iterations allowed
for the largest window, `findNth` returns, and what it returns and leaves
behind is what the replay on the windows' joint stream gives. -/
theorem findNth_eq_scan {R : Type} (h : Capstone) (hfw : FixedWidth h)
    (mtch : cs_insn → Option R) (skip : cs_insn → Bool) (fuel : Nat) :
    ∀ (ws : List AddrSearchPair) (n : Nat) (r : Int), ValidWindows ws →
      (∀ w ∈ ws, w.remSearchSize / 4 < fuel) →
      ∃ f, findNth h fuel ws n r mtch skip = some f ∧
        f.result = (scan h.ARM64_INS_RET mtch skip (streams h ws) n r).result ∧
        f.nToRetOn = (scan h.ARM64_INS_RET mtch skip (streams h ws) n r).nToRetOn ∧
        f.retCount = (scan h.ARM64_INS_RET mtch skip (streams h ws) n r).retCount ∧
        remaining f.addrs + 4 * (scan h.ARM64_INS_RET mtch skip (streams h ws) n r).consumed
          = remaining ws := by
  intro ws
  induction ws with
  | nil => intro n r _ _; simp [findNth, streams, scan, remaining]
  | cons w rest ih =>
    intro n r hv hfuel
    obtain ⟨a, sz⟩ := w
    have hw := hv ⟨a, sz⟩ (List.mem_cons_self _ _)
    have hf := hfuel ⟨a, sz⟩ (List.mem_cons_self _ _)
    simp only at hw hf
    have hrest : ValidWindows rest := fun w hm => hv w (List.mem_cons_of_mem _ hm)
    have hfrest : ∀ w ∈ rest, w.remSearchSize / 4 < fuel :=
      fun w hm => hfuel w (List.mem_cons_of_mem _ hm)
    have hsz : sz = 4 * (sz / 4) := by omega
    have hk : 4 * (sz / 4) < 2 ^ 64 := by omega
    have hloop := whileLoop_eq_scan h hfw mtch skip (sz / 4) a fuel n r hf hk
    rw [← hsz] at hloop
    have hstr : streams h (⟨a, sz⟩ :: rest) = wordStream h a (sz / 4) ++ streams h rest := by
      simp [streams, windowStream]
    have hlen := wordStream_length h (sz / 4) a
    have hle := scan_consumed_le h.ARM64_INS_RET mtch skip (wordStream h a (sz / 4)) n r
    rw [hstr, scan_append]
    simp only [findNth, hloop, toExit]
    by_cases hx : (scan h.ARM64_INS_RET mtch skip (wordStream h a (sz / 4)) n r).returned = true
    · simp only [hx, if_true]
      refine ⟨_, rfl, rfl, rfl, rfl, ?_⟩
      simp only [remaining, List.map_cons, List.sum_cons]
      rw [hlen] at hle
      omega
    · have hx1 : (scan h.ARM64_INS_RET mtch skip (wordStream h a (sz / 4)) n r).returned
          = false := by simpa using hx
      obtain ⟨hc, _⟩ := scan_not_returned h.ARM64_INS_RET mtch skip _ n r hx1
      obtain ⟨f, hfeq, h1, h2, h3, h4⟩ := ih
        (scan h.ARM64_INS_RET mtch skip (wordStream h a (sz / 4)) n r).nToRetOn
        (scan h.ARM64_INS_RET mtch skip (wordStream h a (sz / 4)) n r).retCount hrest hfrest
      simp only [hx1, Bool.false_eq_true, if_false, hfeq]
      refine ⟨_, rfl, h1, h2, h3, ?_⟩
      simp only [remaining, List.map_cons, List.sum_cons, ScanRes.shift] at h4 ⊢
      rw [hlen]
      omega

theorem candidates_nil {R : Type} (RET : Nat) (mtch : cs_insn → Option R)
    (skip : cs_insn → Bool) : candidates RET mtch skip [] = [] := rfl

theorem candidates_none_cons {R : Type} (RET : Nat) (mtch : cs_insn → Option R)
    (skip : cs_insn → Bool) (s : List (Option cs_insn)) :
    candidates RET mtch skip (none :: s) = candidates RET mtch skip s := by
  simp [candidates]

theorem candidates_ret_cons {R : Type} (RET : Nat) (mtch : cs_insn → Option R)
    (skip : cs_insn → Bool) (i : cs_insn) (s : List (Option cs_insn)) (hi : i.id = RET) :
    candidates RET mtch skip (some i :: s) = candidates RET mtch skip s := by
  simp [candidates, hi]

theorem candidates_match_cons {R : Type} (RET : Nat) (mtch : cs_insn → Option R)
    (skip : cs_insn → Bool) (i : cs_insn) (s : List (Option cs_insn)) (hi : i.id ≠ RET)
    (t : R) (hm : mtch i = some t) :
    candidates RET mtch skip (some i :: s) = i :: candidates RET mtch skip s := by
  simp [candidates, hi, hm]

theorem candidates_skip_cons {R : Type} (RET : Nat) (mtch : cs_insn → Option R)
    (skip : cs_insn → Bool) (i : cs_insn) (s : List (Option cs_insn)) (hi : i.id ≠ RET)
    (hs : skip i = true) :
    candidates RET mtch skip (some i :: s) = i :: candidates RET mtch skip s := by
  simp [candidates, hi, hs]

theorem candidates_other_cons {R : Type} (RET : Nat) (mtch : cs_insn → Option R)
    (skip : cs_insn → Bool) (i : cs_insn) (s : List (Option cs_insn))
    (hm : mtch i = none) (hs : skip i = false) :
    candidates RET mtch skip (some i :: s) = candidates RET mtch skip s := by
  simp [candidates, hm, hs]

theorem returns_none_cons (RET : Nat) (s : List (Option cs_insn)) :
    returns RET (none :: s) = returns RET s := by
  simp [returns]

theorem returns_ret_cons (RET : Nat) (i : cs_insn) (s : List (Option cs_insn))
    (hi : i.id = RET) : returns RET (some i :: s) = i :: returns RET s := by
  simp [returns, hi]

theorem returns_other_cons (RET : Nat) (i : cs_insn) (s : List (Option cs_insn))
    (hi : i.id ≠ RET) : returns RET (some i :: s) = returns RET s := by
  simp [returns, hi]

theorem u32_dec (n : Nat) (h1 : 2 ≤ n) (h2 : n < 2 ^ 32) :
    (n + 2 ^ 32 - 1) % 2 ^ 32 = n - 1 := by
  omega

/-- With an unlimited (negative) return budget and `1 ≤ n`, the replay returns
`match` of the `n`-th candidate, or nothing when there are fewer. -/
theorem scan_result_unlimited {R : Type} (RET : Nat) (mtch : cs_insn → Option R)
    (skip : cs_insn → Bool) (s : List (Option cs_insn)) :
    ∀ (n : Nat) (r : Int), 1 ≤ n → n < 2 ^ 32 → r < 0 →
      (scan RET mtch skip s n r).result =
        ((candidates RET mtch skip s)[n - 1]?).bind mtch := by
  induction s with
  | nil => intro n r _ _ _; simp [scan, candidates]
  | cons x s ih =>
    intro n r h1 h2 hr
    cases x with
    | none =>
      rw [candidates_none_cons]
      simp only [scan, scan_bump_result]
      exact ih n r h1 h2 hr
    | some insn =>
      simp only [scan]
      by_cases hret : insn.id = RET
      · have hr0 : r ≠ 0 := by omega
        rw [candidates_ret_cons RET mtch skip insn s hret]
        simp only [hret, if_true, hr0, if_false, scan_bump_result]
        exact ih n (r - 1) h1 h2 (by omega)
      · simp only [hret, if_false]
        cases hm : mtch insn with
        | some t =>
          rw [candidates_match_cons RET mtch skip insn s hret t hm]
          simp only []
          by_cases hn : n = 1
          · simp [hn, hm]
          · have hdec := u32_dec n (by omega) h2
            simp only [hn, if_false, scan_bump_result, hdec]
            rw [ih (n - 1) r (by omega) (by omega) hr]
            have e : n - 1 = (n - 1 - 1) + 1 := by omega
            conv_rhs => rw [e, List.getElem?_cons_succ]
        | none =>
          simp only []
          by_cases hs : skip insn = true
          · rw [candidates_skip_cons RET mtch skip insn s hret hs]
            simp only [hs, if_true]
            by_cases hn : n = 1
            · simp [hn, hm]
            · have hdec := u32_dec n (by omega) h2
              simp only [hn, if_false, scan_bump_result, hdec]
              rw [ih (n - 1) r (by omega) (by omega) hr]
              have e : n - 1 = (n - 1 - 1) + 1 := by omega
              conv_rhs => rw [e, List.getElem?_cons_succ]
          · have hs1 : skip insn = false := by simpa using hs
            rw [candidates_other_cons RET mtch skip insn s hm hs1]
            simp only [hs1, Bool.false_eq_true, if_false, scan_bump_result]
            exact ih n r h1 h2 hr

/-- A prefix of undecodable words is read through without touching the
counters. -/
theorem scan_undecodable_run {R : Type} (RET : Nat) (mtch : cs_insn → Option R)
    (skip : cs_insn → Bool) (pre rest : List (Option cs_insn))
    (hpre : ∀ x ∈ pre, x = none) (n : Nat) (r : Int) :
    scan RET mtch skip (pre ++ rest) n r = (scan RET mtch skip rest n r).shift pre.length := by
  induction pre with
  | nil => simp [ScanRes.shift]
  | cons x pre ih =>
    have hx : x = none := hpre x (List.mem_cons_self _ _)
    subst hx
    rw [List.cons_append]
    simp only [scan, List.length_cons]
    rw [ih (fun y hy => hpre y (List.mem_cons_of_mem _ hy)), shift_bump]

/-- A prefix holding fewer than `n` candidates and no more returns than the
budget allows is read through: the replay does not return on it, the match
counter drops by the number of candidates and the budget by the number of
returns. -/
theorem scan_through {R : Type} (RET : Nat) (mtch : cs_insn → Option R)
    (skip : cs_insn → Bool) (pre : List (Option cs_insn)) :
    ∀ (n : Nat) (r : Int), n < 2 ^ 32 → (candidates RET mtch skip pre).length < n →
      (r < 0 ∨ ((returns RET pre).length : Int) ≤ r) →
      scan RET mtch skip pre n r =
        ⟨false, none, pre.length, n - (candidates RET mtch skip pre).length,
          r - (returns RET pre).length⟩ := by
  induction pre with
  | nil => intro n r _ _ _; simp [scan, candidates, returns]
  | cons x pre ih =>
    intro n r h2 hc hb
    cases x with
    | none =>
      rw [candidates_none_cons] at hc ⊢
      rw [returns_none_cons] at hb ⊢
      simp only [scan, List.length_cons]
      rw [ih n r h2 hc hb]
      rfl
    | some insn =>
      simp only [scan, List.length_cons]
      by_cases hret : insn.id = RET
      · rw [candidates_ret_cons RET mtch skip insn pre hret] at hc ⊢
        rw [returns_ret_cons RET insn pre hret] at hb ⊢
        simp only [List.length_cons, Nat.cast_add, Nat.cast_one] at hb ⊢
        have hr0 : r ≠ 0 := by omega
        simp only [hret, if_true, hr0, if_false]
        rw [ih n (r - 1) h2 hc (by omega)]
        simp only [ScanRes.bump, ScanRes.mk.injEq, true_and]
        omega
      · rw [returns_other_cons RET insn pre hret] at hb ⊢
        simp only [hret, if_false]
        cases hm : mtch insn with
        | some t =>
          rw [candidates_match_cons RET mtch skip insn pre hret t hm] at hc ⊢
          simp only [List.length_cons] at hc ⊢
          have hn : n ≠ 1 := by omega
          have hdec := u32_dec n (by omega) h2
          simp only [hn, if_false, hdec]
          rw [ih (n - 1) r (by omega) (by omega) hb]
          simp only [ScanRes.bump, ScanRes.mk.injEq, true_and, and_true]
          omega
        | none =>
          simp only []
          by_cases hs : skip insn = true
          · rw [candidates_skip_cons RET mtch skip insn pre hret hs] at hc ⊢
            simp only [List.length_cons] at hc ⊢
            have hn : n ≠ 1 := by omega
            have hdec := u32_dec n (by omega) h2
            simp only [hs, if_true, hn, if_false, hdec]
            rw [ih (n - 1) r (by omega) (by omega) hb]
            simp only [ScanRes.bump, ScanRes.mk.injEq, true_and, and_true]
            omega
          · have hs1 : skip insn = false := by simpa using hs
            rw [candidates_other_cons RET mtch skip insn pre hm hs1] at hc ⊢
            simp only [hs1, Bool.false_eq_true, if_false]
            rw [ih n r h2 hc hb]
            rfl

/-- On valid windows the bytes left to scan are four per word of the joint
stream. -/
theorem remaining_eq_streams (h : Capstone) :
    ∀ ws : List AddrSearchPair, ValidWindows ws →
      remaining ws = 4 * (streams h ws).length := by
  intro ws
  induction ws with
  | nil => intro _; simp [remaining, streams]
  | cons w ws ih =>
    intro hv
    have hw := (hv w (List.mem_cons_self _ _)).1
    have hrest := ih (fun x hx => hv x (List.mem_cons_of_mem _ hx))
    simp only [remaining, streams, List.map_cons, List.sum_cons, List.flatten_cons,
      List.length_append, windowStream, wordStream_length] at hrest ⊢
    omega

theorem exHandle_fixedWidth (prog : List (Nat × Nat × Nat)) : FixedWidth (exHandle prog) := by
  intro code size address insn hd
  simp only [exHandle, listingDisasm] at hd
  split at hd
  · cases hd
  · split at hd
    · cases hd; rfl
    · cases hd

/-- C1. For valid windows (sizes a multiple of the instruction width), every
`1 ≤ N` and every negative return budget, `findNth` returns, and its result is
`match` applied to the `N`-th candidate of the windows' joint stream (the
decoded non-return instructions satisfying `match` or `skip`, in scan order);
it is empty when there are fewer than `N` candidates, and also when the `N`-th
one fails `match`. -/
theorem findNth_nth_candidate {R : Type} (h : Capstone) (hfw : FixedWidth h)
    (mtch : cs_insn → Option R) (skip : cs_insn → Bool) (fuel : Nat)
    (ws : List AddrSearchPair) (n : Nat) (r : Int)
    (hv : ValidWindows ws) (hfuel : ∀ w ∈ ws, w.remSearchSize / 4 < fuel)
    (h1 : 1 ≤ n) (h2 : n < 2 ^ 32) (hr : r < 0) :
    ∃ f, findNth h fuel ws n r mtch skip = some f ∧
      f.result = ((candidates h.ARM64_INS_RET mtch skip (streams h ws))[n - 1]?).bind mtch := by
  obtain ⟨f, hf, hres, _, _, _⟩ := findNth_eq_scan h hfw mtch skip fuel ws n r hv hfuel
  exact ⟨f, hf, by rw [hres, scan_result_unlimited _ _ _ _ n r h1 h2 hr]⟩

/-- C1, worked example: on three branches followed by a return, with budget
`-1`, `N = 2` yields the second branch's target and `N = 4` yields nothing. -/
theorem findNth_nth_candidate_witness :
    (∃ f, findNth (exHandle exThreeBranches) 5 [⟨0x1000, 16⟩] 2 (-1) exBlConv (insnMatch [])
        = some f ∧ f.result = some 0x2004) ∧
    (∃ f, findNth (exHandle exThreeBranches) 5 [⟨0x1000, 16⟩] 4 (-1) exBlConv (insnMatch [])
        = some f ∧ f.result = none) := by
  constructor
  · obtain ⟨f, hf, hres⟩ := findNth_nth_candidate (exHandle exThreeBranches)
      (exHandle_fixedWidth _) exBlConv (insnMatch []) 5 [⟨0x1000, 16⟩] 2 (-1)
      (by decide) (by decide) (by decide) (by decide) (by decide)
    refine ⟨f, hf, ?_⟩
    rw [hres]
    decide
  · obtain ⟨f, hf, hres⟩ := findNth_nth_candidate (exHandle exThreeBranches)
      (exHandle_fixedWidth _) exBlConv (insnMatch []) 5 [⟨0x1000, 16⟩] 4 (-1)
      (by decide) (by decide) (by decide) (by decide) (by decide)
    refine ⟨f, hf, ?_⟩
    rw [hres]
    decide

/-- A stream shaped `pre ++ x :: post` in which `pre` is read through and the
replay returns on `x`: the `findNth` result, counters and bytes left. -/
theorem findNth_stops_at {R : Type} (h : Capstone) (hfw : FixedWidth h)
    (mtch : cs_insn → Option R) (skip : cs_insn → Bool) (fuel : Nat)
    (ws : List AddrSearchPair) (n : Nat) (r : Int)
    (hv : ValidWindows ws) (hfuel : ∀ w ∈ ws, w.remSearchSize / 4 < fuel)
    (pre post : List (Option cs_insn)) (x : Option cs_insn) (res : Option R)
    (n1 : Nat) (r1 : Int)
    (hs : streams h ws = pre ++ x :: post)
    (hpre : scan h.ARM64_INS_RET mtch skip pre n r = ⟨false, none, pre.length, n1, r1⟩)
    (hx : scan h.ARM64_INS_RET mtch skip (x :: post) n1 r1 = ⟨true, res, 1, n1, r1⟩) :
    ∃ f, findNth h fuel ws n r mtch skip = some f ∧ f.result = res ∧ f.nToRetOn = n1 ∧
      f.retCount = r1 ∧ remaining f.addrs = 4 * post.length := by
  obtain ⟨f, hf, e1, e2, e3, e4⟩ := findNth_eq_scan h hfw mtch skip fuel ws n r hv hfuel
  have hrem := remaining_eq_streams h ws hv
  rw [hs, scan_append, hpre] at e1 e2 e3 e4
  simp only [Bool.false_eq_true, if_false, hx, ScanRes.shift] at e1 e2 e3 e4
  rw [hs] at hrem
  simp only [List.length_append, List.length_cons] at hrem
  exact ⟨f, hf, e1, e2, e3, by omega⟩

/-- C2. With a return budget `k ≥ 0`, `findNth` gives up with an empty result
on the `(k+1)`-th return it decodes, when fewer than `N` candidates came before
it: the `k` earlier returns brought the budget to `0`, and nothing after that
return is read. In particular with budget `0`, when the first decoded
instruction is a return, the result is empty for every `N`. -/
theorem findNth_return_budget {R : Type} (h : Capstone) (hfw : FixedWidth h)
    (mtch : cs_insn → Option R) (skip : cs_insn → Bool) (fuel : Nat)
    (ws : List AddrSearchPair) (n : Nat)
    (hv : ValidWindows ws) (hfuel : ∀ w ∈ ws, w.remSearchSize / 4 < fuel)
    (h2 : n < 2 ^ 32) :
    (∀ (k : Nat) (pre post : List (Option cs_insn)) (ret : cs_insn),
      streams h ws = pre ++ some ret :: post → ret.id = h.ARM64_INS_RET →
      (returns h.ARM64_INS_RET pre).length = k →
      (candidates h.ARM64_INS_RET mtch skip pre).length < n →
      ∃ f, findNth h fuel ws n (k : Int) mtch skip = some f ∧ f.result = none ∧
        f.retCount = 0 ∧ remaining f.addrs = 4 * post.length) ∧
    (∀ (pre post : List (Option cs_insn)) (ret : cs_insn),
      streams h ws = pre ++ some ret :: post → ret.id = h.ARM64_INS_RET →
      (∀ x ∈ pre, x = none) →
      ∃ f, findNth h fuel ws n 0 mtch skip = some f ∧ f.result = none ∧
        f.retCount = 0 ∧ remaining f.addrs = 4 * post.length) := by
  constructor
  · intro k pre post ret hs hret hk hc
    have hpre := scan_through h.ARM64_INS_RET mtch skip pre n (k : Int) h2 hc
      (Or.inr (by rw [hk]))
    rw [hk, sub_self] at hpre
    obtain ⟨f, hf, e1, _, e3, e4⟩ := findNth_stops_at h hfw mtch skip fuel ws n (k : Int) hv hfuel
      pre post (some ret) none _ 0 hs hpre (by simp [scan, hret])
    exact ⟨f, hf, e1, e3, e4⟩
  · intro pre post ret hs hret hnone
    have hpre : scan h.ARM64_INS_RET mtch skip pre n 0 = ⟨false, none, pre.length, n, 0⟩ := by
      have := scan_undecodable_run h.ARM64_INS_RET mtch skip pre [] hnone n 0
      simpa [scan, ScanRes.shift] using this
    obtain ⟨f, hf, e1, _, e3, e4⟩ := findNth_stops_at h hfw mtch skip fuel ws n 0 hv hfuel
      pre post (some ret) none n 0 hs hpre (by simp [scan, hret])
    exact ⟨f, hf, e1, e3, e4⟩

/-- C2, worked example: with budget `1` and `N = 2` the search over a branch,
two returns and a branch gives up on the second return, the last branch unread. -/
theorem findNth_return_budget_witness :
    ∃ f, findNth (exHandle exTwoReturns) 5 [⟨0x1000, 16⟩] 2 ((1 : Nat) : Int) exBlConv
        (insnMatch []) = some f ∧
      f.result = none ∧ f.retCount = 0 ∧ remaining f.addrs = 4 * 1 :=
  (findNth_return_budget (exHandle exTwoReturns) (exHandle_fixedWidth _) exBlConv
    (insnMatch []) 5 [⟨0x1000, 16⟩] 2 (by decide) (by decide) (by decide)).1 1
    [some ⟨exBL, 0x1000, 4, 0x2000⟩, some ⟨exRET, 0x1004, 4, 0⟩]
    [some ⟨exBL, 0x100c, 4, 0x2004⟩] ⟨exRET, 0x1008, 4, 0⟩
    (by decide) (by decide) (by decide) (by decide)

/-- C3, as amended. If `nToRetOn = 1` and the first successfully decoded
instruction is not a return and satisfies `match`, `findNth` returns `match`'s
result for it at once: nothing after it is read and the return budget is as it
was passed. -/
theorem findNth_first_match {R : Type} (h : Capstone) (hfw : FixedWidth h)
    (mtch : cs_insn → Option R) (skip : cs_insn → Bool) (fuel : Nat)
    (ws : List AddrSearchPair) (r : Int)
    (hv : ValidWindows ws) (hfuel : ∀ w ∈ ws, w.remSearchSize / 4 < fuel)
    (pre post : List (Option cs_insn)) (i : cs_insn) (t : R)
    (hs : streams h ws = pre ++ some i :: post) (hnone : ∀ x ∈ pre, x = none)
    (hnr : i.id ≠ h.ARM64_INS_RET) (hm : mtch i = some t) :
    ∃ f, findNth h fuel ws 1 r mtch skip = some f ∧ f.result = some t ∧
      f.retCount = r ∧ remaining f.addrs = 4 * post.length := by
  have hpre : scan h.ARM64_INS_RET mtch skip pre 1 r = ⟨false, none, pre.length, 1, r⟩ := by
    have := scan_undecodable_run h.ARM64_INS_RET mtch skip pre [] hnone 1 r
    simpa [scan, ScanRes.shift] using this
  obtain ⟨f, hf, e1, _, e3, e4⟩ := findNth_stops_at h hfw mtch skip fuel ws 1 r hv hfuel
    pre post (some i) (some t) 1 r hs hpre (by simp [scan, hnr, hm])
  exact ⟨f, hf, e1, e3, e4⟩

/-- C3 as amended, worked example: after one undecodable word the first decoded
instruction is a branch; with `N = 1` and budget `0` its target is returned,
the budget still `0` and the return behind it unread. -/
theorem findNth_first_match_witness :
    ∃ f, findNth (exHandle exGapBranch) 4 [⟨0x1000, 12⟩] 1 0 exBlConv (insnMatch [])
        = some f ∧
      f.result = some 0x2000 ∧ f.retCount = 0 ∧ remaining f.addrs = 4 * 1 :=
  findNth_first_match (exHandle exGapBranch) (exHandle_fixedWidth _) exBlConv (insnMatch []) 4
    [⟨0x1000, 12⟩] 0 (by decide) (by decide) [none] [some ⟨exRET, 0x1008, 4, 0⟩]
    ⟨exBL, 0x1004, 4, 0x2000⟩ 0x2000 (by decide) (by decide) (by decide) (by decide)

/-- C3 as stated fails when the first decoded instruction is a return that
`match` accepts: with `N = 1` and budget `-1` the return is not handed to
`match`; the budget is consumed (`-2`) and the result is that of the next
instruction. With budget `0` the result is empty. -/
theorem findNth_first_match_counterexample :
    streams (exHandle exReturnFirst) [⟨0x1000, 8⟩]
      = [some ⟨exRET, 0x1000, 4, 0⟩, some ⟨exBL, 0x1004, 4, 0x2000⟩] ∧
    exAddrConv ⟨exRET, 0x1000, 4, 0⟩ = some 0x1000 ∧
    (findNth (exHandle exReturnFirst) 3 [⟨0x1000, 8⟩] 1 (-1) exAddrConv (insnMatch [])).map
      (fun f => (f.result, f.retCount)) = some (some 0x1004, -2) ∧
    (findNth (exHandle exReturnFirst) 3 [⟨0x1000, 8⟩] 1 0 exAddrConv (insnMatch [])).map
      (fun f => (f.result, f.retCount)) = some (none, 0) := by
  decide

theorem candidates_append {R : Type} (RET : Nat) (mtch : cs_insn → Option R)
    (skip : cs_insn → Bool) (s1 s2 : List (Option cs_insn)) :
    candidates RET mtch skip (s1 ++ s2)
      = candidates RET mtch skip s1 ++ candidates RET mtch skip s2 := by
  simp [candidates]

/-- Whatever the return budget, the replay with `1 ≤ n` returns either nothing
or `match` of the `n`-th candidate: a budget only ever takes a result away. -/
theorem scan_result_limited {R : Type} (RET : Nat) (mtch : cs_insn → Option R)
    (skip : cs_insn → Bool) (s : List (Option cs_insn)) :
    ∀ (n : Nat) (r : Int), 1 ≤ n → n < 2 ^ 32 →
      (scan RET mtch skip s n r).result = none ∨
      (scan RET mtch skip s n r).result =
        ((candidates RET mtch skip s)[n - 1]?).bind mtch := by
  induction s with
  | nil => intro n r _ _; simp [scan]
  | cons x s ih =>
    intro n r h1 h2
    cases x with
    | none =>
      rw [candidates_none_cons]
      simp only [scan, scan_bump_result]
      exact ih n r h1 h2
    | some insn =>
      simp only [scan]
      by_cases hret : insn.id = RET
      · rw [candidates_ret_cons RET mtch skip insn s hret]
        simp only [hret, if_true]
        by_cases hr : r = 0
        · simp [hr]
        · simp only [hr, if_false, scan_bump_result]
          exact ih n (r - 1) h1 h2
      · simp only [hret, if_false]
        cases hm : mtch insn with
        | some t =>
          rw [candidates_match_cons RET mtch skip insn s hret t hm]
          simp only []
          by_cases hn : n = 1
          · simp [hn, hm]
          · have hdec := u32_dec n (by omega) h2
            simp only [hn, if_false, scan_bump_result, hdec]
            have e : n - 1 = (n - 1 - 1) + 1 := by omega
            have hg : (insn :: candidates RET mtch skip s)[n - 1]?
                = (candidates RET mtch skip s)[n - 1 - 1]? := by
              conv_lhs => rw [e, List.getElem?_cons_succ]
            rw [hg]
            exact ih (n - 1) r (by omega) (by omega)
        | none =>
          simp only []
          by_cases hs : skip insn = true
          · rw [candidates_skip_cons RET mtch skip insn s hret hs]
            simp only [hs, if_true]
            by_cases hn : n = 1
            · simp [hn]
            · have hdec := u32_dec n (by omega) h2
              simp only [hn, if_false, scan_bump_result, hdec]
              have e : n - 1 = (n - 1 - 1) + 1 := by omega
              have hg : (insn :: candidates RET mtch skip s)[n - 1]?
                  = (candidates RET mtch skip s)[n - 1 - 1]? := by
                conv_lhs => rw [e, List.getElem?_cons_succ]
              rw [hg]
              exact ih (n - 1) r (by omega) (by omega)
          · have hs1 : skip insn = false := by simpa using hs
            rw [candidates_other_cons RET mtch skip insn s hm hs1]
            simp only [hs1, Bool.false_eq_true, if_false, scan_bump_result]
            exact ih n r h1 h2

theorem bump_congr {R : Type} (x y : ScanRes R)
    (hxy : x.returned = y.returned ∧ x.consumed = y.consumed ∧
      x.nToRetOn = y.nToRetOn ∧ x.retCount = y.retCount) :
    x.bump.returned = y.bump.returned ∧ x.bump.consumed = y.bump.consumed ∧
      x.bump.nToRetOn = y.bump.nToRetOn ∧ x.bump.retCount = y.bump.retCount := by
  obtain ⟨a, b, c, d⟩ := hxy
  exact ⟨a, by simp only [scan_bump_consumed, b], c, d⟩

/-- The counters, the stopping point and whether the replay returns depend on
the two predicates only through "satisfies `match` or `skip`": replays under
predicate pairs that agree on that differ in nothing but the result handed
back. -/
theorem scan_class_congr {R : Type} (RET : Nat) (mtch mtch1 : cs_insn → Option R)
    (skip skip1 : cs_insn → Bool)
    (hcl : ∀ x, ((mtch1 x).isSome || skip1 x) = ((mtch x).isSome || skip x))
    (s : List (Option cs_insn)) :
    ∀ (n : Nat) (r : Int),
      (scan RET mtch1 skip1 s n r).returned = (scan RET mtch skip s n r).returned ∧
      (scan RET mtch1 skip1 s n r).consumed = (scan RET mtch skip s n r).consumed ∧
      (scan RET mtch1 skip1 s n r).nToRetOn = (scan RET mtch skip s n r).nToRetOn ∧
      (scan RET mtch1 skip1 s n r).retCount = (scan RET mtch skip s n r).retCount := by
  induction s with
  | nil => intro n r; simp [scan]
  | cons x s ih =>
    intro n r
    cases x with
    | none =>
      simp only [scan]
      exact bump_congr _ _ (ih n r)
    | some insn =>
      simp only [scan]
      by_cases hret : insn.id = RET
      · simp only [hret, if_true]
        by_cases hr : r = 0
        · simp [hr]
        · simp only [hr, if_false]
          exact bump_congr _ _ (ih n (r - 1))
      · simp only [hret, if_false]
        have hx := hcl insn
        by_cases hn : n = 1
        · cases hm : mtch insn <;> cases hm1 : mtch1 insn <;>
            cases hs : skip insn <;> cases hs1 : skip1 insn <;>
            simp only [hm, hm1, hs, hs1, Option.isSome_none, Option.isSome_some,
              Bool.or_false, Bool.or_true, Bool.false_eq_true, Bool.true_eq_false] at hx <;>
            (simp only [hn, Bool.false_eq_true, if_true, if_false, and_self]
             try exact bump_congr _ _ (ih _ _))
        · cases hm : mtch insn <;> cases hm1 : mtch1 insn <;>
            cases hs : skip insn <;> cases hs1 : skip1 insn <;>
            simp only [hm, hm1, hs, hs1, Option.isSome_none, Option.isSome_some,
              Bool.or_false, Bool.or_true, Bool.false_eq_true, Bool.true_eq_false] at hx <;>
            simp only [hn, Bool.false_eq_true, if_true, if_false] <;>
            exact bump_congr _ _ (ih _ _)

/-- C4. An instruction that fails `match` but satisfies `skip` counts toward
the `N`-th-match counter exactly like a match: under any other pair of
predicates with the same instructions in "`match` or `skip`", the search stops
at the same place with the same counter and budget. When the `N`-th candidate
fails `match` and satisfies `skip`, the search returns empty, whatever follows
it in the windows; if the return budget lets the scan reach it, the search ends
on it: the counter stands at `1` and nothing after it is read. -/
theorem findNth_skip_counts {R : Type} (h : Capstone) (hfw : FixedWidth h)
    (mtch : cs_insn → Option R) (skip : cs_insn → Bool) (fuel : Nat)
    (ws : List AddrSearchPair) (n : Nat) (r : Int)
    (hv : ValidWindows ws) (hfuel : ∀ w ∈ ws, w.remSearchSize / 4 < fuel)
    (h2 : n < 2 ^ 32)
    (pre post : List (Option cs_insn)) (i : cs_insn)
    (hs : streams h ws = pre ++ some i :: post)
    (hnr : i.id ≠ h.ARM64_INS_RET) (hm : mtch i = none) (hsk : skip i = true)
    (hc : (candidates h.ARM64_INS_RET mtch skip pre).length + 1 = n) :
    ∃ f, findNth h fuel ws n r mtch skip = some f ∧ f.result = none ∧
      ((r < 0 ∨ ((returns h.ARM64_INS_RET pre).length : Int) ≤ r) →
        f.nToRetOn = 1 ∧ remaining f.addrs = 4 * post.length) ∧
      (∀ (mtch1 : cs_insn → Option R) (skip1 : cs_insn → Bool),
        (∀ x, ((mtch1 x).isSome || skip1 x) = ((mtch x).isSome || skip x)) →
        ∃ f1, findNth h fuel ws n r mtch1 skip1 = some f1 ∧ f1.nToRetOn = f.nToRetOn ∧
          f1.retCount = f.retCount ∧ remaining f1.addrs = remaining f.addrs) := by
  obtain ⟨f, hf, e1, e2, e3, e4⟩ := findNth_eq_scan h hfw mtch skip fuel ws n r hv hfuel
  refine ⟨f, hf, ?_, ?_, ?_⟩
  · rw [e1]
    have hnth : ((candidates h.ARM64_INS_RET mtch skip (streams h ws))[n - 1]?).bind mtch
        = none := by
      rw [hs, candidates_append, candidates_skip_cons _ _ _ i post hnr hsk]
      have hidx : n - 1 = (candidates h.ARM64_INS_RET mtch skip pre).length := by omega
      rw [hidx, List.getElem?_append_right (le_refl _)]
      simp [hm]
    rcases scan_result_limited h.ARM64_INS_RET mtch skip (streams h ws) n r (by omega) h2
      with hnone | hsome
    · exact hnone
    · rw [hsome, hnth]
  · intro hb
    have hpre := scan_through h.ARM64_INS_RET mtch skip pre n r h2 (by omega) hb
    have hn1 : n - (candidates h.ARM64_INS_RET mtch skip pre).length = 1 := by omega
    rw [hn1] at hpre
    obtain ⟨f1, hf1, _, d2, _, d4⟩ := findNth_stops_at h hfw mtch skip fuel ws n r hv hfuel
      pre post (some i) none 1 _ hs hpre (by simp [scan, hnr, hm, hsk])
    rw [hf] at hf1
    cases hf1
    exact ⟨d2, d4⟩
  · intro mtch1 skip1 hcl
    obtain ⟨f1, hf1, _, d2, d3, d4⟩ :=
      findNth_eq_scan h hfw mtch1 skip1 fuel ws n r hv hfuel
    obtain ⟨_, c2, c3, c4⟩ :=
      scan_class_congr h.ARM64_INS_RET mtch mtch1 skip skip1 hcl (streams h ws) n r
    refine ⟨f1, hf1, by rw [d2, c3, e2], by rw [d3, c4, e3], ?_⟩
    rw [c2] at d4
    omega

/-- C4, worked example: searching for the second branch with register branches
as the skip class, over two register branches and a branch, returns empty on
the second register branch; the branch behind it is not read. A search that
takes register branches as matches stops at the same place. -/
theorem findNth_skip_counts_witness :
    ∃ f, findNth (exHandle exSkipThenBranch) 4 [⟨0x1000, 12⟩] 2 (-1) exBlConv
        (insnMatch [exBLR]) = some f ∧
      f.result = none ∧ f.nToRetOn = 1 ∧ remaining f.addrs = 4 * 1 ∧
      ∃ f1, findNth (exHandle exSkipThenBranch) 4 [⟨0x1000, 12⟩] 2 (-1) exBlOrBlrConv
          (insnMatch []) = some f1 ∧
        f1.nToRetOn = f.nToRetOn ∧ f1.retCount = f.retCount ∧
        remaining f1.addrs = remaining f.addrs := by
  obtain ⟨f, hf, hres, hat, hcl⟩ := findNth_skip_counts (exHandle exSkipThenBranch)
    (exHandle_fixedWidth _) exBlConv (insnMatch [exBLR]) 4 [⟨0x1000, 12⟩] 2 (-1)
    (by decide) (by decide) (by decide)
    [some ⟨exBLR, 0x1000, 4, 0⟩] [some ⟨exBL, 0x1008, 4, 0x2000⟩] ⟨exBLR, 0x1004, 4, 0⟩
    (by decide) (by decide) (by decide) (by decide) (by decide)
  refine ⟨f, hf, hres, (hat (Or.inl (by decide))).1, (hat (Or.inl (by decide))).2, ?_⟩
  apply hcl exBlOrBlrConv (insnMatch [])
  intro x
  by_cases h1 : x.id = exBL <;> by_cases h2 : x.id = exBLR <;>
    simp [exBlOrBlrConv, exBlConv, insnMatch, h1, h2]

/-- C5. The multi-window search is one pass over the windows' joint stream:
its result and final counters are those of the search of a single window whose
stream is the concatenation of the windows' streams (under any decoder with the
same return id). In the loop itself, when a window is used up the search of
the remaining windows starts from the match counter and the return budget the
used-up window left. -/
theorem findNth_one_pass {R : Type} (h h1 : Capstone) (hfw : FixedWidth h)
    (hfw1 : FixedWidth h1) (mtch : cs_insn → Option R) (skip : cs_insn → Bool)
    (fuel : Nat) (ws : List AddrSearchPair) (w : AddrSearchPair) (n : Nat) (r : Int)
    (hv : ValidWindows ws) (hfuel : ∀ x ∈ ws, x.remSearchSize / 4 < fuel)
    (hw : ValidWindows [w]) (hfuel1 : w.remSearchSize / 4 < fuel)
    (hret : h1.ARM64_INS_RET = h.ARM64_INS_RET)
    (hs : windowStream h1 w = streams h ws) :
    (∃ f f1, findNth h fuel ws n r mtch skip = some f ∧
      findNth h1 fuel [w] n r mtch skip = some f1 ∧
      f.result = f1.result ∧ f.nToRetOn = f1.nToRetOn ∧ f.retCount = f1.retCount) ∧
    (∀ (w0 w1 : AddrSearchPair) (rest : List AddrSearchPair) (n0 n1 : Nat) (r0 r1 : Int),
      whileLoop h mtch skip fuel w0 n0 r0 = some (.exhausted w1 n1 r1) →
      findNth h fuel (w0 :: rest) n0 r0 mtch skip =
        (findNth h fuel rest n1 r1 mtch skip).map
          (fun f => ⟨f.result, w1 :: f.addrs, f.nToRetOn, f.retCount⟩)) := by
  constructor
  · obtain ⟨f, hf, e1, e2, e3, _⟩ := findNth_eq_scan h hfw mtch skip fuel ws n r hv hfuel
    obtain ⟨f1, hf1, d1, d2, d3, _⟩ := findNth_eq_scan h1 hfw1 mtch skip fuel [w] n r hw
      (by intro x hx; rw [List.mem_singleton] at hx; rw [hx]; exact hfuel1)
    have hs1 : streams h1 [w] = streams h ws := by
      simpa [streams] using hs
    rw [hs1, hret] at d1 d2 d3
    exact ⟨f, f1, hf, hf1, by rw [e1, d1], by rw [e2, d2], by rw [e3, d3]⟩
  · intro w0 w1 rest n0 n1 r0 r1 hloop
    simp only [findNth, hloop]
    cases findNth h fuel rest n1 r1 mtch skip <;> rfl

theorem exJoined_fixedWidth : FixedWidth exJoined := by
  intro code size address insn hd
  exact exHandle_fixedWidth exSplit _ _ _ insn hd

/-- C5, worked example: the search for the second branch within one return
over the two windows at `0x1000` and `0x3000` agrees with the search over the
one window holding the same four instructions; the first window is used up with
the counter down to `1` and the budget down to `0`, and the second window is
searched from there. -/
theorem findNth_one_pass_witness :
    (∃ f f1, findNth (exHandle exSplit) 5 [⟨0x1000, 8⟩, ⟨0x3000, 8⟩] 2 1 exBlConv
        (insnMatch [exBLR]) = some f ∧
      findNth exJoined 5 [⟨0x5000, 16⟩] 2 1 exBlConv (insnMatch [exBLR]) = some f1 ∧
      f.result = f1.result ∧ f.nToRetOn = f1.nToRetOn ∧ f.retCount = f1.retCount) ∧
    findNth (exHandle exSplit) 5 [⟨0x1000, 8⟩, ⟨0x3000, 8⟩] 2 1 exBlConv (insnMatch [exBLR]) =
      (findNth (exHandle exSplit) 5 [⟨0x3000, 8⟩] 1 0 exBlConv (insnMatch [exBLR])).map
        (fun f => ⟨f.result, ⟨0x1008, 0⟩ :: f.addrs, f.nToRetOn, f.retCount⟩) :=
  ⟨(findNth_one_pass (exHandle exSplit) exJoined (exHandle_fixedWidth _) exJoined_fixedWidth
      exBlConv (insnMatch [exBLR]) 5 [⟨0x1000, 8⟩, ⟨0x3000, 8⟩] ⟨0x5000, 16⟩ 2 1
      (by decide) (by decide) (by decide) (by decide) (by decide) (by decide)).1,
    (findNth_one_pass (exHandle exSplit) exJoined (exHandle_fixedWidth _) exJoined_fixedWidth
      exBlConv (insnMatch [exBLR]) 5 [⟨0x1000, 8⟩, ⟨0x3000, 8⟩] ⟨0x5000, 16⟩ 2 1
      (by decide) (by decide) (by decide) (by decide) (by decide) (by decide)).2
      ⟨0x1000, 8⟩ ⟨0x1008, 0⟩ [⟨0x3000, 8⟩] 2 1 1 0 (by decide)⟩

theorem remSearchSize_le_remaining :
    ∀ (ws : List AddrSearchPair) (w : AddrSearchPair), w ∈ ws →
      w.remSearchSize ≤ remaining ws := by
  intro ws
  induction ws with
  | nil => intro w hw; cases hw
  | cons x ws ih =>
    intro w hw
    simp only [remaining, List.map_cons, List.sum_cons]
    rcases List.mem_cons.1 hw with rfl | hm
    · omega
    · have := ih w hm
      simp only [remaining] at this
      omega

theorem whileLoop_failed_run {R : Type} (h : Capstone) (hfw : FixedWidth h)
    (mtch : cs_insn → Option R) (skip : cs_insn → Bool) (fuel a k n : Nat) (r : Int)
    (pre rest : List (Option cs_insn)) (hf : k < fuel) (hk : 4 * k < 2 ^ 64)
    (hs : wordStream h a k = pre ++ rest) (hpre : ∀ y ∈ pre, y = none) :
    whileLoop h mtch skip fuel ⟨a, 4 * k⟩ n r =
      some (toExit a k ((scan h.ARM64_INS_RET mtch skip rest n r).shift pre.length)) := by
  rw [whileLoop_eq_scan h hfw mtch skip k a fuel n r hf hk, hs,
    scan_undecodable_run h.ARM64_INS_RET mtch skip pre rest hpre n r]

/-- C6. On windows whose sizes are multiples of 4, with a decoder that consumes
one 4-byte instruction per successful decode, `findNth` terminates: from some
iteration bound on it always returns. A word that fails to decode moves the
cursor on by 4 and the remaining size down by 4 and leaves the match counter
and the return budget as they were, and the scan goes on behind it: after any
run of such words the `N`-th match is still returned, with the window standing
4 bytes per word read further on; a match that is not yet the `N`-th takes the
counter down by one from the value it had before the run; a window of such
words alone is used up, counters unchanged, without the function returning;
and when no word of any window decodes every window is read to its end and the
result is empty. -/
theorem findNth_terminates {R : Type} (h : Capstone) (hfw : FixedWidth h)
    (mtch : cs_insn → Option R) (skip : cs_insn → Bool)
    (ws : List AddrSearchPair) (n : Nat) (r : Int) (hv : ValidWindows ws) :
    (∃ fuel0, ∀ fuel, fuel0 ≤ fuel → (findNth h fuel ws n r mtch skip).isSome = true) ∧
    (∀ (fuel n1 : Nat) (r1 : Int) (w : AddrSearchPair),
      w.remSearchSize % 4 = 0 → 0 < w.remSearchSize → w.remSearchSize < 2 ^ 64 →
      h.disasm w.addr w.remSearchSize w.addr = none →
      whileLoop h mtch skip (fuel + 1) w n1 r1 =
        whileLoop h mtch skip fuel ⟨w.addr + 4, w.remSearchSize - 4⟩ n1 r1) ∧
    (∀ (fuel a k : Nat) (r1 : Int) (pre post : List (Option cs_insn)) (insn : cs_insn) (x : R),
      k < fuel → 4 * k < 2 ^ 64 → wordStream h a k = pre ++ some insn :: post →
      (∀ y ∈ pre, y = none) → insn.id ≠ h.ARM64_INS_RET → mtch insn = some x →
      whileLoop h mtch skip fuel ⟨a, 4 * k⟩ 1 r1 =
        some (.returned (some x) ⟨a + 4 * (pre.length + 1), 4 * post.length⟩ 1 r1)) ∧
    (∀ (fuel a k n1 : Nat) (r1 : Int) (pre : List (Option cs_insn)) (insn : cs_insn) (x : R),
      k < fuel → 4 * k < 2 ^ 64 → wordStream h a k = pre ++ [some insn] →
      (∀ y ∈ pre, y = none) → insn.id ≠ h.ARM64_INS_RET → mtch insn = some x →
      2 ≤ n1 → n1 < 2 ^ 32 →
      whileLoop h mtch skip fuel ⟨a, 4 * k⟩ n1 r1 =
        some (.exhausted ⟨a + 4 * k, 0⟩ (n1 - 1) r1)) ∧
    (∀ (fuel a k n1 : Nat) (r1 : Int),
      k < fuel → 4 * k < 2 ^ 64 → (∀ y ∈ wordStream h a k, y = none) →
      whileLoop h mtch skip fuel ⟨a, 4 * k⟩ n1 r1 = some (.exhausted ⟨a + 4 * k, 0⟩ n1 r1)) ∧
    (∀ fuel, (∀ w ∈ ws, w.remSearchSize / 4 < fuel) → (∀ y ∈ streams h ws, y = none) →
      ∃ f, findNth h fuel ws n r mtch skip = some f ∧ f.result = none ∧ f.nToRetOn = n ∧
        f.retCount = r ∧ remaining f.addrs = 0) := by
  refine ⟨?_, ?_, ?_, ?_, ?_, ?_⟩
  · refine ⟨remaining ws / 4 + 1, fun fuel hfuel => ?_⟩
    obtain ⟨f, hf, _⟩ := findNth_eq_scan h hfw mtch skip fuel ws n r hv (by
      intro w hw
      have := remSearchSize_le_remaining ws w hw
      omega)
    rw [hf]
    rfl
  · intro fuel n1 r1 w h4 hpos hlt hd
    have e : (w.remSearchSize + 2 ^ 64 - 4) % 2 ^ 64 = w.remSearchSize - 4 := by omega
    simp only [whileLoop, hpos, if_true, cs_disasm_iter, hd, e]
  · intro fuel a k r1 pre post insn x hf hk hs hpre hret hm
    rw [whileLoop_failed_run h hfw mtch skip fuel a k 1 r1 pre _ hf hk hs hpre]
    have hlen := wordStream_length h k a
    rw [hs] at hlen
    simp only [List.length_append, List.length_cons] at hlen
    simp only [scan, hret, if_false, hm, if_true, ScanRes.shift, toExit]
    have e1 : a + 4 * (1 + pre.length) = a + 4 * (pre.length + 1) := by omega
    have e2 : 4 * (k - (1 + pre.length)) = 4 * post.length := by omega
    rw [e1, e2]
  · intro fuel a k n1 r1 pre insn x hf hk hs hpre hret hm h2 h32
    rw [whileLoop_failed_run h hfw mtch skip fuel a k n1 r1 pre _ hf hk hs hpre]
    have hn : n1 ≠ 1 := by omega
    have hdec := u32_dec n1 h2 h32
    simp [scan, hret, hm, hn, ScanRes.shift, ScanRes.bump, toExit]
    omega
  · intro fuel a k n1 r1 hf hk hall
    have hs : wordStream h a k = wordStream h a k ++ [] := by simp
    rw [whileLoop_failed_run h hfw mtch skip fuel a k n1 r1 _ [] hf hk hs hall]
    simp [scan, ScanRes.shift, toExit]
  · intro fuel hfuel hall
    obtain ⟨f, hf, e1, e2, e3, e4⟩ := findNth_eq_scan h hfw mtch skip fuel ws n r hv hfuel
    have hrem := remaining_eq_streams h ws hv
    have hs : streams h ws = streams h ws ++ [] := by simp
    rw [hs, scan_undecodable_run h.ARM64_INS_RET mtch skip _ [] hall n r] at e1 e2 e3 e4
    simp only [scan, ScanRes.shift] at e1 e2 e3 e4
    exact ⟨f, hf, e1, e2, e3, by omega⟩

/-- C6, worked example, on a window of one undecodable word, a branch and a
return at `0x1000`: the search terminates; the failed decode of the first word
leaves the loop at `0x1004` with 8 bytes and both counters as they were; the
branch behind it is returned as first match with the window at `0x1008`, or
counted as the first of two; and two undecodable words at `0x2000` are read
to the end of their window. -/
theorem findNth_terminates_witness :
    (∃ fuel0, ∀ fuel, fuel0 ≤ fuel →
      (findNth (exHandle exGapBranch) fuel [⟨0x1000, 12⟩] 2 (-1) exBlConv
        (insnMatch [])).isSome = true) ∧
    whileLoop (exHandle exGapBranch) exBlConv (insnMatch []) (3 + 1) ⟨0x1000, 12⟩ 2 (-1) =
      whileLoop (exHandle exGapBranch) exBlConv (insnMatch []) 3 ⟨0x1000 + 4, 12 - 4⟩ 2 (-1) ∧
    whileLoop (exHandle exGapBranch) exBlConv (insnMatch []) 4 ⟨0x1000, 4 * 3⟩ 1 (-1) =
      some (.returned (some 0x2000) ⟨0x1000 + 4 * (1 + 1), 4 * 1⟩ 1 (-1)) ∧
    whileLoop (exHandle exGapBranch) exBlConv (insnMatch []) 4 ⟨0x1000, 4 * 2⟩ 2 (-1) =
      some (.exhausted ⟨0x1000 + 4 * 2, 0⟩ (2 - 1) (-1)) ∧
    whileLoop (exHandle exGapBranch) exBlConv (insnMatch []) 4 ⟨0x2000, 4 * 2⟩ 2 (-1) =
      some (.exhausted ⟨0x2000 + 4 * 2, 0⟩ 2 (-1)) ∧
    (∃ f, findNth (exHandle exGapBranch) 4 [⟨0x2000, 8⟩, ⟨0x3000, 4⟩] 2 (-1) exBlConv
        (insnMatch []) = some f ∧ f.result = none ∧ f.nToRetOn = 2 ∧ f.retCount = -1 ∧
      remaining f.addrs = 0) :=
  ⟨(findNth_terminates (exHandle exGapBranch) (exHandle_fixedWidth _) exBlConv (insnMatch [])
      [⟨0x1000, 12⟩] 2 (-1) (by decide)).1,
    (findNth_terminates (exHandle exGapBranch) (exHandle_fixedWidth _) exBlConv (insnMatch [])
      [⟨0x1000, 12⟩] 2 (-1) (by decide)).2.1 3 2 (-1) ⟨0x1000, 12⟩
      (by decide) (by decide) (by decide) (by decide),
    (findNth_terminates (exHandle exGapBranch) (exHandle_fixedWidth _) exBlConv (insnMatch [])
      [⟨0x1000, 12⟩] 2 (-1) (by decide)).2.2.1 4 0x1000 3 (-1) [none]
      [some ⟨exRET, 0x1008, 4, 0⟩] ⟨exBL, 0x1004, 4, 0x2000⟩ 0x2000
      (by decide) (by decide) (by decide) (by decide) (by decide) (by decide),
    (findNth_terminates (exHandle exGapBranch) (exHandle_fixedWidth _) exBlConv (insnMatch [])
      [⟨0x1000, 12⟩] 2 (-1) (by decide)).2.2.2.1 4 0x1000 2 2 (-1) [none]
      ⟨exBL, 0x1004, 4, 0x2000⟩ 0x2000
      (by decide) (by decide) (by decide) (by decide) (by decide) (by decide) (by decide)
      (by decide),
    (findNth_terminates (exHandle exGapBranch) (exHandle_fixedWidth _) exBlConv (insnMatch [])
      [⟨0x1000, 12⟩] 2 (-1) (by decide)).2.2.2.2.1 4 0x2000 2 2 (-1)
      (by decide) (by decide) (by decide),
    (findNth_terminates (exHandle exGapBranch) (exHandle_fixedWidth _) exBlConv (insnMatch [])
      [⟨0x2000, 8⟩, ⟨0x3000, 4⟩] 2 (-1) (by decide)).2.2.2.2.2 4 (by decide) (by decide)⟩

/-- C7, as amended. With at least one hook recorded for the target,
`find_through_hooks` hands `func` two windows in this order: the front
record's six captured words (24 bytes), then the live window of
`initialSearchSize` bytes starting at the target itself; with no hook recorded
it hands over that live window alone. -/
theorem find_through_hooks_windows {α : Type} (t : HookTracker) (data : HookInfo → Nat)
    (hook initialSearchSize : Nat) (func : List AddrSearchPair → α) :
    (∀ front rest, t.GetHooks hook = front :: rest →
      find_through_hooks t data hook initialSearchSize func
        = func [⟨data front, 24⟩, ⟨hook, initialSearchSize⟩]) ∧
    (t.GetHooks hook = [] →
      find_through_hooks t data hook initialSearchSize func
        = func [⟨hook, initialSearchSize⟩]) := by
  constructor
  · intro front rest hg
    simp only [find_through_hooks, hg, front.original_data.property]
    rfl
  · intro hg
    simp only [find_through_hooks, hg]

/-- C7 as amended, worked example: after `Foo` is installed at `0x1000` the
windows are the record's 24 bytes and the live 4096 bytes at `0x1000`; for the
unhooked `0x4000` the live window alone. -/
theorem find_through_hooks_windows_witness :
    find_through_hooks
        (Hooking.__InstallHook Hooking.exA64HookFunction Hooking.exFoo true Hooking.exWorld
          0x1000).tracker (fun _ => 0x8000) 0x1000 4096 id
      = [⟨0x8000, 24⟩, ⟨0x1000, 4096⟩] ∧
    find_through_hooks
        (Hooking.__InstallHook Hooking.exA64HookFunction Hooking.exFoo true Hooking.exWorld
          0x1000).tracker (fun _ => 0x8000) 0x4000 4096 id
      = [⟨0x4000, 4096⟩] :=
  ⟨(find_through_hooks_windows _ (fun _ => 0x8000) 0x1000 4096 id).1
      ⟨"Foo", 0x1000, 0x2000, 0x102000, readWords Hooking.exMem 0x1000⟩ [] (by decide),
    (find_through_hooks_windows _ (fun _ => 0x8000) 0x4000 4096 id).2 (by decide)⟩

/-- C7 as stated fails on the live window: after `Foo` is installed at
`0x1000` the first word there is the hook's stub, no longer the original word,
and the second window handed over starts at `0x1000` itself, so the rewritten
entry words are scanned again rather than skipped. -/
theorem find_through_hooks_windows_counterexample :
    (Hooking.__InstallHook Hooking.exA64HookFunction Hooking.exFoo true Hooking.exWorld
      0x1000).mem 0x1000 = 0x58000051 ∧
    Hooking.exWorld.mem 0x1000 = 0xA0 ∧
    (find_through_hooks
        (Hooking.__InstallHook Hooking.exA64HookFunction Hooking.exFoo true Hooking.exWorld
          0x1000).tracker (fun _ => 0x8000) 0x1000 4096 id)[1]?
      = some ⟨0x1000, 4096⟩ := by
  decide

end cs

namespace HookTracker

theorem getLast?_cons_of_ne_nil {α : Type} (a : α) (l : List α) (hl : l ≠ []) :
    (a :: l).getLast? = l.getLast? := by
  cases l with
  | nil => exact absurd rfl hl
  | cons b l => simp [List.getLast?_cons_cons]

/-- C8. `GetOrig(address)` is `address` itself when no hook is recorded for it;
otherwise it is the `orig` recorded by the first-installed hook: a further
`AddHook` at a destination that has a hook leaves it as it was, and after
`AddHook(H1)` then `AddHook(H2)` at a destination without hooks it is
`H1.orig`. -/
theorem GetOrig_first_installed (t : HookTracker) :
    (∀ a, t.GetHooks a = [] → t.GetOrig a = a) ∧
    (∀ H : HookInfo, t.GetHooks H.destination ≠ [] →
      (t.AddHook H).GetOrig H.destination = t.GetOrig H.destination) ∧
    (∀ H1 H2 : HookInfo, H1.destination = H2.destination →
      t.GetHooks H1.destination = [] →
      ((t.AddHook H1).AddHook H2).GetOrig H1.destination = H1.orig) := by
  refine ⟨?_, ?_, ?_⟩
  · intro a ha
    simp only [GetHooks] at ha
    simp [GetOrig, GetOrigInternal, ha]
  · intro H hne
    simp only [GetHooks] at hne
    simp only [GetOrig, GetOrigInternal, AddHook, if_true]
    rw [getLast?_cons_of_ne_nil H _ hne]
  · intro H1 H2 hd hem
    simp only [GetHooks] at hem
    simp only [GetOrig, GetOrigInternal, AddHook, ← hd, if_true, hem]
    rfl

/-- C8, worked example: an unhooked `0x4000` is its own original; after `A`
then `B` at `0x1000` the original of `0x1000` is the one `A` recorded, also
after a further `AddHook` of `B`. -/
theorem GetOrig_first_installed_witness :
    empty.GetOrig 0x4000 = 0x4000 ∧
    (((empty.AddHook exA).AddHook exB).AddHook exB).GetOrig 0x1000
      = ((empty.AddHook exA).AddHook exB).GetOrig 0x1000 ∧
    ((empty.AddHook exA).AddHook exB).GetOrig 0x1000 = 0x5000 :=
  ⟨(GetOrig_first_installed empty).1 0x4000 (by decide),
    (GetOrig_first_installed ((empty.AddHook exA).AddHook exB)).2.1 exB (by decide),
    (GetOrig_first_installed empty).2.2 exA exB (by decide) (by decide)⟩

/-- C9. `AddHook(record)` puts the record at the front of the list kept for
`record.destination` and leaves the list of every other destination as it was;
so after `AddHook(A)` then `AddHook(B)` with one destination that had no hook,
`GetHooks(destination)` is `[B, A]`; and an address that is the destination of
none of the hooks added to the empty registry has the empty list. -/
theorem AddHook_front (t : HookTracker) (record : HookInfo) :
    (t.AddHook record).GetHooks record.destination
      = record :: t.GetHooks record.destination ∧
    (∀ a, a ≠ record.destination → (t.AddHook record).GetHooks a = t.GetHooks a) ∧
    (∀ B : HookInfo, B.destination = record.destination →
      t.GetHooks record.destination = [] →
      ((t.AddHook record).AddHook B).GetHooks record.destination = [B, record]) ∧
    (∀ (infos : List HookInfo) (a : Nat), (∀ i ∈ infos, i.destination ≠ a) →
      (infos.foldl AddHook empty).GetHooks a = []) := by
  refine ⟨?_, ?_, ?_, ?_⟩
  · simp [AddHook, GetHooks]
  · intro a ha
    simp [AddHook, GetHooks, ha]
  · intro B hB hem
    simp only [GetHooks] at hem
    simp [AddHook, GetHooks, hB, hem]
  · intro infos a
    have key : ∀ (l : List HookInfo) (u : HookTracker), u.GetHooks a = [] →
        (∀ i ∈ l, i.destination ≠ a) → (l.foldl AddHook u).GetHooks a = [] := by
      intro l
      induction l with
      | nil => intro u hu _; simpa using hu
      | cons i l ih =>
        intro u hu hl
        rw [List.foldl_cons]
        apply ih
        · have hi : a ≠ i.destination := fun e => hl i (List.mem_cons_self _ _) e.symm
          simpa [AddHook, GetHooks, hi] using hu
        · exact fun j hj => hl j (List.mem_cons_of_mem _ hj)
    exact key infos empty rfl

/-- C9, worked example: after `AddHook(A)` then `AddHook(B)` at `0x1000`,
`GetHooks(0x1000)` is `[B, A]`, the list of `0x4000` is untouched, and it is
empty. -/
theorem AddHook_front_witness :
    ((empty.AddHook exA).AddHook exB).GetHooks 0x1000 = [exB, exA] ∧
    ((empty.AddHook exA).AddHook exB).GetHooks 0x4000 = (empty.AddHook exA).GetHooks 0x4000 ∧
    ([exA, exB].foldl AddHook empty).GetHooks 0x4000 = [] :=
  ⟨(AddHook_front empty exA).2.2.1 exB (by decide) (by decide),
    (AddHook_front (empty.AddHook exA) exB).2.1 0x4000 (by decide),
    (AddHook_front empty exA).2.2.2 [exA, exB] 0x4000 (by decide)⟩

end HookTracker

namespace Hooking

theorem __InstallHook_eq_On (A64HookFunction : Memory → Nat → Nat → Memory × Nat) (T : Hook)
    (track : Bool) (s : World) (addr : Nat) :
    __InstallHook A64HookFunction T track s addr
      = __InstallHookOn HookTracker.AddHook A64HookFunction T track s addr := by
  cases track <;> rfl

/-- C11. A tracked install at `a` adds one record to the registry, at the front
of the list for `a` and to no other list. The record has destination `a`, the
six words that were at `a` in the memory the rewrite primitive was given, and
as `orig` the trampoline address the primitive produced, which is also what
the hook's trampoline slot holds afterwards. -/
theorem InstallHook_tracked_record (A64HookFunction : Memory → Nat → Nat → Memory × Nat)
    (T : Hook) (s : World) (a : Nat) :
    ∃ info : HookInfo,
      (__InstallHook A64HookFunction T true s a).tracker = s.tracker.AddHook info ∧
      (__InstallHook A64HookFunction T true s a).tracker.GetHooks a
        = info :: s.tracker.GetHooks a ∧
      (∀ b, b ≠ a → (__InstallHook A64HookFunction T true s a).tracker.GetHooks b
        = s.tracker.GetHooks b) ∧
      info.destination = a ∧
      info.original_data = readWords s.mem a ∧
      (__InstallHook A64HookFunction T true s a).mem = (A64HookFunction s.mem a T.hook).1 ∧
      info.orig = (A64HookFunction s.mem a T.hook).2 ∧
      (__InstallHook A64HookFunction T true s a).slots T.trampoline = info.orig := by
  refine ⟨⟨T.name, a, T.hook, (A64HookFunction s.mem a T.hook).2, readWords s.mem a⟩,
    ?_, ?_, ?_, rfl, rfl, ?_, rfl, ?_⟩
  · simp [__InstallHook, HookInfo.ctor]
  · simp [__InstallHook, HookInfo.ctor, HookTracker.AddHook, HookTracker.GetHooks]
  · intro b hb
    simp [__InstallHook, HookInfo.ctor, HookTracker.AddHook, HookTracker.GetHooks, hb]
  · simp [__InstallHook]
  · simp [__InstallHook]

/-- C11, worked example: installing `Foo` at `0x1000` in the example world
leaves one record for `0x1000` and none for `0x4000`; the record holds the six
original words and the trampoline `0x102000`. -/
theorem InstallHook_tracked_record_witness :
    ∃ info : HookInfo,
      (__InstallHook exA64HookFunction exFoo true exWorld 0x1000).tracker.GetHooks 0x1000
        = [info] ∧
      (__InstallHook exA64HookFunction exFoo true exWorld 0x1000).tracker.GetHooks 0x4000
        = [] ∧
      info.destination = 0x1000 ∧
      info.original_data.val = [0xA0, 0xA1, 0xA2, 0xA3, 0xA4, 0xA5] ∧
      info.orig = 0x102000 := by
  obtain ⟨info, _, h2, h3, h4, h5, _, h7, _⟩ :=
    InstallHook_tracked_record exA64HookFunction exFoo exWorld 0x1000
  refine ⟨info, h2, ?_, h4, ?_, ?_⟩
  · rw [h3 0x4000 (by decide)]
    rfl
  · rw [h5]
    decide
  · rw [h7]
    decide

/-- C12. `InstallHook` for a metadata-resolved hook aborts exactly when
`getInfo()` returned nothing, and then the world is the one it was called in,
whatever the rewrite primitive is: memory, registry and trampoline slots are
untouched. When the lookup gave a descriptor it returns after one tracked
install at the descriptor's `methodPointer`. `InstallHookDirect` aborts exactly
when its destination is null, the world untouched, and otherwise returns after
one tracked install at the destination. -/
theorem InstallHook_abort_iff (A64HookFunction : Memory → Nat → Nat → Memory × Nat)
    (T : Hook) (getInfo : Option MethodInfo) (s : World) (dst : Nat) :
    ((InstallHook A64HookFunction T getInfo s).isAborted = true ↔ getInfo = none) ∧
    (getInfo = none → InstallHook A64HookFunction T getInfo s = .aborted s) ∧
    (∀ info, getInfo = some info →
      InstallHook A64HookFunction T getInfo s
        = .returned (__InstallHook A64HookFunction T true s info.methodPointer)) ∧
    ((InstallHookDirect A64HookFunction T s dst).isAborted = true ↔ dst = 0) ∧
    (dst = 0 → InstallHookDirect A64HookFunction T s dst = .aborted s) ∧
    (dst ≠ 0 → InstallHookDirect A64HookFunction T s dst
      = .returned (__InstallHook A64HookFunction T true s dst)) := by
  refine ⟨?_, ?_, ?_, ?_, ?_, ?_⟩
  · cases getInfo <;> simp [InstallHook, Outcome.isAborted]
  · intro h
    subst h
    rfl
  · intro info h
    subst h
    rfl
  · by_cases hd : dst = 0 <;> simp [InstallHookDirect, Outcome.isAborted, hd]
  · intro hd
    simp [InstallHookDirect, hd]
  · intro hd
    simp [InstallHookDirect, hd]

/-- C12, worked example, with a rewrite primitive that counts its calls: with
no descriptor `InstallHook` aborts with the count at `0` and no record for
`0x1000`; with the example descriptor it returns with the count at `1` and one
record for `0x1000`; `InstallHookDirect` at null aborts with the count at
`0`. -/
theorem InstallHook_abort_iff_witness :
    (InstallHook exCountingHookFunction exFoo none exWorld).isAborted = true ∧
    (InstallHook exCountingHookFunction exFoo none exWorld).world.mem 0xC000 = 0 ∧
    (InstallHook exCountingHookFunction exFoo none exWorld).world.tracker.GetHooks 0x1000
      = [] ∧
    (InstallHook exCountingHookFunction exFoo (some exMethod) exWorld).isAborted = false ∧
    (InstallHook exCountingHookFunction exFoo (some exMethod) exWorld).world.mem 0xC000
      = 1 ∧
    ((InstallHook exCountingHookFunction exFoo (some exMethod) exWorld).world.tracker.GetHooks
      0x1000).length = 1 ∧
    (InstallHookDirect exCountingHookFunction exFoo exWorld 0).isAborted = true ∧
    (InstallHookDirect exCountingHookFunction exFoo exWorld 0).world.mem 0xC000 = 0 := by
  have h := InstallHook_abort_iff exCountingHookFunction exFoo none exWorld 0
  have hs := InstallHook_abort_iff exCountingHookFunction exFoo (some exMethod) exWorld 0
  refine ⟨h.1.2 rfl, ?_, ?_, ?_, ?_, ?_, h.2.2.2.1.2 rfl, ?_⟩
  · rw [h.2.1 rfl]
    decide
  · rw [h.2.1 rfl]
    decide
  · rw [hs.2.2.1 exMethod rfl]
    decide
  · rw [hs.2.2.1 exMethod rfl]
    decide
  · rw [hs.2.2.1 exMethod rfl]
    decide
  · rw [h.2.2.2.2.1 rfl]
    decide

/-- `InstallOrigHook` with a descriptor applies the rewrite at
`GetOrig(methodPointer)`, with the hook's replacement, to the memory it was
called in, and the hook's trampoline slot then holds the trampoline the
rewrite produced. -/
theorem InstallOrigHook_rewrites_at_orig
    (A64HookFunction : Memory → Nat → Nat → Memory × Nat) (T : Hook) (info : MethodInfo)
    (s : World) :
    (InstallOrigHook A64HookFunction T (some info) s).world.mem
      = (A64HookFunction s.mem (s.tracker.GetOrig info.methodPointer) T.hook).1 ∧
    (InstallOrigHook A64HookFunction T (some info) s).world.slots T.trampoline
      = (A64HookFunction s.mem (s.tracker.GetOrig info.methodPointer) T.hook).2 := by
  simp [InstallOrigHook, Outcome.world, __InstallHook]

/-- The registry after `InstallOrigHook` on a method that was already
hooked: the front record for `methodPointer` has as `orig` what the hook's
trampoline slot held when `InstallOrigHook` was entered, since the record is
patched from the slot before the rewrite fills the slot. -/
theorem InstallOrigHook_front_orig
    (A64HookFunction : Memory → Nat → Nat → Memory × Nat) (T : Hook) (info : MethodInfo)
    (s : World) (front : HookInfo) (rest : List HookInfo)
    (hhooked : s.tracker.GetOrig info.methodPointer ≠ info.methodPointer)
    (hlist : s.tracker.GetHooks info.methodPointer = front :: rest) :
    (InstallOrigHook A64HookFunction T (some info) s).world.tracker.GetHooks
        info.methodPointer
      = { front with orig := s.slots T.trampoline } :: rest := by
  simp only [HookTracker.GetHooks] at hlist
  simp [InstallOrigHook, Outcome.world, __InstallHook, HookTracker.GetHooks, hhooked, hlist]

/-- C13, evaluated on the example: `Bar` is installed with `InstallOrigHook` on the method
at `0x1000`, which `Foo` hooked before. The rewrite goes to `0x102000`, the
recorded original, and produces the trampoline `0x103000`, which `Bar`'s slot
holds afterwards; the front record's `orig` is `0`, what the slot held
before. -/
theorem InstallOrigHook_stale_trampoline :
    exHooked.tracker.GetOrig 0x1000 = 0x102000 ∧
    (InstallOrigHook exA64HookFunction exBar (some exMethod) exHooked).world.mem 0x102000
      = 0x58000051 ∧
    (InstallOrigHook exA64HookFunction exBar (some exMethod) exHooked).world.slots
      exBar.trampoline = 0x103000 ∧
    ((InstallOrigHook exA64HookFunction exBar (some exMethod) exHooked).world.tracker.GetHooks
      0x1000).map (fun i => i.orig) = [0] := by
  decide

end Hooking

namespace il2cpp_utils

theorem forall_range_succ (P : Nat → Prop) (i k : Nat) :
    (∀ j, i ≤ j → j < i + (k + 1) → P j) ↔
      P i ∧ ∀ j, i + 1 ≤ j → j < i + 1 + k → P j := by
  constructor
  · intro h
    exact ⟨h i (le_refl _) (by omega), fun j h1 h2 => h j (by omega) (by omega)⟩
  · rintro ⟨h0, h⟩ j h1 h2
    by_cases hj : j = i
    · subst hj
      exact h0
    · exact h j (by omega) (by omega)

/-- The loop answers `true` exactly when every parameter it is to look at, that
is not a passed-over placeholder, is convertible from its argument type. -/
theorem matchLoop_matched (rt : Runtime) (method : MethodInfo) (genTypes argTypes : List Nat) :
    ∀ (k i : Nat) (isId : Bool) (log : List String),
      (matchLoop rt method genTypes argTypes k i isId log).1 = true ↔
        ∀ j, i ≤ j → j < i + k → ∀ p, resolveParam rt method genTypes j = .ok p →
          rt.IsConvertibleFrom p (argTypes.getD j 0) true = true := by
  intro k
  induction k with
  | zero =>
    intro i isId log
    simp only [matchLoop, true_iff]
    intro j h1 h2
    omega
  | succ k ih =>
    intro i isId log
    rw [forall_range_succ
      (fun j => ∀ p, resolveParam rt method genTypes j = .ok p →
        rt.IsConvertibleFrom p (argTypes.getD j 0) true = true)]
    cases hres : resolveParam rt method genTypes i with
    | error w =>
      simp only [matchLoop, hres, ih]
      constructor
      · intro h
        exact ⟨fun p hp => (by cases hp), h⟩
      · intro h
        exact h.2
    | ok p =>
      simp only [matchLoop, hres]
      by_cases hc : rt.IsConvertibleFrom p (argTypes.getD i 0) true = true
      · simp only [hc, Bool.not_true, Bool.false_eq_true, if_false, ih]
        constructor
        · intro h
          refine ⟨fun q hq => ?_, h⟩
          cases hq
          exact hc
        · intro h
          exact h.2
      · have hc1 : rt.IsConvertibleFrom p (argTypes.getD i 0) true = false := by
          simpa using hc
        simp only [hc1, Bool.not_false, if_true, Bool.false_eq_true, false_iff]
        intro h
        have := h.1 p rfl
        rw [hc1] at this
        cases this

/-- When the loop answers `true`, or when every type is convertible from
itself, `isIdentical` ends `true` exactly when it started `true` and every
parameter the loop is to look at, that is not a passed-over placeholder, is
identical to its argument type. -/
theorem matchLoop_identical (rt : Runtime) (method : MethodInfo) (genTypes argTypes : List Nat) :
    ∀ (k i : Nat) (isId : Bool) (log : List String),
      ((matchLoop rt method genTypes argTypes k i isId log).1 = true ∨
        ∀ t, rt.IsConvertibleFrom t t true = true) →
      ((matchLoop rt method genTypes argTypes k i isId log).2.1 = true ↔
        isId = true ∧ ∀ j, i ≤ j → j < i + k → ∀ p,
          resolveParam rt method genTypes j = .ok p → p = argTypes.getD j 0) := by
  intro k
  induction k with
  | zero =>
    intro i isId log _
    simp only [matchLoop]
    constructor
    · intro h
      exact ⟨h, fun j h1 h2 => (by omega)⟩
    · intro h
      exact h.1
  | succ k ih =>
    intro i isId log hor
    rw [forall_range_succ
      (fun j => ∀ p, resolveParam rt method genTypes j = .ok p → p = argTypes.getD j 0)]
    cases hres : resolveParam rt method genTypes i with
    | error w =>
      simp only [matchLoop, hres] at hor ⊢
      rw [ih (i + 1) isId (log ++ [w]) hor]
      constructor
      · rintro ⟨h1, h2⟩
        exact ⟨h1, fun p hp => (by cases hp), h2⟩
      · rintro ⟨h1, _, h2⟩
        exact ⟨h1, h2⟩
    | ok p =>
      simp only [matchLoop, hres] at hor ⊢
      by_cases hc : rt.IsConvertibleFrom p (argTypes.getD i 0) true = true
      · simp only [hc, Bool.not_true, Bool.false_eq_true, if_false] at hor ⊢
        rw [ih (i + 1) _ log hor]
        simp only [Bool.and_eq_true, decide_eq_true_eq]
        constructor
        · rintro ⟨⟨h1, h0⟩, h2⟩
          refine ⟨h1, fun q hq => ?_, h2⟩
          cases hq
          exact h0
        · rintro ⟨h1, h0, h2⟩
          exact ⟨⟨h1, h0 p rfl⟩, h2⟩
      · have hc1 : rt.IsConvertibleFrom p (argTypes.getD i 0) true = false := by
          simpa using hc
        simp only [hc1, Bool.not_false, if_true, Bool.false_eq_true, false_or] at hor ⊢
        have hne : p ≠ argTypes.getD i 0 := by
          intro he
          rw [← he, hor p] at hc1
          cases hc1
        simp only [Bool.and_eq_true, decide_eq_true_eq]
        constructor
        · rintro ⟨_, h0⟩
          exact absurd h0 hne
        · rintro ⟨_, h0, _⟩
          exact absurd (h0 p rfl) hne

theorem sizeT_ne (x : Int) (n : Nat) (h1 : -(2 : Int) ^ 31 ≤ x) (h2 : x < 2 ^ 31)
    (hn : n < 2 ^ 63) (hne : x ≠ (n : Int)) : sizeT x ≠ n := by
  unfold sizeT
  omega

/-- C14. `ParameterMatch` answers `false` for a method whose parameter count
differs from the length of `argTypes`, and for one whose generic-parameter
count (`0` when it is not generic) differs from the length of `genTypes`; so
among candidates whose parameter counts all differ from the length of
`argTypes` it accepts none. -/
theorem ParameterMatch_arity (rt : Runtime) (method : MethodInfo) (genTypes argTypes : List Nat)
    (isIdenticalOut : Option Bool) :
    (method.parameters_count ≠ argTypes.length →
      (ParameterMatch rt method genTypes argTypes isIdenticalOut).matched = false) ∧
    (-(2 : Int) ^ 31 ≤ genCount method → genCount method < 2 ^ 31 →
      genTypes.length < 2 ^ 63 → genCount method ≠ (genTypes.length : Int) →
      (ParameterMatch rt method genTypes argTypes isIdenticalOut).matched = false) ∧
    (∀ candidates : List MethodInfo,
      (∀ m ∈ candidates, m.parameters_count ≠ argTypes.length) →
      candidates.filter
        (fun m => (ParameterMatch rt m genTypes argTypes isIdenticalOut).matched) = []) := by
  have hp : ∀ m : MethodInfo, m.parameters_count ≠ argTypes.length →
      (ParameterMatch rt m genTypes argTypes isIdenticalOut).matched = false := by
    intro m hm
    simp [ParameterMatch, hm]
  refine ⟨hp method, ?_, ?_⟩
  · intro h1 h2 hn hne
    have hs := sizeT_ne (genCount method) genTypes.length h1 h2 hn hne
    by_cases hm : method.parameters_count = argTypes.length
    · simp [ParameterMatch, hm, hs]
    · exact hp method hm
  · intro candidates hall
    rw [List.filter_eq_nil_iff]
    intro m hm
    rw [hp m (hall m hm)]
    simp

/-- C14, worked example: a one-parameter method is refused for two argument
types; a generic method with one type argument is refused when no generic
argument is supplied; and of two candidates with one and three parameters none
is accepted for two argument types. -/
theorem ParameterMatch_arity_witness :
    (ParameterMatch exRuntime (exMethodOf [100] false) [] [100, 101] none).matched = false ∧
    (ParameterMatch exRuntime (exMethodOf [900] true) [] [501] none).matched = false ∧
    [exMethodOf [100] false, exMethodOf [100, 100, 100] false].filter
      (fun m => (ParameterMatch exRuntime m [] [100, 101] none).matched) = [] :=
  ⟨(ParameterMatch_arity exRuntime (exMethodOf [100] false) [] [100, 101] none).1 (by decide),
    (ParameterMatch_arity exRuntime (exMethodOf [900] true) [] [501] none).2.1
      (by decide) (by decide) (by decide) (by decide),
    (ParameterMatch_arity exRuntime (exMethodOf [100] false) [] [100, 101] none).2.2
      [exMethodOf [100] false, exMethodOf [100, 100, 100] false] (by decide)⟩

theorem ParameterMatch_matched_iff (rt : Runtime) (method : MethodInfo)
    (genTypes argTypes : List Nat) (isIdenticalOut : Option Bool) :
    (ParameterMatch rt method genTypes argTypes isIdenticalOut).matched = true ↔
      method.parameters_count = argTypes.length ∧
      sizeT (genCount method) = genTypes.length ∧
      ∀ i, i < method.parameters_count → ∀ p, resolveParam rt method genTypes i = .ok p →
        rt.IsConvertibleFrom p (argTypes.getD i 0) true = true := by
  by_cases hm : method.parameters_count = argTypes.length
  · by_cases hg : sizeT (genCount method) = genTypes.length
    · simp only [ParameterMatch, hm, hg, ne_eq, not_true_eq_false, if_false, true_and]
      rw [← hm, matchLoop_matched]
      simp
    · simp [ParameterMatch, hm, hg]
  · simp [ParameterMatch, hm]

theorem resolveParam_plain (rt : Runtime) (method : MethodInfo) (genTypes : List Nat) (i : Nat)
    (h : (rt.typeAt (method.parameters.getD i 0)).type ≠ IL2CPP_TYPE_MVAR) :
    resolveParam rt method genTypes i = .ok (method.parameters.getD i 0) := by
  unfold resolveParam
  simp only [if_neg h]

theorem resolveParam_placeholder (rt : Runtime) (method : MethodInfo) (genTypes : List Nat)
    (i : Nat) (h : (rt.typeAt (method.parameters.getD i 0)).type = IL2CPP_TYPE_MVAR)
    (h0 : 0 ≤ genIdx rt method i) (h1 : genIdx rt method i < genCount method) :
    resolveParam rt method genTypes i =
      .ok (if (rt.typeAt (method.parameters.getD i 0)).byref
        then rt.this_arg (genTypes.getD (genIdx rt method i).toNat 0)
        else rt.byval_arg (genTypes.getD (genIdx rt method i).toNat 0)) := by
  have hc : genCount method ≠ 0 := by omega
  have hn0 : ¬ genIdx rt method i < 0 := by omega
  have hn1 : ¬ genIdx rt method i ≥ genCount method := by omega
  unfold resolveParam
  simp only [if_pos h, if_neg hc, if_neg hn0, if_neg hn1]

/-- C15, as amended. `ParameterMatch` answers `true` only if both counts agree
and, for every parameter index `i`: a parameter that is not a method-generic
placeholder is convertible from `argTypes[i]`
(`IsConvertibleFrom(param, argTypes[i])`), and a placeholder whose
generic-parameter index lies within the generic arguments is so after being
resolved to the type of `genTypes[index]` (`this_arg` if the parameter is
by-ref, `byval_arg` otherwise). A placeholder whose index does not lie within
them is passed over unchecked. -/
theorem ParameterMatch_convertible (rt : Runtime) (method : MethodInfo)
    (genTypes argTypes : List Nat) (isIdenticalOut : Option Bool)
    (h : (ParameterMatch rt method genTypes argTypes isIdenticalOut).matched = true) :
    method.parameters_count = argTypes.length ∧
    sizeT (genCount method) = genTypes.length ∧
    ∀ i, i < method.parameters_count →
      ((rt.typeAt (method.parameters.getD i 0)).type ≠ IL2CPP_TYPE_MVAR →
        rt.IsConvertibleFrom (method.parameters.getD i 0) (argTypes.getD i 0) true = true) ∧
      ((rt.typeAt (method.parameters.getD i 0)).type = IL2CPP_TYPE_MVAR →
        0 ≤ genIdx rt method i → genIdx rt method i < genCount method →
        rt.IsConvertibleFrom
          (if (rt.typeAt (method.parameters.getD i 0)).byref
            then rt.this_arg (genTypes.getD (genIdx rt method i).toNat 0)
            else rt.byval_arg (genTypes.getD (genIdx rt method i).toNat 0))
          (argTypes.getD i 0) true = true) := by
  obtain ⟨h1, h2, h3⟩ := (ParameterMatch_matched_iff rt method genTypes argTypes _).1 h
  refine ⟨h1, h2, fun i hi => ⟨fun hp => ?_, fun hp h0 hlt => ?_⟩⟩
  · exact h3 i hi _ (resolveParam_plain rt method genTypes i hp)
  · exact h3 i hi _ (resolveParam_placeholder rt method genTypes i hp h0 hlt)

/-- C15 as amended, worked example: the generic method with a plain parameter
`100` and a placeholder is accepted for the generic argument `500` and the
argument types `101` and `501`; so `100` is convertible from `101`, and the
placeholder, resolved to `byval_arg` of `500`, from `501`. -/
theorem ParameterMatch_convertible_witness :
    exRuntime.IsConvertibleFrom 100 101 true = true ∧
    exRuntime.IsConvertibleFrom (exRuntime.byval_arg 500) 501 true = true := by
  obtain ⟨_, _, h⟩ := ParameterMatch_convertible exRuntime (exMethodOf [100, 900] true)
    [500] [101, 501] none (by decide)
  exact ⟨(h 0 (by decide)).1 (by decide),
    (h 1 (by decide)).2 (by decide) (by decide) (by decide)⟩

/-- C15 as stated fails for a placeholder that cannot be resolved: the
one-parameter method that is not generic, whose parameter is the placeholder
`900`, is accepted for the argument type `101` with no generic argument,
though neither the placeholder's own type nor `byval_arg` or `this_arg` of the
missing generic argument is convertible from `101`. -/
theorem ParameterMatch_convertible_counterexample :
    (ParameterMatch exRuntime (exMethodOf [900] false) [] [101] none).matched = true ∧
    exRuntime.IsConvertibleFrom 900 101 true = false ∧
    exRuntime.IsConvertibleFrom (exRuntime.byval_arg (([] : List Nat).getD 0 0)) 101 true
      = false ∧
    exRuntime.IsConvertibleFrom (exRuntime.this_arg (([] : List Nat).getD 0 0)) 101 true
      = false := by
  decide

/-- C16, as amended. When a count check fails, `ParameterMatch` leaves the
`isIdenticalOut` slot as it was. When both pass, the slot is written, and it
holds `true` exactly when every parameter, taken as the loop compares it (a
method-generic placeholder resolved to the type of its generic argument, an
unresolvable placeholder passed over), is identical to the corresponding entry
of `argTypes`; this for a call that answers `true`, and for every call if
`IsConvertibleFrom` accepts identical types. -/
theorem ParameterMatch_isIdentical (rt : Runtime) (method : MethodInfo)
    (genTypes argTypes : List Nat) (b : Bool) :
    ((method.parameters_count ≠ argTypes.length ∨
        sizeT (genCount method) ≠ genTypes.length) →
      (ParameterMatch rt method genTypes argTypes (some b)).isIdenticalOut = some b) ∧
    (method.parameters_count = argTypes.length → sizeT (genCount method) = genTypes.length →
      ((ParameterMatch rt method genTypes argTypes (some b)).matched = true ∨
        ∀ t, rt.IsConvertibleFrom t t true = true) →
      ((ParameterMatch rt method genTypes argTypes (some b)).isIdenticalOut = some true ↔
        ∀ i, i < method.parameters_count → ∀ p, resolveParam rt method genTypes i = .ok p →
          p = argTypes.getD i 0)) := by
  constructor
  · intro h
    by_cases hm : method.parameters_count = argTypes.length
    · rcases h with h | h
      · exact absurd hm h
      · simp [ParameterMatch, hm, h]
    · simp [ParameterMatch, hm]
  · intro hm hg hor
    simp only [ParameterMatch, hm, hg, ne_eq, not_true_eq_false, if_false, Option.map_some',
      Option.some.injEq] at hor ⊢
    rw [← hm] at hor ⊢
    rw [matchLoop_identical rt method genTypes argTypes _ 0 true [] hor]
    simp

/-- C16 as amended, worked example: for the generic method with a plain
parameter `100` and a placeholder, the generic argument `500` and the argument
types `100` and `501`, a slot holding `false` holds `true` afterwards; for two
argument types and a one-parameter method a slot holding `true` is left as it
was. -/
theorem ParameterMatch_isIdentical_witness :
    (ParameterMatch exRuntime (exMethodOf [100, 900] true) [500] [100, 501]
      (some false)).isIdenticalOut = some true ∧
    (ParameterMatch exRuntime (exMethodOf [100] false) [] [100, 101]
      (some true)).isIdenticalOut = some true := by
  constructor
  · refine ((ParameterMatch_isIdentical exRuntime (exMethodOf [100, 900] true) [500]
      [100, 501] false).2 (by decide) (by decide) (Or.inl (by decide))).2 ?_
    intro i hi p hp
    have hi2 : i = 0 ∨ i = 1 := by
      simp only [MethodInfo.parameters_count, exMethodOf, List.length_cons,
        List.length_nil] at hi
      omega
    rcases hi2 with rfl | rfl
    · have : resolveParam exRuntime (exMethodOf [100, 900] true) [500] 0 = .ok 100 := by
        rfl
      rw [this] at hp
      cases hp
      rfl
    · have : resolveParam exRuntime (exMethodOf [100, 900] true) [500] 1 = .ok 501 := by
        rfl
      rw [this] at hp
      cases hp
      rfl
  · exact (ParameterMatch_isIdentical exRuntime (exMethodOf [100] false) [] [100, 101]
      true).1 (Or.inl (by decide))

/-- C16 as stated fails. A slot holding `true` still holds `true` after a call
for a method with parameters `100` and `101` and the single argument type
`100`, where the second parameter has no argument type to be identical to. And
after the call for the one-parameter method whose parameter is the unresolvable
placeholder `900`, with the argument type `101`, the slot holds `true` though
the parameter type `900` is not `101`. -/
theorem ParameterMatch_isIdentical_counterexample :
    (ParameterMatch exRuntime (exMethodOf [100, 101] false) [] [100]
      (some true)).isIdenticalOut = some true ∧
    (exMethodOf [100, 101] false).parameters ≠ [100] ∧
    (ParameterMatch exRuntime (exMethodOf [900] false) [] [101]
      (some false)).isIdenticalOut = some true ∧
    (exMethodOf [900] false).parameters ≠ [101] := by
  decide

theorem std_equal_iff : ∀ l1 l2 : List Nat, std_equal l1 l2 = true ↔ l1 = l2 := by
  intro l1
  induction l1 with
  | nil =>
    intro l2
    cases l2 <;> simp [std_equal]
  | cons a l1 ih =>
    intro l2
    cases l2 with
    | nil => simp [std_equal]
    | cons b l2 =>
      by_cases hab : a = b
      · simp [std_equal, hab, ih]
      · simp [std_equal, hab]

theorem FindMethodInfo_eq_iff (a b : FindMethodInfo) :
    a.eq b = true ↔
      a.klass = b.klass ∧ a.name = b.name ∧ a.genTypes = b.genTypes ∧
        a.argTypes = b.argTypes := by
  unfold FindMethodInfo.eq
  by_cases hk : a.klass = b.klass
  · by_cases hn : a.name = b.name
    · by_cases ha : a.argTypes = b.argTypes
      · by_cases hg : a.genTypes = b.genTypes
        · simp [hk, hn, ha, hg, (std_equal_iff _ _).2 rfl]
        · have hs : ¬ std_equal a.genTypes b.genTypes = true :=
            fun h => hg ((std_equal_iff _ _).1 h)
          simp [hk, hn, ha, hg, (std_equal_iff _ _).2 rfl, hs]
      · have hs : ¬ std_equal a.argTypes b.argTypes = true :=
          fun h => ha ((std_equal_iff _ _).1 h)
        simp [hk, hn, ha, hs]
    · simp [hk, hn]
  · simp [hk]

/-- C17. `FindMethodInfo` equality is structural: `a == b` holds exactly when
the two have the same class, the same name, the same generic-argument sequence
and the same parameter-type sequence (equal length, identical element by
element); it is reflexive, symmetric and transitive, and `a != b` is its
negation. -/
theorem FindMethodInfo_eq_structural (a b c : FindMethodInfo) :
    (a.eq b = true ↔
      a.klass = b.klass ∧ a.name = b.name ∧
      (a.genTypes.length = b.genTypes.length ∧
        ∀ i, i < a.genTypes.length → a.genTypes.getD i 0 = b.genTypes.getD i 0) ∧
      (a.argTypes.length = b.argTypes.length ∧
        ∀ i, i < a.argTypes.length → a.argTypes.getD i 0 = b.argTypes.getD i 0)) ∧
    a.eq a = true ∧
    (a.eq b = true → b.eq a = true) ∧
    (a.eq b = true → b.eq c = true → a.eq c = true) ∧
    a.ne b = !(a.eq b) := by
  have hext : ∀ l1 l2 : List Nat, l1 = l2 ↔
      (l1.length = l2.length ∧ ∀ i, i < l1.length → l1.getD i 0 = l2.getD i 0) := by
    intro l1 l2
    constructor
    · intro h
      subst h
      exact ⟨rfl, fun _ _ => rfl⟩
    · rintro ⟨hl, hi⟩
      apply List.ext_getElem hl
      intro i h1 h2
      have := hi i h1
      simpa [List.getD_eq_getElem?_getD, h1, h2] using this
  refine ⟨?_, ?_, ?_, ?_, rfl⟩
  · rw [FindMethodInfo_eq_iff, hext a.genTypes, hext a.argTypes]
  · exact (FindMethodInfo_eq_iff a a).2 ⟨rfl, rfl, rfl, rfl⟩
  · intro h
    obtain ⟨h1, h2, h3, h4⟩ := (FindMethodInfo_eq_iff a b).1 h
    exact (FindMethodInfo_eq_iff b a).2 ⟨h1.symm, h2.symm, h3.symm, h4.symm⟩
  · intro h h'
    obtain ⟨h1, h2, h3, h4⟩ := (FindMethodInfo_eq_iff a b).1 h
    obtain ⟨g1, g2, g3, g4⟩ := (FindMethodInfo_eq_iff b c).1 h'
    exact (FindMethodInfo_eq_iff a c).2 ⟨h1.trans g1, h2.trans g2, h3.trans g3, h4.trans g4⟩

/-- C17, worked example: two lookups of `Add` on the class at `0x7000` with the
same argument types are equal both ways, and one with the argument types in
another order is unequal to them. -/
theorem FindMethodInfo_eq_structural_witness :
    (⟨0x7000, "Add", [], [100, 101]⟩ : FindMethodInfo).eq ⟨0x7000, "Add", [], [100, 101]⟩
      = true ∧
    (⟨0x7000, "Add", [], [100, 101]⟩ : FindMethodInfo).ne ⟨0x7000, "Add", [], [101, 100]⟩
      = true ∧
    (⟨0x7000, "Add", [], [100, 101]⟩ : FindMethodInfo).eq ⟨0x7000, "Add", [], [100, 101]⟩
      = true := by
  have h := FindMethodInfo_eq_structural ⟨0x7000, "Add", [], [100, 101]⟩
    ⟨0x7000, "Add", [], [100, 101]⟩ ⟨0x7000, "Add", [], [101, 100]⟩
  have h2 := FindMethodInfo_eq_structural ⟨0x7000, "Add", [], [100, 101]⟩
    ⟨0x7000, "Add", [], [101, 100]⟩ ⟨0x7000, "Add", [], [101, 100]⟩
  refine ⟨h.2.1, ?_, h.2.2.1 h.2.1⟩
  rw [h2.2.2.2.2]
  decide

theorem checkTypesBlock_void (rt : Runtime) (TOut : OutType) (m : MethodInfo)
    (params : List Arg) (hvoid : TOut.isVoid = true) :
    ((checkTypesBlock rt TOut m params).1 ≠ none ↔
      (0 < params.length ∧
        (ParameterMatch rt m [] (params.map Arg.type) none).matched = false)) := by
  unfold checkTypesBlock
  by_cases hp : 0 < params.length
  · by_cases hm : (ParameterMatch rt m [] (params.map Arg.type) none).matched = false
    · simp [hp, hm, hvoid]
    · simp [hp, hm, hvoid]
  · simp [hp, hvoid]

/-- C18, as amended. `RunMethod` requested with `TOut = void` does not look at
the descriptor's return type: on a non-null descriptor it returns an error
Result exactly when, under `checkTypes`, the arguments fail `ParameterMatch`,
or the method is an instance method and the instance is null, or the managed
call reports an exception; in every other case it returns the success Result
of `void`. -/
theorem RunMethod_void (rt : Runtime) (TOut : OutType) (checkTypes : Bool) (inst : Nat)
    (m : MethodInfo) (params : List Arg) (hvoid : TOut.isVoid = true) :
    ((RunMethod rt TOut checkTypes inst (some m) params).result.has_exception = true ↔
      ((checkTypes = true ∧ 0 < params.length ∧
          (ParameterMatch rt m [] (params.map Arg.type) none).matched = false) ∨
        (m.flags &&& METHOD_ATTRIBUTE_STATIC = 0 ∧ inst = 0) ∨
        (rt.runtime_invoke m inst (params.map Arg.value)).2 ≠ 0)) ∧
    ((RunMethod rt TOut checkTypes inst (some m) params).result.has_exception = false →
      (RunMethod rt TOut checkTypes inst (some m) params).result = .ofResult .monostate) := by
  have hblock := checkTypesBlock_void rt TOut m params hvoid
  unfold RunMethod
  cases checkTypes with
  | false =>
    by_cases hi : m.flags &&& METHOD_ATTRIBUTE_STATIC = 0 ∧ inst = 0
    · simp [hi, Result.has_exception, Result.success]
    · by_cases he : (rt.runtime_invoke m inst (params.map Arg.value)).2 = 0
      · simp [hi, he, hvoid, Result.has_exception, Result.success]
      · simp [hi, he, Result.has_exception, Result.success]
  | true =>
    simp only [if_true]
    cases hc : (checkTypesBlock rt TOut m params).1 with
    | some e =>
      have h1 := hblock.1 (by rw [hc]; simp)
      simp [Result.has_exception, Result.success, h1]
    | none =>
      have h1 : ¬ (0 < params.length ∧
          (ParameterMatch rt m [] (params.map Arg.type) none).matched = false) := by
        intro h
        exact (hblock.2 h) hc
      by_cases hi : m.flags &&& METHOD_ATTRIBUTE_STATIC = 0 ∧ inst = 0
      · simp [hi, Result.has_exception, Result.success]
      · by_cases he : (rt.runtime_invoke m inst (params.map Arg.value)).2 = 0
        · simp only [hi, he, hvoid, if_false, if_true, ne_eq, not_true_eq_false,
            Result.has_exception, Result.success, Bool.not_true, Bool.false_eq_true,
            false_iff, not_or, not_false_eq_true, and_true, implies_true, true_and]
          exact h1
        · simp [hi, he, Result.has_exception, Result.success]

/-- C18 as amended, worked example: requested as `void`, the instance method
of the example runtime gives an error Result for a null instance. -/
theorem RunMethod_void_witness :
    (RunMethod exRuntime voidOut true 0 (some (exMethodOf [] false)) []).result.has_exception
      = true :=
  (RunMethod_void exRuntime voidOut true 0 (exMethodOf [] false) [] rfl).1.2
    (Or.inr (Or.inl ⟨by decide, rfl⟩))

/-- C18 as stated fails: requested as `void` on the instance `0x5000`, the
method of the example runtime whose return type `300` is not `void` is invoked
and the Result is the success of `void`, with or without `checkTypes` and with
or without arguments. -/
theorem RunMethod_void_counterexample :
    (exMethodOf [] false).return_type ≠ exVoidType ∧
    (RunMethod exRuntime voidOut true 0x5000 (some (exMethodOf [] false)) []).result
      = .ofResult .monostate ∧
    (RunMethod exRuntime voidOut false 0x5000 (some (exMethodOf [] false)) []).result
      = .ofResult .monostate ∧
    (RunMethod exRuntime voidOut true 0x5000 (some (exMethodOf [100] false))
      [⟨101, 0x5100⟩]).result = .ofResult .monostate := by
  decide

/-- C19. `RunMethod` returns an error Result and makes no call of
`runtime_invoke` when the method descriptor is null, and when the descriptor
is an instance method (not static) and the extracted instance is null. -/
theorem RunMethod_null_checks (rt : Runtime) (TOut : OutType) (checkTypes : Bool) (inst : Nat)
    (params : List Arg) :
    ((RunMethod rt TOut checkTypes inst none params).result.has_exception = true ∧
      (RunMethod rt TOut checkTypes inst none params).invoked = []) ∧
    (∀ m : MethodInfo, m.flags &&& METHOD_ATTRIBUTE_STATIC = 0 → inst = 0 →
      (RunMethod rt TOut checkTypes inst (some m) params).result.has_exception = true ∧
      (RunMethod rt TOut checkTypes inst (some m) params).invoked = []) := by
  constructor
  · simp [RunMethod, Result.has_exception, Result.success]
  · intro m hs hi
    unfold RunMethod
    simp only []
    cases hc : (if checkTypes = true then checkTypesBlock rt TOut m params else (none, [])).1
      with
    | some e => simp [Result.has_exception, Result.success]
    | none => simp [hs, hi, Result.has_exception, Result.success]

/-- C19, worked example: a null descriptor, and the instance method of the
example runtime on a null instance, give an error Result without a call of
`runtime_invoke`. -/
theorem RunMethod_null_checks_witness :
    ((RunMethod exRuntime objectOut true 0x5000 none []).result.has_exception = true ∧
      (RunMethod exRuntime objectOut true 0x5000 none []).invoked = []) ∧
    ((RunMethod exRuntime objectOut true 0 (some (exMethodOf [] false)) []).result.has_exception
        = true ∧
      (RunMethod exRuntime objectOut true 0 (some (exMethodOf [] false)) []).invoked = []) :=
  ⟨(RunMethod_null_checks exRuntime objectOut true 0x5000 []).1,
    (RunMethod_null_checks exRuntime objectOut true 0 []).2 (exMethodOf [] false)
      (by decide) rfl⟩

theorem resolveParam_warning (rt : Runtime) (method : MethodInfo) (genTypes : List Nat)
    (i : Nat) (w : String) (h : resolveParam rt method genTypes i = .error w) :
    w ∈ typeCheckWarnings := by
  unfold resolveParam at h
  simp only [] at h
  split at h
  · split at h
    · cases h
      simp [typeCheckWarnings]
    · split at h
      · cases h
        simp [typeCheckWarnings]
      · split at h
        · cases h
          simp [typeCheckWarnings]
        · cases h
  · cases h

theorem matchLoop_warnings (rt : Runtime) (method : MethodInfo) (genTypes argTypes : List Nat) :
    ∀ (k i : Nat) (isId : Bool) (log : List String),
      (∀ w ∈ log, w ∈ typeCheckWarnings) →
      ∀ w ∈ (matchLoop rt method genTypes argTypes k i isId log).2.2,
        w ∈ typeCheckWarnings := by
  intro k
  induction k with
  | zero =>
    intro i isId log hlog
    simpa [matchLoop] using hlog
  | succ k ih =>
    intro i isId log hlog
    cases hres : resolveParam rt method genTypes i with
    | error w0 =>
      simp only [matchLoop, hres]
      apply ih
      intro w hw
      rcases List.mem_append.1 hw with h | h
      · exact hlog w h
      · rw [List.mem_singleton] at h
        rw [h]
        exact resolveParam_warning rt method genTypes i w0 hres
    | ok p =>
      simp only [matchLoop, hres]
      split
      · exact hlog
      · exact ih _ _ _ hlog

theorem ParameterMatch_warnings (rt : Runtime) (method : MethodInfo)
    (genTypes argTypes : List Nat) (slot : Option Bool) :
    ∀ w ∈ (ParameterMatch rt method genTypes argTypes slot).warnings,
      w ∈ typeCheckWarnings := by
  unfold ParameterMatch
  split
  · simp [typeCheckWarnings]
  · split
    · intro w hw
      simp only [List.mem_cons, List.mem_singleton, List.not_mem_nil, or_false] at hw
      rcases hw with h | h <;> simp [h, typeCheckWarnings]
    · exact matchLoop_warnings rt method genTypes argTypes _ 0 true []
        (fun w hw => by cases hw)

theorem mem_block_log {α : Type} (P : String → Prop) (L : List String) (c1 c2 : Prop)
    [Decidable c1] [Decidable c2] (e1 e2 e3 : α) (x : String)
    (hL : ∀ w ∈ L, P w) (hx : P x) :
    ∀ w ∈ (if c1 then (e1, L) else if c2 then (e2, L ++ [x]) else (e3, L)).2, P w := by
  by_cases h1 : c1
  · simpa [h1] using hL
  · by_cases h2 : c2
    · simp only [h1, h2, if_false, if_true]
      intro w hw
      rcases List.mem_append.1 hw with h | h
      · exact hL w h
      · rw [List.mem_singleton] at h
        rw [h]
        exact hx
    · simpa [h1, h2] using hL

theorem checkTypesBlock_warnings (rt : Runtime) (TOut : OutType) (m : MethodInfo)
    (params : List Arg) :
    ∀ w ∈ (checkTypesBlock rt TOut m params).2, w ∈ typeCheckWarnings := by
  have hlog : ∀ w ∈ ((if m.parameters_count ≠ params.length then
        ["MethodInfo parameter count %i does not match actual parameter count %lu"]
      else []) ++
      ((if 0 < params.length then
          some (ParameterMatch rt m [] (params.map Arg.type) none)
        else none).map (fun o => o.warnings)).getD []), w ∈ typeCheckWarnings := by
    intro w hw
    rcases List.mem_append.1 hw with h | h
    · by_cases hc : m.parameters_count ≠ params.length
      · rw [if_pos hc, List.mem_singleton] at h
        simp [h, typeCheckWarnings]
      · rw [if_neg hc] at h
        cases h
    · by_cases hp : 0 < params.length
      · rw [if_pos hp] at h
        exact ParameterMatch_warnings rt m [] _ none w (by simpa using h)
      · rw [if_neg hp] at h
        simp at h
  unfold checkTypesBlock
  exact mem_block_log _ _ _ _ _ _ _ _ hlog (by simp [typeCheckWarnings])

/-- C20, as amended. `RunMethod` on a static method descriptor is not rejected
for its instance handle, null or not: when the type checks pass (or
`checkTypes` is off) it calls `runtime_invoke` once, handing the instance on,
and absent a managed exception the Result is a success. Every warning it logs
is one of the type-check warnings; none is about the instance. -/
theorem RunMethod_static_instance (rt : Runtime) (TOut : OutType) (checkTypes : Bool)
    (inst : Nat) (m : MethodInfo) (params : List Arg)
    (hstatic : m.flags &&& METHOD_ATTRIBUTE_STATIC ≠ 0) :
    ((checkTypes = false ∨ (checkTypesBlock rt TOut m params).1 = none) →
      (RunMethod rt TOut checkTypes inst (some m) params).invoked
        = [(m, inst, params.map Arg.value)] ∧
      ((rt.runtime_invoke m inst (params.map Arg.value)).2 = 0 →
        (RunMethod rt TOut checkTypes inst (some m) params).result.has_result = true)) ∧
    (∀ w ∈ (RunMethod rt TOut checkTypes inst (some m) params).warnings,
      w ∈ typeCheckWarnings) := by
  have hni : ¬ (m.flags &&& METHOD_ATTRIBUTE_STATIC = 0 ∧ inst = 0) := fun h => hstatic h.1
  have hchk : ∀ w ∈ (if checkTypes = true then checkTypesBlock rt TOut m params
      else (none, [])).2, w ∈ typeCheckWarnings := by
    cases checkTypes with
    | false => intro w hw; cases hw
    | true => exact checkTypesBlock_warnings rt TOut m params
  constructor
  · intro hpass
    have hnone : (if checkTypes = true then checkTypesBlock rt TOut m params
        else (none, [])).1 = none := by
      rcases hpass with h | h
      · simp [h]
      · cases checkTypes <;> simp [h]
    unfold RunMethod
    simp only [hnone, hni, if_false]
    by_cases he : (rt.runtime_invoke m inst (params.map Arg.value)).2 = 0
    · by_cases hv : TOut.isVoid = true
      · simp [he, hv, Result.has_result, Result.success]
      · simp [he, hv, Result.has_result, Result.success]
    · simp [he]
  · unfold RunMethod
    simp only []
    cases hc : (if checkTypes = true then checkTypesBlock rt TOut m params
      else (none, [])).1 with
    | some e => exact hchk
    | none =>
      simp only [hni, if_false]
      by_cases he : (rt.runtime_invoke m inst (params.map Arg.value)).2 = 0
      · by_cases hv : TOut.isVoid = true
        · simpa [he, hv] using hchk
        · simp only [he, hv, ne_eq, not_true_eq_false, if_false, Bool.false_eq_true]
          split
          · intro w hw
            rcases List.mem_append.1 hw with h | h
            · exact hchk w h
            · rw [List.mem_singleton] at h
              simp [h, typeCheckWarnings]
          · exact hchk
      · simpa [he] using hchk

/-- C20 as amended, worked example: the static method of the example runtime
called on the instance `0x5000` is invoked once with that instance and gives a
success Result. -/
theorem RunMethod_static_instance_witness :
    (RunMethod exRuntime objectOut true 0x5000 (some (exStaticMethodOf [])) []).invoked
      = [(exStaticMethodOf [], 0x5000, [])] ∧
    (RunMethod exRuntime objectOut true 0x5000 (some (exStaticMethodOf [])) []).result.has_result
      = true := by
  obtain ⟨h1, h2⟩ := (RunMethod_static_instance exRuntime objectOut true 0x5000
    (exStaticMethodOf []) [] (by decide)).1 (Or.inr (by decide))
  exact ⟨h1, h2 (by decide)⟩

/-- C20 as stated fails on the diagnostic: the static method of the example
runtime called on the non-null instance `0x5000` gives the success Result
holding the returned object, and no warning at all is logged. -/
theorem RunMethod_static_instance_counterexample :
    (exStaticMethodOf []).flags &&& METHOD_ATTRIBUTE_STATIC ≠ 0 ∧
    (RunMethod exRuntime objectOut true 0x5000 (some (exStaticMethodOf [])) []).result
      = .ofResult (.value 0x6000) ∧
    (RunMethod exRuntime objectOut true 0x5000 (some (exStaticMethodOf [])) []).warnings
      = [] := by
  decide

end il2cpp_utils

namespace cs

theorem findNthArgsLoop_eq_whileLoop {R : Type} (h : Capstone) (mtch : cs_insn → Option R)
    (skip : cs_insn → Bool) :
    ∀ (fuel a sz n : Nat) (r : Int),
      findNthArgsLoop h mtch skip fuel a a sz n r
        = (whileLoop h mtch skip fuel ⟨a, sz⟩ n r).map LoopExit.value := by
  intro fuel
  induction fuel with
  | zero => intro a sz n r; rfl
  | succ k ih =>
    intro a sz n r
    simp only [findNthArgsLoop, whileLoop]
    by_cases hsz : 0 < sz
    · simp only [hsz, if_true]
      cases hd : h.disasm a sz a with
      | none =>
        simp only [cs_disasm_iter, hd]
        exact ih _ _ _ _
      | some insn =>
        simp only [cs_disasm_iter, hd]
        by_cases hret : insn.id = h.ARM64_INS_RET
        · simp only [hret, if_true]
          by_cases hr : r = 0
          · simp [hr, LoopExit.value]
          · simp only [hr, if_false]
            exact ih _ _ _ _
        · simp only [hret, if_false]
          cases hm : mtch insn with
          | some testRes =>
            simp only []
            by_cases hn : n = 1
            · simp [hn, LoopExit.value]
            · simp only [hn, if_false]
              exact ih _ _ _ _
          | none =>
            simp only []
            by_cases hs : skip insn = true
            · simp only [hs, if_true]
              by_cases hn : n = 1
              · simp [hn, LoopExit.value]
              · simp only [hn, if_false]
                exact ih _ _ _ _
            · simp only [hs, if_false]
              exact ih _ _ _ _
    · simp [hsz, LoopExit.value]

theorem findNthParamsLoop_eq_argsLoop {R : Type} (h : Capstone) (mtch : cs_insn → Option R)
    (skip : cs_insn → Bool) :
    ∀ (fuel ptr instructions sz n : Nat) (r : Int),
      findNthParamsLoop h mtch skip fuel ptr instructions sz n r
        = findNthArgsLoop h mtch skip fuel ptr instructions sz n r := by
  intro fuel
  induction fuel with
  | zero => intro ptr instructions sz n r; rfl
  | succ k ih =>
    intro ptr instructions sz n r
    simp only [findNthParamsLoop, findNthArgsLoop, ih]

theorem findNth_single_value {R : Type} (h : Capstone) (mtch : cs_insn → Option R)
    (skip : cs_insn → Bool) (fuel : Nat) (w : AddrSearchPair) (n : Nat) (r : Int) :
    (findNth h fuel [w] n r mtch skip).map Final.result
      = (whileLoop h mtch skip fuel w n r).map LoopExit.value := by
  simp only [findNth]
  cases whileLoop h mtch skip fuel w n r with
  | none => rfl
  | some e =>
    cases e with
    | returned res w1 n1 r1 => rfl
    | exhausted w1 n1 r1 => rfl

/-- C27. The three copies of the scan loop agree. For every decoder, start
address, size, `N`, return budget and predicates, and every bound on the
number of iterations, the multi-window `findNth` applied to the single window
`(addr, szBytes)`, the `findNth` template taking `match` and `skip` as
arguments, and the `findNth` template taking them as template parameters give
the same result. With a size that is a multiple of 4 and a decoder of 4-byte
instructions, all three return once more than `szBytes / 4` iterations are
allowed. -/
theorem findNth_copies_agree {R : Type} (h : Capstone) (mtch : cs_insn → Option R)
    (skip : cs_insn → Bool) (fuel addr szBytes nToRetOn : Nat) (retCount : Int) :
    (findNth h fuel [⟨addr, szBytes⟩] nToRetOn retCount mtch skip).map Final.result
        = findNthArgs h fuel nToRetOn retCount szBytes addr mtch skip ∧
    findNthArgs h fuel nToRetOn retCount szBytes addr mtch skip
        = findNthParams h fuel nToRetOn mtch skip retCount szBytes addr ∧
    (FixedWidth h → szBytes % 4 = 0 → szBytes < 2 ^ 64 → szBytes / 4 < fuel →
      (findNthArgs h fuel nToRetOn retCount szBytes addr mtch skip).isSome = true) := by
  have e1 : (findNth h fuel [⟨addr, szBytes⟩] nToRetOn retCount mtch skip).map Final.result
      = findNthArgs h fuel nToRetOn retCount szBytes addr mtch skip := by
    rw [findNth_single_value]
    exact (findNthArgsLoop_eq_whileLoop h mtch skip fuel addr szBytes nToRetOn retCount).symm
  refine ⟨e1, ?_, ?_⟩
  · exact (findNthParamsLoop_eq_argsLoop h mtch skip fuel addr addr szBytes nToRetOn
      retCount).symm
  · intro hfw h4 hlt hfuel
    obtain ⟨f, hf, _⟩ := findNth_eq_scan h hfw mtch skip fuel [⟨addr, szBytes⟩] nToRetOn
      retCount (by
        intro w hw
        rw [List.mem_singleton] at hw
        subst hw
        exact ⟨h4, hlt⟩) (by
        intro w hw
        rw [List.mem_singleton] at hw
        subst hw
        exact hfuel)
    rw [← e1, hf]
    rfl

/-- C27, worked example: on three branches followed by a return, searching
for the second branch, the three forms all return its target `0x2004`. -/
theorem findNth_copies_agree_witness :
    (findNth (exHandle exThreeBranches) 5 [⟨0x1000, 16⟩] 2 (-1) exBlConv
        (insnMatch [])).map Final.result = some (some 0x2004) ∧
    findNthArgs (exHandle exThreeBranches) 5 2 (-1) 16 0x1000 exBlConv (insnMatch [])
      = some (some 0x2004) ∧
    findNthParams (exHandle exThreeBranches) 5 2 exBlConv (insnMatch []) (-1) 16 0x1000
      = some (some 0x2004) ∧
    (findNthArgs (exHandle exThreeBranches) 5 4 (-1) 16 0x1000 exBlConv
      (insnMatch [])).isSome = true := by
  have h := findNth_copies_agree (exHandle exThreeBranches) exBlConv (insnMatch []) 5 0x1000 16 2
    (-1)
  have h4 := findNth_copies_agree (exHandle exThreeBranches) exBlConv (insnMatch []) 5 0x1000 16 4
    (-1)
  have e : findNthArgs (exHandle exThreeBranches) 5 2 (-1) 16 0x1000 exBlConv (insnMatch [])
      = some (some 0x2004) := by decide
  refine ⟨?_, e, ?_, h4.2.2 (exHandle_fixedWidth _) (by decide) (by decide) (by decide)⟩
  · rw [h.1]
    exact e
  · rw [← h.2.1]
    exact e

theorem u64_of_range (x : Int) (h0 : 0 ≤ x) (h1 : x < 2 ^ 64) : (u64 x : Int) = x := by
  unfold u64
  rw [Int.toNat_of_nonneg (Int.emod_nonneg _ (by norm_num)), Int.emod_eq_of_lt h0 h1]

theorem find_through_hooks_valid {α : Type} (t : HookTracker) (data : HookInfo → Nat)
    (hook initialSearchSize : Nat) (P : Option (Option α) → Prop)
    (func : List AddrSearchPair → Option (Option α))
    (hP : ∀ ws, ValidWindows ws → (∀ w ∈ ws, w.remSearchSize ≤ max 24 initialSearchSize) →
      P (func ws))
    (h4 : initialSearchSize % 4 = 0) (hlt : initialSearchSize < 2 ^ 64) :
    P (find_through_hooks t data hook initialSearchSize func) := by
  unfold find_through_hooks
  simp only []
  split
  · rename_i front rest _
    apply hP
    · intro w hw
      simp only [List.mem_cons, List.mem_singleton, List.not_mem_nil, or_false] at hw
      rcases hw with rfl | rfl
      · simp only [front.original_data.property]
        decide
      · exact ⟨h4, hlt⟩
    · intro w hw
      simp only [List.mem_cons, List.mem_singleton, List.not_mem_nil, or_false] at hw
      rcases hw with rfl | rfl
      · simp only [front.original_data.property]
        omega
      · simp only []
        omega
  · apply hP
    · intro w hw
      rw [List.mem_singleton] at hw
      subst hw
      exact ⟨h4, hlt⟩
    · intro w hw
      rw [List.mem_singleton] at hw
      subst hw
      simp only []
      omega

theorem findNthPcRel_returns (h : Capstone) (hfw : FixedWidth h) (fuel : Nat) (t : HookTracker)
    (data : HookInfo → Nat) (pcRelConv : cs_insn → Option (Nat × Nat × Nat)) (n : Nat)
    (r : Int) (szBytes addr : Nat) (h4 : szBytes % 4 = 0) (h6 : 6 < fuel)
    (hfuel : (szBytes % 2 ^ 32) / 4 < fuel) :
    (findNthPcRel h fuel t data pcRelConv n r szBytes addr).isSome = true := by
  unfold findNthPcRel
  apply find_through_hooks_valid t data addr (szBytes % 2 ^ 32)
    (fun x => x.isSome = true)
  · intro ws hv hsz
    obtain ⟨f, hf, _⟩ := findNth_eq_scan h hfw pcRelConv (insnMatch []) fuel ws n r hv (by
      intro w hw
      have := hsz w hw
      omega)
    rw [hf]
    rfl
  · omega
  · omega

theorem findNthReg_returns (h : Capstone) (hfw : FixedWidth h) (fuel : Nat) (t : HookTracker)
    (data : HookInfo → Nat) (regMatchConv : cs_insn → Nat → Option (Nat × Nat × Int)) (n : Nat)
    (r : Int) (szBytes addr reg : Nat) (h4 : szBytes % 4 = 0) (h6 : 6 < fuel)
    (hfuel : (szBytes % 2 ^ 32) / 4 < fuel) :
    (findNthReg h fuel t data regMatchConv n r szBytes addr reg).isSome = true := by
  unfold findNthReg
  apply find_through_hooks_valid t data addr (szBytes % 2 ^ 32)
    (fun x => x.isSome = true)
  · intro ws hv hsz
    obtain ⟨f, hf, _⟩ := findNth_eq_scan h hfw (fun insn => regMatchConv insn reg)
      (insnMatch []) fuel ws n r hv (by
        intro w hw
        have := hsz w hw
        omega)
    rw [hf]
    rfl
  · omega
  · omega

theorem getpcaddr_returns (h : Capstone) (hfw : FixedWidth h) (fuel : Nat) (t : HookTracker)
    (data : HookInfo → Nat) (pcRelConv : cs_insn → Option (Nat × Nat × Nat))
    (regMatchConv : cs_insn → Nat → Option (Nat × Nat × Int))
    (nToRetOn nImmOff szBytes addr : Nat) (h4 : szBytes % 4 = 0) (h6 : 6 < fuel)
    (hfuel : (szBytes % 2 ^ 32) / 4 < fuel) :
    (getpcaddr h fuel t data pcRelConv regMatchConv nToRetOn nImmOff szBytes addr).isSome
      = true := by
  unfold getpcaddr
  have h1 := findNthPcRel_returns h hfw fuel t data pcRelConv nToRetOn (-1) szBytes addr h4 h6
    hfuel
  cases hp : findNthPcRel h fuel t data pcRelConv nToRetOn (-1) szBytes addr with
  | none => rw [hp] at h1; cases h1
  | some x =>
    cases x with
    | none => rfl
    | some pcrel =>
      simp only []
      have h2 := findNthReg_returns h hfw fuel t data regMatchConv nImmOff (-1) szBytes
        pcrel.1 pcrel.2.1 h4 h6 hfuel
      cases hr : findNthReg h fuel t data regMatchConv nImmOff (-1) szBytes pcrel.1 pcrel.2.1
        with
      | none => rw [hr] at h2; cases h2
      | some y => cases y <;> rfl

/-- C26. `evalswitch<N, M, match>` returns empty exactly when
`getpcaddr<N, M>` does, which in turn is when the `N`-th PC-relative
instruction is not found or the `M`-th use of its destination register is not
found. Otherwise, `getpcaddr` gives as address `T` the PC-relative destination
plus the immediate offset of the register instruction (in `uint64_t`), and
`evalswitch` returns `T` plus the signed 32-bit entry read at index
`match - 1` of the `int32_t` table at `T` (in `uint64_t`; exactly that sum when
it is an address). With a size that is a multiple of 4 and a decoder of
4-byte instructions both return once the iteration bound is above 6 and above
a quarter of the size. -/
theorem evalswitch_table_entry (h : Capstone) (fuel : Nat) (t : HookTracker)
    (data : HookInfo → Nat) (pcRelConv : cs_insn → Option (Nat × Nat × Nat))
    (regMatchConv : cs_insn → Nat → Option (Nat × Nat × Int)) (mem : Memory)
    (nToRetOn nImmOff : Nat) (switchCase : Int) (szBytes addr : Nat) :
    ((evalswitch h fuel t data pcRelConv regMatchConv mem nToRetOn nImmOff switchCase szBytes
          addr = some none ↔
        getpcaddr h fuel t data pcRelConv regMatchConv nToRetOn nImmOff szBytes addr
          = some none) ∧
      (evalswitch h fuel t data pcRelConv regMatchConv mem nToRetOn nImmOff switchCase szBytes
          addr = none ↔
        getpcaddr h fuel t data pcRelConv regMatchConv nToRetOn nImmOff szBytes addr = none)) ∧
    (getpcaddr h fuel t data pcRelConv regMatchConv nToRetOn nImmOff szBytes addr = some none ↔
      (findNthPcRel h fuel t data pcRelConv nToRetOn (-1) szBytes addr = some none ∨
        ∃ pcrel, findNthPcRel h fuel t data pcRelConv nToRetOn (-1) szBytes addr
            = some (some pcrel) ∧
          findNthReg h fuel t data regMatchConv nImmOff (-1) szBytes pcrel.1 pcrel.2.1
            = some none)) ∧
    (∀ a r T, getpcaddr h fuel t data pcRelConv regMatchConv nToRetOn nImmOff szBytes addr
        = some (some (a, r, T)) →
      (∃ pcrel reginst, findNthPcRel h fuel t data pcRelConv nToRetOn (-1) szBytes addr
            = some (some pcrel) ∧
          findNthReg h fuel t data regMatchConv nImmOff (-1) szBytes pcrel.1 pcrel.2.1
            = some (some reginst) ∧
          T = u64 ((pcrel.2.2 : Int) + reginst.2.2)) ∧
      evalswitch h fuel t data pcRelConv regMatchConv mem nToRetOn nImmOff switchCase szBytes
          addr
        = some (some (u64 ((T : Int) + int32 (mem (u64 ((T : Int) + 4 * (switchCase - 1))))))) ∧
      (0 ≤ (T : Int) + int32 (mem (u64 ((T : Int) + 4 * (switchCase - 1)))) →
        (T : Int) + int32 (mem (u64 ((T : Int) + 4 * (switchCase - 1)))) < 2 ^ 64 →
        ∃ res : Nat, evalswitch h fuel t data pcRelConv regMatchConv mem nToRetOn nImmOff
            switchCase szBytes addr = some (some res) ∧
          (res : Int) = (T : Int) + int32 (mem (u64 ((T : Int) + 4 * (switchCase - 1)))))) ∧
    (FixedWidth h → szBytes % 4 = 0 → 6 < fuel → (szBytes % 2 ^ 32) / 4 < fuel →
      (evalswitch h fuel t data pcRelConv regMatchConv mem nToRetOn nImmOff switchCase szBytes
        addr).isSome = true) := by
  refine ⟨⟨?_, ?_⟩, ?_, ?_, ?_⟩
  · unfold evalswitch
    cases getpcaddr h fuel t data pcRelConv regMatchConv nToRetOn nImmOff szBytes addr with
    | none => simp
    | some x => cases x <;> simp
  · unfold evalswitch
    cases getpcaddr h fuel t data pcRelConv regMatchConv nToRetOn nImmOff szBytes addr with
    | none => simp
    | some x => cases x <;> simp
  · unfold getpcaddr
    cases findNthPcRel h fuel t data pcRelConv nToRetOn (-1) szBytes addr with
    | none => simp
    | some x =>
      cases x with
      | none => simp
      | some pcrel =>
        simp only []
        cases hr : findNthReg h fuel t data regMatchConv nImmOff (-1) szBytes pcrel.1
            pcrel.2.1 with
        | none => simp [hr]
        | some y => cases y <;> simp [hr]
  · intro a r T hg
    refine ⟨?_, ?_, ?_⟩
    · unfold getpcaddr at hg
      cases hp : findNthPcRel h fuel t data pcRelConv nToRetOn (-1) szBytes addr with
      | none => rw [hp] at hg; cases hg
      | some x =>
        cases x with
        | none => rw [hp] at hg; cases hg
        | some pcrel =>
          rw [hp] at hg
          simp only [] at hg
          cases hr : findNthReg h fuel t data regMatchConv nImmOff (-1) szBytes pcrel.1
              pcrel.2.1 with
          | none => rw [hr] at hg; cases hg
          | some y =>
            cases y with
            | none => rw [hr] at hg; cases hg
            | some reginst =>
              rw [hr] at hg
              simp only [Option.some.injEq, Prod.mk.injEq] at hg
              exact ⟨pcrel, reginst, rfl, hr, hg.2.2.symm⟩
    · unfold evalswitch
      rw [hg]
    · intro h0 h1
      exact ⟨_, by unfold evalswitch; rw [hg], u64_of_range _ h0 h1⟩
  · intro hfw h4 h6 hfuel
    have hg := getpcaddr_returns h hfw fuel t data pcRelConv regMatchConv nToRetOn nImmOff
      szBytes addr h4 h6 hfuel
    unfold evalswitch
    cases hp : getpcaddr h fuel t data pcRelConv regMatchConv nToRetOn nImmOff szBytes addr with
    | none => rw [hp] at hg; cases hg
    | some x => cases x <;> rfl

/-- C26, worked example: the PC-relative address to `0x20000` plus the add of
`0x10` locate the table at `0x20010`; with `match = 2` the entry `-0x10` is
read at `0x20014` and `evalswitch` returns `0x20000`. -/
theorem evalswitch_table_entry_witness :
    getpcaddr (exHandle exSwitch) 1025 HookTracker.empty (fun _ => 0) exPcRelConv
        exRegMatchConv 1 1 4096 0x1000 = some (some (0x1004, 8, 0x20010)) ∧
    int32 (exTableMem 0x20014) = -0x10 ∧
    evalswitch (exHandle exSwitch) 1025 HookTracker.empty (fun _ => 0) exPcRelConv
        exRegMatchConv exTableMem 1 1 2 4096 0x1000 = some (some 0x20000) ∧
    (evalswitch (exHandle exSwitch) 1025 HookTracker.empty (fun _ => 0) exPcRelConv
        exRegMatchConv exTableMem 2 1 2 4096 0x1000).isSome = true := by
  have hg : getpcaddr (exHandle exSwitch) 1025 HookTracker.empty (fun _ => 0) exPcRelConv
      exRegMatchConv 1 1 4096 0x1000 = some (some (0x1004, 8, 0x20010)) := by decide
  have h := evalswitch_table_entry (exHandle exSwitch) 1025 HookTracker.empty (fun _ => 0)
    exPcRelConv exRegMatchConv exTableMem 1 1 2 4096 0x1000
  have h2 := evalswitch_table_entry (exHandle exSwitch) 1025 HookTracker.empty (fun _ => 0)
    exPcRelConv exRegMatchConv exTableMem 2 1 2 4096 0x1000
  refine ⟨hg, by decide, ?_, h2.2.2.2 (exHandle_fixedWidth _) (by decide) (by decide)
    (by decide)⟩
  have := (h.2.2.1 0x1004 8 0x20010 hg).2.1
  rw [this]
  decide

end cs

namespace il2cpp_utils

theorem RunMethod_invoked_cases (rt : Runtime) (TOut : OutType) (checkTypes : Bool) (inst : Nat)
    (m : MethodInfo) (params : List Arg) :
    (RunMethod rt TOut checkTypes inst (some m) params).invoked = [] ∨
    ((RunMethod rt TOut checkTypes inst (some m) params).invoked
        = [(m, inst, params.map Arg.value)] ∧
      (checkTypes = true → (checkTypesBlock rt TOut m params).1 = none) ∧
      ((rt.runtime_invoke m inst (params.map Arg.value)).2 ≠ 0 →
        (RunMethod rt TOut checkTypes inst (some m) params).result
          = .ofException (.ofException rt (rt.runtime_invoke m inst (params.map Arg.value)).2
              (some m)))) := by
  unfold RunMethod
  simp only []
  cases hc : (if checkTypes = true then checkTypesBlock rt TOut m params else (none, [])).1 with
  | some e => exact Or.inl rfl
  | none =>
    by_cases hi : m.flags &&& METHOD_ATTRIBUTE_STATIC = 0 ∧ inst = 0
    · simp [hi]
    · right
      have hck : checkTypes = true → (checkTypesBlock rt TOut m params).1 = none := by
        intro h
        simpa [h] using hc
      by_cases he : (rt.runtime_invoke m inst (params.map Arg.value)).2 = 0
      · by_cases hv : TOut.isVoid = true
        · simp only [hi, he, hv, if_false, if_true, ne_eq, not_true_eq_false, false_implies,
            true_and, and_true]
          exact hck
        · simp only [hi, he, hv, if_false, ne_eq, not_true_eq_false, false_implies,
            true_and, and_true, Bool.false_eq_true]
          exact hck
      · simp only [hi, he, if_false, if_true, ne_eq, not_false_eq_true, true_implies,
          true_and, and_true]
        exact hck

/-- C21. When the managed call made by `RunMethod` reports an exception `e`
(`runtime_invoke` stores a non-null `e` through its exception out-parameter),
the call was made on the given method, and `RunMethod` returns the error Result
holding the `RunMethodException` built from `e` and the method: `ex = e`,
`info = method`; the Result has an exception and no success value. This holds
for every `TOut` and both settings of `checkTypes`. -/
theorem RunMethod_managed_exception (rt : Runtime) (TOut : OutType) (checkTypes : Bool)
    (inst : Nat) (m : MethodInfo) (params : List Arg) (call : MethodInfo × Nat × List Nat)
    (e : Nat) (hcall : call ∈ (RunMethod rt TOut checkTypes inst (some m) params).invoked)
    (he : (rt.runtime_invoke call.1 call.2.1 call.2.2).2 = e) (hne : e ≠ 0) :
    call.1 = m ∧
    (∃ exc : RunMethodException,
      (RunMethod rt TOut checkTypes inst (some m) params).result = .ofException exc ∧
      exc.ex = e ∧ exc.info = some m) ∧
    (RunMethod rt TOut checkTypes inst (some m) params).result.has_exception = true ∧
    (RunMethod rt TOut checkTypes inst (some m) params).result.has_result = false := by
  rcases RunMethod_invoked_cases rt TOut checkTypes inst m params with h | ⟨h1, _, h3⟩
  · rw [h] at hcall
    cases hcall
  · rw [h1, List.mem_singleton] at hcall
    subst hcall
    simp only [] at he
    have hres := h3 (by rw [he]; exact hne)
    rw [hres]
    refine ⟨rfl, ⟨_, rfl, ?_, rfl⟩, rfl, rfl⟩
    simp [RunMethodException.ofException, he]

/-- C21, worked example: the managed call on the instance `0xBAD` of the
example runtime reports the exception `0xE000`; the Result holds it together
with the method. -/
theorem RunMethod_managed_exception_witness :
    (exMethodOf [] false, 0xBAD, []) ∈
      (RunMethod exRuntime objectOut true 0xBAD (some (exMethodOf [] false)) []).invoked ∧
    (RunMethod exRuntime objectOut true 0xBAD (some (exMethodOf [] false)) []).result
      = .ofException ⟨"managed exception", 0xE000, some (exMethodOf [] false)⟩ ∧
    (RunMethod exRuntime voidOut false 0xBAD (some (exMethodOf [] false)) []).result.has_result
      = false := by
  have h1 := RunMethod_managed_exception exRuntime objectOut true 0xBAD (exMethodOf [] false) []
    (exMethodOf [] false, 0xBAD, []) 0xE000 (by decide) rfl (by decide)
  have h2 := RunMethod_managed_exception exRuntime voidOut false 0xBAD (exMethodOf [] false) []
    (exMethodOf [] false, 0xBAD, []) 0xE000 (by decide) rfl (by decide)
  refine ⟨by decide, ?_, h2.2.2.2⟩
  obtain ⟨exc, hres, hex, hinfo⟩ := h1.2.1
  decide

theorem checkTypesBlock_count_mismatch (rt : Runtime) (TOut : OutType) (m : MethodInfo)
    (params : List Arg) (hne : params ≠ []) (hlen : params.length ≠ m.parameters_count) :
    ∃ e, (checkTypesBlock rt TOut m params).1 = some e := by
  have hpos : 0 < params.length := List.length_pos.2 hne
  have hm : (ParameterMatch rt m [] (params.map Arg.type) none).matched = false := by
    unfold ParameterMatch
    rw [if_pos (by simpa using fun h => hlen h.symm)]
  unfold checkTypesBlock
  simp [hpos, hm]

theorem block_log_mem {α : Type} (L : List String) (c1 c2 : Prop)
    [Decidable c1] [Decidable c2] (e1 e2 e3 : α) (x w : String) (hw : w ∈ L) :
    w ∈ (if c1 then (e1, L) else if c2 then (e2, L ++ [x]) else (e3, L)).2 := by
  by_cases h1 : c1
  · simpa [h1] using hw
  · by_cases h2 : c2
    · simp only [h1, h2, if_false, if_true]
      exact List.mem_append.2 (Or.inl hw)
    · simpa [h1, h2] using hw

theorem checkTypesBlock_count_warning (rt : Runtime) (TOut : OutType) (m : MethodInfo)
    (params : List Arg) (hlen : params.length ≠ m.parameters_count) :
    "MethodInfo parameter count %i does not match actual parameter count %lu"
      ∈ (checkTypesBlock rt TOut m params).2 := by
  have hc : m.parameters_count ≠ params.length := fun h => hlen h.symm
  unfold checkTypesBlock
  exact block_log_mem _ _ _ _ _ _ _ _ (List.mem_append.2 (Or.inl (by simp [hc])))

theorem RunMethod_warnings_of_block (rt : Runtime) (TOut : OutType) (inst : Nat)
    (m : MethodInfo) (params : List Arg) (w : String)
    (hw : w ∈ (checkTypesBlock rt TOut m params).2) :
    w ∈ (RunMethod rt TOut true inst (some m) params).warnings := by
  unfold RunMethod
  simp only [if_true]
  cases hc : (checkTypesBlock rt TOut m params).1 with
  | some e => exact hw
  | none =>
    simp only []
    split
    · exact hw
    · split
      · exact hw
      · split
        · exact hw
        · split
          · exact List.mem_append.2 (Or.inl hw)
          · exact hw

/-- C28, as amended. With `checkTypes = true`, for every non-null method and
every non-empty argument list whose length differs from the method's
`parameters_count`, `RunMethod` returns an error Result and does not call
`runtime_invoke`. A call is therefore reached only with an argument array
whose length equals `parameters_count`, or with the empty argument list: for
that one the count is not checked, a differing `parameters_count` only logs
the warning. -/
theorem RunMethod_argument_count (rt : Runtime) (TOut : OutType) (inst : Nat)
    (m : MethodInfo) (params : List Arg) :
    (params ≠ [] → params.length ≠ m.parameters_count →
      (RunMethod rt TOut true inst (some m) params).result.has_exception = true ∧
      (RunMethod rt TOut true inst (some m) params).invoked = []) ∧
    (∀ call ∈ (RunMethod rt TOut true inst (some m) params).invoked,
      call.2.2.length = params.length ∧
      (params.length = m.parameters_count ∨ params = [])) ∧
    (params.length ≠ m.parameters_count →
      "MethodInfo parameter count %i does not match actual parameter count %lu"
        ∈ (RunMethod rt TOut true inst (some m) params).warnings) := by
  have h1 : params ≠ [] → params.length ≠ m.parameters_count →
      (RunMethod rt TOut true inst (some m) params).result.has_exception = true ∧
      (RunMethod rt TOut true inst (some m) params).invoked = [] := by
    intro hne hlen
    obtain ⟨e, he⟩ := checkTypesBlock_count_mismatch rt TOut m params hne hlen
    unfold RunMethod
    simp [he, Result.has_exception, Result.success]
  refine ⟨h1, ?_, ?_⟩
  · intro call hcall
    by_cases hne : params = []
    · subst hne
      rcases RunMethod_invoked_cases rt TOut true inst m [] with h | ⟨h, _, _⟩
      · rw [h] at hcall
        cases hcall
      · rw [h, List.mem_singleton] at hcall
        subst hcall
        exact ⟨rfl, Or.inr rfl⟩
    · by_cases hlen : params.length = m.parameters_count
      · rcases RunMethod_invoked_cases rt TOut true inst m params with h | ⟨h, _, _⟩
        · rw [h] at hcall
          cases hcall
        · rw [h, List.mem_singleton] at hcall
          subst hcall
          exact ⟨by simp, Or.inl hlen⟩
      · rw [(h1 hne hlen).2] at hcall
        cases hcall
  · intro hlen
    exact RunMethod_warnings_of_block rt TOut inst m params _
      (checkTypesBlock_count_warning rt TOut m params hlen)

/-- C28 as amended, worked example: two arguments for the one-parameter method
of the example runtime give an error Result and no call. -/
theorem RunMethod_argument_count_witness :
    (RunMethod exRuntime objectOut true 0x5000 (some (exMethodOf [100] false))
        [⟨100, 0x5100⟩, ⟨100, 0x5200⟩]).result.has_exception = true ∧
    (RunMethod exRuntime objectOut true 0x5000 (some (exMethodOf [100] false))
        [⟨100, 0x5100⟩, ⟨100, 0x5200⟩]).invoked = [] :=
  (RunMethod_argument_count exRuntime objectOut 0x5000 (exMethodOf [100] false)
    [⟨100, 0x5100⟩, ⟨100, 0x5200⟩]).1 (by decide) (by decide)

/-- C28 as stated fails for the empty argument list: with `checkTypes = true`
and no argument, the one-parameter method of the example runtime (a non-null
descriptor whose `parameters_count` is `1`) is invoked with an empty argument
array and the Result is a success. -/
theorem RunMethod_argument_count_counterexample :
    (exMethodOf [100] false).parameters_count = 1 ∧
    (RunMethod exRuntime objectOut true 0x5000 (some (exMethodOf [100] false)) []).invoked
      = [(exMethodOf [100] false, 0x5000, [])] ∧
    (RunMethod exRuntime objectOut true 0x5000 (some (exMethodOf [100] false)) []).result
      = .ofResult (.value 0x6000) := by
  decide

/-- C22. Every `Result` holds exactly one payload. `has_result()` is the
negation of `has_exception()`. A Result built from a success value `v` has
`has_result()`, `get_result()` returns `v` and `get_exception()` throws
`ResultException`. A Result built from an error `e` has `has_exception()`,
`get_exception()` returns `e` and `get_result()` throws `ResultException`.
`into_optional_result` is non-empty exactly when the Result has a result (and
then holds it), `into_optional_exception` exactly when it has an exception. -/
theorem Result_one_payload {T E : Type} :
    (∀ r : Result T E, r.has_result = !r.has_exception) ∧
    (∀ v : T, (Result.ofResult v : Result T E).has_result = true ∧
      (Result.ofResult v : Result T E).get_result = .ok v ∧
      (∃ x : ResultException, (Result.ofResult v : Result T E).get_exception = .error x) ∧
      (Result.ofResult v : Result T E).into_optional_result = some v ∧
      (Result.ofResult v : Result T E).into_optional_exception = none) ∧
    (∀ e : E, (Result.ofException e : Result T E).has_exception = true ∧
      (Result.ofException e : Result T E).get_exception = .ok e ∧
      (∃ x : ResultException, (Result.ofException e : Result T E).get_result = .error x) ∧
      (Result.ofException e : Result T E).into_optional_exception = some e ∧
      (Result.ofException e : Result T E).into_optional_result = none) ∧
    (∀ r : Result T E, (r.into_optional_result.isSome = r.has_result) ∧
      (r.into_optional_exception.isSome = r.has_exception) ∧
      (r.into_optional_result.isSome = !r.into_optional_exception.isSome)) := by
  refine ⟨?_, ?_, ?_, ?_⟩
  · intro r
    cases r <;> rfl
  · intro v
    exact ⟨rfl, rfl, ⟨_, rfl⟩, rfl, rfl⟩
  · intro e
    exact ⟨rfl, rfl, ⟨_, rfl⟩, rfl, rfl⟩
  · intro r
    cases r <;> exact ⟨rfl, rfl, rfl⟩

end il2cpp_utils

namespace Counter

theorem get_add_self (c : Counter) (a : Nat) :
    (c.add a).get a = (c.get a + 1) % 2 ^ 64 := by
  unfold add get
  cases h : c.addrRefCount a <;> simp

theorem get_add_other (c : Counter) (a b : Nat) (hb : b ≠ a) :
    (c.add a).get b = c.get b := by
  unfold add get
  cases h : c.addrRefCount a <;> simp [hb]

theorem get_remove_self (c : Counter) (a : Nat) :
    (c.remove a).get a = c.get a - 1 ∧ (c.get a ≤ 1 → (c.remove a).addrRefCount a = none) := by
  unfold remove get
  cases h : c.addrRefCount a with
  | none => simp [h]
  | some n =>
    by_cases hn : n > 1
    · simp [hn]
    · simp [hn]
      omega

theorem get_remove_other (c : Counter) (a b : Nat) (hb : b ≠ a) :
    (c.remove a).get b = c.get b ∧ (c.remove a).addrRefCount b = c.addrRefCount b := by
  unfold remove get
  cases h : c.addrRefCount a with
  | none => simp
  | some n =>
    by_cases hn : n > 1
    · simp [hn, hb]
    · simp [hn, hb]

theorem addrRefCount_add_other (c : Counter) (a b : Nat) (hb : b ≠ a) :
    (c.add a).addrRefCount b = c.addrRefCount b := by
  unfold add
  cases h : c.addrRefCount a <;> simp [hb]

theorem addrRefCount_remove_none (c : Counter) (a b : Nat) (h : c.addrRefCount b = none) :
    (c.remove a).addrRefCount b = none := by
  by_cases hb : b = a
  · subst hb
    unfold remove
    simp [h]
  · rw [(get_remove_other c a b hb).2, h]

theorem run_never_added (a : Nat) :
    ∀ (ops : List Op) (c : Counter), c.addrRefCount a = none → Op.add a ∉ ops →
      (c.run ops).addrRefCount a = none := by
  intro ops
  induction ops with
  | nil => intro c h _; exact h
  | cons op ops ih =>
    intro c h hn
    have hn1 : Op.add a ∉ ops := fun hm => hn (List.mem_cons_of_mem _ hm)
    cases op with
    | add b =>
      have hb : a ≠ b := by
        intro hab
        apply hn
        rw [hab]
        exact List.mem_cons_self _ _
      simp only [run]
      exact ih _ (by rw [addrRefCount_add_other c b a hb]; exact h) hn1
    | remove b =>
      simp only [run]
      exact ih _ (addrRefCount_remove_none c b a h) hn1

/-- C25. `Counter` keeps per-address reference counts. `get(a)` is `0` for an
address never added: on the empty map and after any sequence of calls without
an `add(a)`. After `add(a)` the count of `a` is the previous count plus one
(taken in `size_t`; exactly plus one below the largest `size_t`). After
`remove(a)` it is the previous count minus one, floored at zero, and an address
with one or fewer references is erased. Neither `add(a)` nor `remove(a)`
changes `get(b)` for `b` different from `a`. -/
theorem counts_as_documented (c : Counter) (a : Nat) :
    (∀ ops : List Op, Op.add a ∉ ops → (empty.run ops).get a = 0) ∧
    ((c.add a).get a = (c.get a + 1) % 2 ^ 64 ∧
      (c.get a < 2 ^ 64 - 1 → (c.add a).get a = c.get a + 1)) ∧
    ((c.remove a).get a = c.get a - 1 ∧
      (c.get a ≤ 1 → (c.remove a).addrRefCount a = none)) ∧
    (∀ b, b ≠ a → (c.add a).get b = c.get b ∧ (c.remove a).get b = c.get b) := by
  refine ⟨?_, ⟨get_add_self c a, ?_⟩, get_remove_self c a, ?_⟩
  · intro ops hops
    have h := run_never_added a ops empty rfl hops
    unfold get
    rw [h]
  · intro hlt
    rw [get_add_self]
    omega
  · intro b hb
    exact ⟨get_add_other c a b hb, (get_remove_other c a b hb).1⟩

/-- C25, worked example: with `0x5000` counted twice and `0x6000` once, a
third `add(0x5000)` gives `3` and leaves `0x6000` at `1`; `0x7000`, never
added, stays at `0` through calls on other addresses; `remove` takes `0x5000`
to `1` and erases `0x6000`. -/
theorem counts_as_documented_witness :
    (exCounter.add 0x5000).get 0x5000 = 3 ∧
    (exCounter.add 0x5000).get 0x6000 = 1 ∧
    (empty.run [.add 0x5000, .remove 0x7000, .add 0x6000]).get 0x7000 = 0 ∧
    (exCounter.remove 0x5000).get 0x5000 = 1 ∧
    (exCounter.remove 0x6000).addrRefCount 0x6000 = none := by
  have h := counts_as_documented exCounter 0x5000
  have h6 := counts_as_documented exCounter 0x6000
  have h7 := counts_as_documented exCounter 0x7000
  refine ⟨?_, ?_, ?_, ?_, ?_⟩
  · exact h.2.1.2 (by decide)
  · exact (h.2.2.2 0x6000 (by decide)).1
  · exact h7.1 _ (by decide)
  · exact h.2.2.1.1
  · exact h6.2.2.1.2 (by decide)

end Counter

theorem SafePtr.try_cast_of_resolved (env : CastEnv) (self : SafePtr) (hk : env.classofU ≠ 0) :
    self.try_cast env = none := by
  unfold SafePtr.try_cast
  cases self.internalHandle with
  | none => rfl
  | some w => simp [hk]

/-- C23, evaluated on the failing input. The handle is valid, the instance
`0x5000` is non-null with the non-null class `0x7100`, the target class
resolves to `0x7000` and is assignable from `0x7100`: `SafePtr::try_cast`
returns empty all the same, where `CountPointer::try_cast` on the same
instance returns the pointer. -/
theorem SafePtr.try_cast_resolved_empty :
    (SafePtr.ctor 0x5000).isHandleValid = true ∧
    exCastEnv.klassAt 0x5000 ≠ 0 ∧
    exCastEnv.classofU ≠ 0 ∧
    exCastEnv.class_is_assignable_from exCastEnv.classofU (exCastEnv.klassAt 0x5000) = true ∧
    (SafePtr.ctor 0x5000).try_cast exCastEnv = none ∧
    (CountPointer.mk 0x5000).try_cast exCastEnv = some ⟨0x5000⟩ := by
  refine ⟨by decide, by decide, by decide, by decide, ?_, by decide⟩
  exact SafePtr.try_cast_of_resolved exCastEnv _ (by decide)

namespace ListWrapper

theorem std_find_if_le (v : Nat → Nat) (pred : Nat → Bool) :
    ∀ (count first : Nat), first ≤ std_find_if v pred first count ∧
      std_find_if v pred first count ≤ first + count := by
  intro count
  induction count with
  | zero => intro first; simp [std_find_if]
  | succ k ih =>
    intro first
    simp only [std_find_if]
    split
    · omega
    · have := ih (first + 1)
      omega

theorem std_find_if_found (v : Nat → Nat) (pred : Nat → Bool) :
    ∀ (count first : Nat), std_find_if v pred first count < first + count →
      pred (v (std_find_if v pred first count)) = true ∧
      ∀ j, first ≤ j → j < std_find_if v pred first count → pred (v j) = false := by
  intro count
  induction count with
  | zero => intro first h; simp [std_find_if] at h
  | succ k ih =>
    intro first h
    simp only [std_find_if] at h ⊢
    by_cases hp : pred (v first) = true
    · rw [if_pos hp]
      exact ⟨hp, fun j h1 h2 => by omega⟩
    · rw [if_neg hp] at h ⊢
      have := ih (first + 1) (by omega)
      refine ⟨this.1, fun j h1 h2 => ?_⟩
      by_cases hj : j = first
      · subst hj
        simpa using hp
      · exact this.2 j (by omega) h2

theorem std_find_if_none (v : Nat → Nat) (pred : Nat → Bool) :
    ∀ (count first : Nat), std_find_if v pred first count = first + count →
      ∀ j, first ≤ j → j < first + count → pred (v j) = false := by
  intro count
  induction count with
  | zero => intro first _ j h1 h2; omega
  | succ k ih =>
    intro first h j h1 h2
    simp only [std_find_if] at h
    by_cases hp : pred (v first) = true
    · rw [if_pos hp] at h
      omega
    · rw [if_neg hp] at h
      by_cases hj : j = first
      · subst hj
        simpa using hp
      · exact ih (first + 1) (by omega) j (by omega) (by omega)

theorem find_recurses (l : ManagedList) (func : Nat → Bool) (i : Nat) (hi : i < size l)
    (hp : func (l._items._values i) = true) : ∀ fuel, find fuel l func = none := by
  have hne : std_find_if l._items._values func 0 (size l - 0) ≠ size l := by
    intro h
    have := std_find_if_none l._items._values func (size l - 0) 0 (by omega) i (by omega)
      (by omega)
    rw [hp] at this
    cases this
  intro fuel
  induction fuel with
  | zero => rfl
  | succ k ih =>
    simp only [find, hne, if_false]
    exact ih

theorem find_const_first (l : ManagedList) (func : Nat → Bool) :
    (∀ i, find_const l func = some i →
      i < size l ∧ func (l._items._values i) = true ∧
      ∀ j, j < i → func (l._items._values j) = false) ∧
    (find_const l func = none ↔ ∀ j, j < size l → func (l._items._values j) = false) := by
  have hle := std_find_if_le l._items._values func (size l - 0) 0
  constructor
  · intro i h
    unfold find_const at h
    simp only [] at h
    split at h
    · cases h
    · rename_i hne
      injection h with h
      subst h
      have hf := std_find_if_found l._items._values func (size l - 0) 0 (by omega)
      exact ⟨by omega, hf.1, fun j hj => hf.2 j (by omega) hj⟩
  · unfold find_const
    simp only []
    constructor
    · intro h
      split at h
      · rename_i heq
        intro j hj
        exact std_find_if_none l._items._values func (size l - 0) 0 (by omega) j (by omega)
          (by omega)
      · cases h
    · intro h
      split
      · rfl
      · rename_i hne
        have hf := std_find_if_found l._items._values func (size l - 0) 0 (by omega)
        have hlt : std_find_if l._items._values func 0 (size l - 0) < size l := by omega
        have := h _ hlt
        rw [hf.1] at this
        cases this

/-- C29, evaluated on the failing input. On the list `[10, 20, 30]` with the
predicate "equals 20" the overload of `find` that is not `const` never
returns: whatever the depth of calls allowed, it is used up. The `const`
overload returns the reference to index `1` there. With the predicate
"equals 50", which no element satisfies, the overload that is not `const`
returns empty. -/
theorem find_never_returns :
    elems exList = [10, 20, 30] ∧
    (∀ fuel, find fuel exList (fun x => x == 20) = none) ∧
    find_const exList (fun x => x == 20) = some 1 ∧
    find 1 exList (fun x => x == 50) = some none := by
  refine ⟨by decide, ?_, by decide, by decide⟩
  exact find_recurses exList _ 1 (by decide) (by decide)

/-- C24, evaluated on the failing input. `insert_at(1, 99)` on the list
`[10, 20, 30]` (backing array of four elements) leaves `[10, 99, 20, 0]`: the
element `30` is lost, where `[10, 99, 20, 30]` is what `List<T>.Insert` gives.
Size and version are increased by one. Likewise `insert_at(0, 99)` leaves
`[99, 20, 30, 10]`. At the end of the list, `insert_at(3, 99)` gives
`[10, 20, 30, 99]`, and `insert_at(4, 99)`, past the end, throws. -/
theorem insert_at_loses_tail :
    elems exList = [10, 20, 30] ∧
    (insert_at exList 1 99).toOption.map elems = some [10, 99, 20, 0] ∧
    (insert_at exList 1 99).toOption.map (fun l => (l._size, l._version)) = some (4, 8) ∧
    (insert_at exList 0 99).toOption.map elems = some [99, 20, 30, 10] ∧
    (insert_at exList 3 99).toOption.map elems = some [10, 20, 30, 99] ∧
    (insert_at exList 4 99).toOption.map elems = none := by
  decide

end ListWrapper

namespace ManagedArray

end ManagedArray
